import Mathlib

/-!
# Skeletal blending: locomotion, terrain sampling and quaternion math

A shallow embedding of `Quaternion.cpp`, `Terrain.cpp`, `BVH.cpp` (the blend) and
`Scene.cpp` (the locomotion state machine).

Conventions of the embedding:

* `float` values are elements of a linear ordered field `K` with exact arithmetic
  (`ℚ` to run the definitions, `ℝ` for the statements about `sin` and `cos`).
* The functions of `<cmath>` the program calls are the fields of a `CMath K` value.
* `long` and `int` values are `Int`; `unsigned long frameNumber` is a `Nat` that wraps
  at `2 ^ 64`.
* Reading a vector outside its bounds is undefined in C++; the embedding reads the
  element type's zero there, and the claims about safety state the index bounds
  explicitly.
-/

namespace SkeletalBlending

/-! ## `<cmath>` and `<limits>` -/

/-- The `<cmath>` functions and constant used by the program (`std::sin`, `std::cos`,
`std::acos`, the square root behind `Cartesian3::length`, and `M_PI`). -/
structure CMath (K : Type) where
  sin : K → K
  cos : K → K
  acos : K → K
  sqrt : K → K
  pi : K

/-- The constant `std::numeric_limits<float>::epsilon()`, which is `2 ^ (-23)`. -/
def floatEpsilon {K : Type} [LinearOrderedField K] : K := 1 / 8388608

/-- Conversion of a `float` to `long`: truncation toward zero. -/
def truncToLong {K : Type} [LinearOrderedField K] [FloorRing K] (v : K) : Int :=
  if 0 ≤ v then ⌊v⌋ else -⌊-v⌋

/-- The function `std::clamp(v, lo, hi)`: `lo` when `v < lo`, else `hi` when `hi < v`,
else `v`. -/
def clamp {K : Type} [LinearOrderedField K] (v lo hi : K) : K :=
  if v < lo then lo else if hi < v then hi else v

/-! ## `Cartesian3` and `Matrix4` -/

/-- The class `Cartesian3`: a point or vector `(x, y, z)`. -/
structure Cartesian3 (K : Type) where
  x : K
  y : K
  z : K
deriving DecidableEq, Repr

/-- The type `Matrix4`: `coordinates[row][column]`, four by four. -/
abbrev Matrix4 (K : Type) := Matrix (Fin 4) (Fin 4) K

namespace Cartesian3

variable {K : Type} [LinearOrderedField K]

/-- Modelled from the spec: `Cartesian3::operator+` (`Cartesian3.h` is not among the
sources); "add to location" is the component-wise sum. -/
def add (a b : Cartesian3 K) : Cartesian3 K := ⟨a.x + b.x, a.y + b.y, a.z + b.z⟩

/-- Modelled from the spec: `operator*(float, Cartesian3)` (`Cartesian3.h` is not among
the sources); the scalar multiple `speed · v`, component-wise. -/
def scale (s : K) (a : Cartesian3 K) : Cartesian3 K := ⟨s * a.x, s * a.y, s * a.z⟩

/-- Modelled from the spec: `Cartesian3::length` (`Cartesian3.h` is not among the
sources); the Euclidean length. -/
def length (m : CMath K) (a : Cartesian3 K) : K := m.sqrt (a.x * a.x + a.y * a.y + a.z * a.z)

/-- Modelled from the spec: `Cartesian3::unit` (`Cartesian3.h` is not among the
sources); the vector divided by its length. -/
def unit (m : CMath K) (a : Cartesian3 K) : Cartesian3 K := scale (1 / length m a) a

end Cartesian3

/-- Modelled from the spec: `Matrix4::operator*(const Cartesian3&)` (`Matrix4.h` is not
among the sources); "orientation · forwardAxis" applies the rotation block of the matrix
to the vector. -/
def Matrix4.mulVec3 {K : Type} [LinearOrderedField K] (a : Matrix4 K) (v : Cartesian3 K) :
    Cartesian3 K :=
  ⟨a 0 0 * v.x + a 0 1 * v.y + a 0 2 * v.z,
   a 1 0 * v.x + a 1 1 * v.y + a 1 2 * v.z,
   a 2 0 * v.x + a 2 1 * v.y + a 2 2 * v.z⟩

/-! ## `Quaternion.cpp` -/

/-- The class `Quaternion`: the values `(x, y, z, w)` of `q[0..3]` for the quaternion
`w + x i + y j + z k`. -/
structure Quaternion (K : Type) where
  x : K
  y : K
  z : K
  w : K
deriving DecidableEq, Repr

namespace Quaternion

variable {K : Type} [LinearOrderedField K]

/-- The default constructor `Quaternion::Quaternion()`: `(0, 0, 0, 1)`. -/
def identity : Quaternion K := ⟨0, 0, 0, 1⟩

/-- The constructor `Quaternion::Quaternion(const Cartesian3& axis, float theta)`. -/
def fromAxisAngle (m : CMath K) (axis : Cartesian3 K) (theta : K) : Quaternion K :=
  let thetaRad := m.pi * theta / 180
  let v := Cartesian3.scale (m.sin thetaRad) (axis.unit m)
  ⟨v.x, v.y, v.z, m.cos thetaRad⟩

/-- The method `Quaternion::matrix`. -/
def matrix (q : Quaternion K) : Matrix4 K :=
  let xx := q.x * q.x
  let xy := q.x * q.y
  let xz := q.x * q.z
  let xw := q.x * q.w
  let yy := q.y * q.y
  let yz := q.y * q.z
  let yw := q.y * q.w
  let zz := q.z * q.z
  let zw := q.z * q.w
  !![1 - 2 * (yy + zz), 2 * (xy - zw), 2 * (xz + yw), 0;
     2 * (xy + zw), 1 - 2 * (xx + zz), 2 * (yz - xw), 0;
     2 * (xz - yw), 2 * (yz + xw), 1 - 2 * (xx + yy), 0;
     0, 0, 0, 1]

/-- The method `Quaternion::operator+`. -/
def add (p q : Quaternion K) : Quaternion K := ⟨p.x + q.x, p.y + q.y, p.z + q.z, p.w + q.w⟩

/-- The method `Quaternion::operator*(const Quaternion&)`. -/
def mul (p q : Quaternion K) : Quaternion K :=
  ⟨p.x * q.w + p.y * q.z - p.z * q.y + p.w * q.x,
   -p.x * q.z + p.y * q.w + p.z * q.x + p.w * q.y,
   p.x * q.y - p.y * q.x + p.z * q.w + p.w * q.z,
   -p.x * q.x - p.y * q.y - p.z * q.z + p.w * q.w⟩

/-- The method `Quaternion::dot`. -/
def dot (p q : Quaternion K) : K := p.x * q.x + p.y * q.y + p.z * q.z + p.w * q.w

/-- The function `operator*(float scalar, const Quaternion&)`. -/
def scale (scalar : K) (q : Quaternion K) : Quaternion K :=
  ⟨scalar * q.x, scalar * q.y, scalar * q.z, scalar * q.w⟩

/-- A unit quaternion: `x² + y² + z² + w² = 1`. -/
def IsUnit (q : Quaternion K) : Prop := q.dot q = 1

end Quaternion

/-- The function `slerp(q0, q1, t)` of `Quaternion.cpp`. -/
def slerp {K : Type} [LinearOrderedField K] (m : CMath K) (q0 q1 : Quaternion K) (t : K) :
    Quaternion K :=
  let cosTheta := q0.dot q1
  if cosTheta - 1 < floatEpsilon then
    (Quaternion.scale (1 - t) q0).add (Quaternion.scale t q1)
  else
    let angle := m.acos cosTheta
    let d := m.sin angle
    let s0 := m.sin ((1 - t) * angle) / d
    let s1 := m.sin (t * angle) / d
    (Quaternion.scale s0 q0).add (Quaternion.scale s1 q1)

/-! ## `Terrain.cpp` -/

/-- The class `Terrain`: the grid of elevations `heightValues[row][column]`, the grid
spacing `xyScale`, and the triangle soup `vertices` inherited from
`HomogeneousFaceSurface` (three vertices per triangle; each entry is the `Cartesian3`
that `readTerrainFile` assigns to the stored `Homogeneous4`). The per-triangle `normals`
serve the renderer only and are left out. -/
structure Terrain (K : Type) where
  heightValues : List (List K)
  xyScale : K
  vertices : List (Cartesian3 K)

/-- The terrain file as `readTerrainFile` sees it: the state bits of the `std::ifstream`
after its construction (`failbit` is set when the file could not be opened) and the
numbers that `operator>>` extracts: the two `long` values `height` and `width`, then the
`float` stream `values`. -/
structure TerrainFile (K : Type) where
  failbit : Bool
  badbit : Bool
  height : Int
  width : Int
  values : List K

/-- The position in a cell of the grid found by `getHeight` (lines 80 to 107): the
indices `row` and `column` and the fractional parts `xRemainder` and `yRemainder`. -/
structure GridCell (K : Type) where
  row : Int
  column : Int
  xRemainder : K
  yRemainder : K
deriving DecidableEq, Repr

namespace Terrain

variable {K : Type} [LinearOrderedField K]

/-- The constructor `Terrain::Terrain()`: `xyScale(1)` and empty vectors. -/
def empty : Terrain K := ⟨[], 1, []⟩

/-- The element `heightValues[row][column]`; zero when an index is outside the grid. -/
def heightAt (heightValues : List (List K)) (row column : Int) : K :=
  if 0 ≤ row ∧ 0 ≤ column then (heightValues.getD row.toNat []).getD column.toNat 0 else 0

/-- The vertex that `readTerrainFile` creates for the grid point `(row, col)`:
`Cartesian3(xyScale * col - midPoint.x, midPoint.y - xyScale * row, heightValues[row][col])`
with `midPoint.x = xyScale * (width / 2)` and `midPoint.y = xyScale * (height / 2)`. -/
def gridVertex (heightValues : List (List K)) (xyScale : K) (height width row col : Int) :
    Cartesian3 K :=
  let midPointX := xyScale * ((width / 2 : Int) : K)
  let midPointY := xyScale * ((height / 2 : Int) : K)
  ⟨xyScale * (col : K) - midPointX, midPointY - xyScale * (row : K),
   heightAt heightValues row col⟩

/-- The six vertices (two triangles) that `readTerrainFile` creates for the cell whose
upper-left grid point is `(row, col)` (lines 48 to 68). -/
def cellTriangles (heightValues : List (List K)) (xyScale : K) (height width row col : Int) :
    List (Cartesian3 K) :=
  [gridVertex heightValues xyScale height width row col,
   gridVertex heightValues xyScale height width (row + 1) (col + 1),
   gridVertex heightValues xyScale height width row (col + 1),
   gridVertex heightValues xyScale height width row col,
   gridVertex heightValues xyScale height width (row + 1) col,
   gridVertex heightValues xyScale height width (row + 1) (col + 1)]

/-- The method `Terrain::readTerrainFile`. The result pairs the returned `bool` with the
terrain after the call. Reads from a stream whose `failbit` is set extract nothing, so
`height` and `width` keep their initial value `0`; a missing `float` is read as `0`.
The list `vertices` holds the vertices that the loops assign, six per cell; a negative
`height` or `width`, for which `resize` throws, is read as an empty grid. -/
def readTerrainFile (t : Terrain K) (inFile : TerrainFile K) (xyScale : K) :
    Bool × Terrain K :=
  if inFile.badbit then (false, t)
  else
    let height : Int := if inFile.failbit then 0 else inFile.height
    let width : Int := if inFile.failbit then 0 else inFile.width
    let values : List K := if inFile.failbit then [] else inFile.values
    let heightValues : List (List K) :=
      (List.range height.toNat).map fun row =>
        (List.range width.toNat).map fun col => values.getD (row * width.toNat + col) 0
    let vertices : List (Cartesian3 K) :=
      (List.range (height - 1).toNat).flatMap fun row =>
        (List.range (width - 1).toNat).flatMap fun col =>
          cellTriangles heightValues xyScale height width row col
    (true, ⟨heightValues, xyScale, vertices⟩)

variable [FloorRing K]

/-- Lines 80 to 107 of `Terrain::getHeight`: from world coordinates to the grid cell. -/
def locate (t : Terrain K) (x y : K) : GridCell K :=
  let nRows : Int := t.heightValues.length
  let nColumns : Int := (t.heightValues.headD []).length
  let totalHeight : Int := truncToLong (((nRows - 1 : Int) : K) * t.xyScale)
  let i : Int := nRows / 2
  let j : Int := nColumns / 2
  let x := x + (j : K) * t.xyScale
  let y := y + (i : K) * t.xyScale
  let y := (totalHeight : K) - y
  let xInteger : Int := truncToLong (x / t.xyScale)
  let yInteger : Int := truncToLong (y / t.xyScale)
  let xRemainder := (x - t.xyScale * (xInteger : K)) / t.xyScale
  let yRemainder := (y - t.xyScale * (yInteger : K)) / t.xyScale
  ⟨yInteger, xInteger, xRemainder, yRemainder⟩

/-- The branch `xRemainder < yRemainder` of `Terrain::getHeight` (lines 118 to 125). -/
def heightLL (heightValues : List (List K)) (c : GridCell K) : K :=
  let alpha := c.yRemainder
  let beta := (1 - c.yRemainder) * c.xRemainder
  let gamma := 1 - alpha - beta
  alpha * heightAt heightValues c.row c.column +
    beta * heightAt heightValues (c.row + 1) (c.column + 1) +
    gamma * heightAt heightValues (c.row + 1) c.column

/-- The `else` branch of `Terrain::getHeight` (lines 131 to 137). -/
def heightUR (heightValues : List (List K)) (c : GridCell K) : K :=
  let alpha := 1 - c.yRemainder
  let beta := c.xRemainder * c.yRemainder
  let gamma := 1 - alpha - beta
  alpha * heightAt heightValues c.row c.column +
    beta * heightAt heightValues (c.row + 1) (c.column + 1) +
    gamma * heightAt heightValues c.row (c.column + 1)

/-- The method `Terrain::getHeight`. -/
def getHeight (t : Terrain K) (x y : K) : K :=
  let c := t.locate x y
  if c.xRemainder < c.yRemainder then heightLL t.heightValues c
  else heightUR t.heightValues c

/-- Whether `getHeight` at the cell reads only elements of the grid: it reads rows `row`
and `row + 1` and columns `column` and `column + 1`. -/
def InGrid (t : Terrain K) (c : GridCell K) : Prop :=
  0 ≤ c.row ∧ c.row + 1 ≤ (t.heightValues.length : Int) - 1 ∧
  0 ≤ c.column ∧ c.column + 1 ≤ ((t.heightValues.headD []).length : Int) - 1

end Terrain

/-! ## `BVH.cpp`: clips and the blend -/

/-- The class `Joint`: a node of the skeleton tree. -/
structure Joint (K : Type) where
  id : Int
  name : String
  offset : K × K × K
  channels : List String
  children : List (Joint K)

/-- The class `BVH`: a clip. The pointers of `allJoints` are represented by the joints
they point to. -/
structure BVH (K : Type) where
  root : Joint K
  frameCount : Int
  frameTime : K
  boneNames : List String
  allJoints : List (Joint K)
  parentBones : List Int
  frames : List (List K)
  boneTranslations : List (Cartesian3 K)
  boneRotations : List (List (Cartesian3 K))

/-- The function `easeInOut` of `BVH.cpp`. -/
def easeInOut {K : Type} [LinearOrderedField K] (t : K) : K :=
  let sqt := t * t
  sqt / (2 * (sqt - t) + 1)

namespace BVH

variable {K : Type} [LinearOrderedField K]

/-- The constructor `BVH::BVH()`: `root()`, `frameCount(0)`, `frameTime(0)` and empty
vectors. -/
def empty : BVH K :=
  { root := ⟨0, "", (0, 0, 0), [], []⟩, frameCount := 0, frameTime := 0, boneNames := [],
    allJoints := [], parentBones := [], frames := [], boneTranslations := [],
    boneRotations := [] }

/-- The row `boneRotations[index]` for an `int` index; empty when the index is outside
the vector. -/
def rotationsAt (boneRotations : List (List (Cartesian3 K))) (index : Int) :
    List (Cartesian3 K) :=
  if 0 ≤ index then boneRotations.getD index.toNat [] else []

/-- The method `BVH::blend(frame, target)`; `frame % frameCount` is the truncated
remainder of C++. -/
def blend (self : BVH K) (frame : Int) (target : BVH K) : BVH K :=
  let frameCount : Int := 12
  let frameRotations := rotationsAt self.boneRotations (Int.tmod frame self.frameCount)
  let targetRotations := rotationsAt target.boneRotations 0
  let boneRotations : List (List (Cartesian3 K)) :=
    (List.range frameCount.toNat).map fun (f : Nat) =>
      let t := easeInOut ((f : K) / ((frameCount : Int) : K))
      (List.range frameRotations.length).map fun i =>
        Cartesian3.add (Cartesian3.scale (1 - t) (frameRotations.getD i ⟨0, 0, 0⟩))
          (Cartesian3.scale t (targetRotations.getD i ⟨0, 0, 0⟩))
  { root := self.root, frameCount := frameCount, frameTime := self.frameTime,
    boneNames := [], allJoints := self.allJoints, parentBones := self.parentBones,
    frames := [], boneTranslations := self.boneTranslations,
    boneRotations := boneRotations }

end BVH

/-! ## `Scene.cpp`: the locomotion state machine -/

/-- The enumeration `AnimationState`. -/
inductive AnimationState where
  | Resting
  | Running
  | VeeringLeft
  | VeeringRight
deriving DecidableEq, Repr

/-- The target of the pointer `currentAnimation`: one of the four clips the scene owns. -/
inductive ClipRef where
  | restPose
  | runCycle
  | veerLeftCycle
  | veerRightCycle
deriving DecidableEq, Repr

/-- The constant `terrainPadding`. -/
def terrainPadding {K : Type} [LinearOrderedField K] : K := 16

/-- The constant `speedDelta`. -/
def speedDelta {K : Type} [LinearOrderedField K] : K := 1

/-- The constant `forward`. -/
def forward {K : Type} [LinearOrderedField K] : Cartesian3 K := ⟨0, 1, 0⟩

/-- The constant `up`. -/
def up {K : Type} [LinearOrderedField K] : Cartesian3 K := ⟨0, 0, 1⟩

/-- The constant `veerRotationTheta`: `45.0f / 2.0f`. -/
def veerRotationTheta {K : Type} [LinearOrderedField K] : K := 45 / 2

/-- The constant `veerFrames`. -/
def veerFrames : Nat := 33

/-- Conversion of the `unsigned long` frame counter to the `int` parameter of
`BVH::blend`: the value modulo `2 ^ 32`, read as a signed 32-bit number. -/
def toInt32 (n : Nat) : Int :=
  if n % 2 ^ 32 < 2 ^ 31 then ((n % 2 ^ 32 : Nat) : Int) else ((n % 2 ^ 32 : Nat) : Int) - 2 ^ 32

/-- Conversion of an `int` to `unsigned long` in the comparison
`frameNumber >= blendAnimation->frameCount`: the value modulo `2 ^ 64`. -/
def toUnsignedLong (i : Int) : Nat := (i % 2 ^ 64).toNat

/-- The class `Scene`, its character part: the terrain, the four clips, the character
state, and the file-level variables `veerFrom` and `veerTo`. The camera matrices, which
no character event or `update` reads or writes, are left out. -/
structure Scene (K : Type) where
  terrain : Terrain K
  restPose : BVH K
  runCycle : BVH K
  veerLeftCycle : BVH K
  veerRightCycle : BVH K
  currentAnimation : ClipRef
  blendAnimation : Option (BVH K)
  state : AnimationState
  characterLocation : Cartesian3 K
  characterRotation : Quaternion K
  characterSpeed : K
  frameNumber : Nat
  terrainRange : K × K
  veerFrom : Quaternion K
  veerTo : Quaternion K

namespace Scene

variable {K : Type} [LinearOrderedField K]

/-- The clip a `ClipRef` points to. -/
def clip (s : Scene K) : ClipRef → BVH K
  | ClipRef.restPose => s.restPose
  | ClipRef.runCycle => s.runCycle
  | ClipRef.veerLeftCycle => s.veerLeftCycle
  | ClipRef.veerRightCycle => s.veerRightCycle

/-- The call `currentAnimation->blend(frameNumber, target)` of the events and of `update`. -/
def blendInto (s : Scene K) (target : ClipRef) : BVH K :=
  (s.clip s.currentAnimation).blend (toInt32 s.frameNumber) (s.clip target)

/-- The method `Scene::eventCharacterTurnLeft`. -/
def eventCharacterTurnLeft (m : CMath K) (s : Scene K) : Scene K :=
  if s.state = AnimationState.VeeringLeft then s
  else
    { s with
      state := AnimationState.VeeringLeft
      blendAnimation := some (s.blendInto ClipRef.veerLeftCycle)
      frameNumber := 0
      veerFrom := s.characterRotation
      veerTo := s.characterRotation.mul (Quaternion.fromAxisAngle m up veerRotationTheta)
      currentAnimation := ClipRef.veerLeftCycle }

/-- The method `Scene::eventCharacterTurnRight`. -/
def eventCharacterTurnRight (m : CMath K) (s : Scene K) : Scene K :=
  if s.state = AnimationState.VeeringRight then s
  else
    { s with
      state := AnimationState.VeeringRight
      blendAnimation := some (s.blendInto ClipRef.veerRightCycle)
      frameNumber := 0
      veerFrom := s.characterRotation
      veerTo := s.characterRotation.mul (Quaternion.fromAxisAngle m up (-veerRotationTheta))
      currentAnimation := ClipRef.veerRightCycle }

/-- The method `Scene::eventCharacterForward`. -/
def eventCharacterForward (s : Scene K) : Scene K :=
  if s.state = AnimationState.Running then s
  else
    { s with
      state := AnimationState.Running
      blendAnimation := some (s.blendInto ClipRef.runCycle)
      frameNumber := 0
      characterSpeed := speedDelta
      currentAnimation := ClipRef.runCycle }

/-- The method `Scene::eventCharacterBackward`. -/
def eventCharacterBackward (s : Scene K) : Scene K :=
  if s.state = AnimationState.Resting then s
  else
    { s with
      state := AnimationState.Resting
      blendAnimation := some (s.blendInto ClipRef.restPose)
      frameNumber := 0
      characterSpeed := 0
      currentAnimation := ClipRef.restPose }

/-- The method `Scene::eventCharacterReset`. -/
def eventCharacterReset (m : CMath K) (s : Scene K) : Scene K :=
  { s with
    characterLocation := ⟨0, 0, 0⟩
    characterRotation := Quaternion.fromAxisAngle m up 0
    characterSpeed := 0
    state := AnimationState.Resting
    currentAnimation := ClipRef.restPose
    frameNumber := 0 }

/-- Lines 80 to 88 of `Scene::update`: the frame counter is incremented, and a blend
whose length is reached is discarded with the counter set back to `0`. -/
def advanceFrame (s : Scene K) : Scene K :=
  let frameNumber := (s.frameNumber + 1) % 2 ^ 64
  match s.blendAnimation with
  | some b =>
    if toUnsignedLong b.frameCount ≤ frameNumber then
      { s with frameNumber := 0, blendAnimation := none }
    else { s with frameNumber := frameNumber }
  | none => { s with frameNumber := frameNumber }

/-- Lines 90 to 103 of `Scene::update`: the veer. -/
def veer (m : CMath K) (s : Scene K) : Scene K :=
  if s.state = AnimationState.VeeringLeft ∨ s.state = AnimationState.VeeringRight then
    if s.frameNumber < veerFrames then
      let t := (s.frameNumber : K) / (veerFrames : K)
      { s with characterRotation := slerp m s.veerFrom s.veerTo t }
    else
      let state :=
        if s.characterSpeed > 0 then AnimationState.Running else AnimationState.Resting
      let nextAnimation :=
        if state = AnimationState.Running then ClipRef.runCycle else ClipRef.restPose
      { s with
        state := state
        blendAnimation := some (s.blendInto nextAnimation)
        frameNumber := 0
        currentAnimation := nextAnimation }
  else s

/-- Lines 106 and 107 of `Scene::update`: the location before clamping,
`characterLocation + characterSpeed * (characterRotation.matrix() * forward)`. -/
def unclamped (s : Scene K) : Cartesian3 K :=
  s.characterLocation.add
    (Cartesian3.scale s.characterSpeed (Matrix4.mulVec3 s.characterRotation.matrix forward))

variable [FloorRing K]

/-- Lines 105 to 115 of `Scene::update`: the move along the terrain plane, clamped to
`terrainRange`, and the height query. -/
def move (s : Scene K) : Scene K :=
  let updatedXY := s.unclamped
  let x := clamp updatedXY.x (-s.terrainRange.1) s.terrainRange.1
  let y := clamp updatedXY.y (-s.terrainRange.2) s.terrainRange.2
  let updatedZ := s.terrain.getHeight x y
  { s with characterLocation := ⟨x, y, updatedZ⟩ }

/-- The method `Scene::update`. -/
def update (m : CMath K) (s : Scene K) : Scene K :=
  move (veer m (advanceFrame s))

/-- The constructor `Scene::Scene()`. The four `readBVHFile` calls are represented by the
clips they load, and `blendAnimation`, which the constructor leaves uninitialised, by its
initial value. -/
def create (m : CMath K) (terrainFile : TerrainFile K)
    (restPose runCycle veerLeftCycle veerRightCycle : BVH K)
    (blendAnimation : Option (BVH K)) : Scene K :=
  let terrain := (Terrain.readTerrainFile Terrain.empty terrainFile 3).2
  let terrainRangeX := (terrain.heightValues.length : K) * terrain.xyScale
  let terrainRangeY := ((terrain.heightValues.headD []).length : K) * terrain.xyScale / 4
  eventCharacterReset m
    { terrain := terrain
      restPose := restPose
      runCycle := runCycle
      veerLeftCycle := veerLeftCycle
      veerRightCycle := veerRightCycle
      currentAnimation := ClipRef.restPose
      blendAnimation := blendAnimation
      state := AnimationState.Resting
      characterLocation := ⟨0, 0, 0⟩
      characterRotation := Quaternion.identity
      characterSpeed := 0
      frameNumber := 0
      terrainRange := (terrainRangeX - terrainPadding, terrainRangeY - terrainPadding)
      veerFrom := Quaternion.identity
      veerTo := Quaternion.identity }

end Scene


/-! ## Reference definitions of the specification -/

/-- The interpolation that the specification of `slerp` names:
`(sin ((1 - t) * W) / sin W) * q0 + (sin (t * W) / sin W) * q1` with `W = acos (q0 · q1)`. -/
def sphericalInterpolation {K : Type} [LinearOrderedField K] (m : CMath K)
    (q0 q1 : Quaternion K) (t : K) : Quaternion K :=
  let W := m.acos (q0.dot q1)
  (Quaternion.scale (m.sin ((1 - t) * W) / m.sin W) q0).add
    (Quaternion.scale (m.sin (t * W) / m.sin W) q1)

/-- The rotation matrix about the unit vector `axis` by `angle` radians, in the form of
Rodrigues: `cos angle * I + sin angle * [axis]ₓ + (1 - cos angle) * axis * axisᵀ`. -/
def axisAngleRotation {K : Type} [LinearOrderedField K] (m : CMath K) (axis : Cartesian3 K)
    (angle : K) : Matrix4 K :=
  let c := m.cos angle
  let s := m.sin angle
  !![c + axis.x * axis.x * (1 - c), axis.x * axis.y * (1 - c) - axis.z * s,
       axis.x * axis.z * (1 - c) + axis.y * s, 0;
     axis.y * axis.x * (1 - c) + axis.z * s, c + axis.y * axis.y * (1 - c),
       axis.y * axis.z * (1 - c) - axis.x * s, 0;
     axis.z * axis.x * (1 - c) - axis.y * s, axis.z * axis.y * (1 - c) + axis.x * s,
       c + axis.z * axis.z * (1 - c), 0;
     0, 0, 0, 1]

/-- The affine (barycentric) interpolation of the corner elevations over the triangle of
the cell that contains the point: `(1 - yr) * UL + (yr - xr) * LL + xr * LR` when
`xr < yr` and `(1 - xr) * UL + (xr - yr) * UR + yr * LR` otherwise. -/
def barycentricHeight {K : Type} [LinearOrderedField K] (heightValues : List (List K))
    (c : GridCell K) : K :=
  let UL := Terrain.heightAt heightValues c.row c.column
  let UR := Terrain.heightAt heightValues c.row (c.column + 1)
  let LL := Terrain.heightAt heightValues (c.row + 1) c.column
  let LR := Terrain.heightAt heightValues (c.row + 1) (c.column + 1)
  if c.xRemainder < c.yRemainder then
    (1 - c.yRemainder) * UL + (c.yRemainder - c.xRemainder) * LL + c.xRemainder * LR
  else
    (1 - c.xRemainder) * UL + (c.xRemainder - c.yRemainder) * UR + c.yRemainder * LR

/-! ## The control part of the scene

The animation state, the frame counter and the presence of a blend evolve without
reference to the location or the orientation. `Scene.control` projects a scene to that
part, and `Control.update` is the effect of `Scene.update` on it; the lemmas
`Scene.control_update` and `Scene.control_iterate` below prove that the projection
commutes with `Scene.update`. -/

/-- The part of a scene that decides the animation state: the state, the frame counter,
the length of the active blend as the `unsigned long` the counter is compared with, the
current clip, and whether the speed is positive. -/
structure Control where
  state : AnimationState
  frameNumber : Nat
  blendLength : Option Nat
  currentAnimation : ClipRef
  moving : Bool
deriving DecidableEq, Repr

/-- The control part of a scene. -/
def Scene.control {K : Type} [LinearOrderedField K] (s : Scene K) : Control :=
  ⟨s.state, s.frameNumber, s.blendAnimation.map fun b => toUnsignedLong b.frameCount,
   s.currentAnimation, decide (0 < s.characterSpeed)⟩

/-- The effect of `Scene.advanceFrame` on the control part. -/
def Control.advanceFrame (c : Control) : Control :=
  let frameNumber := (c.frameNumber + 1) % 2 ^ 64
  match c.blendLength with
  | some n =>
    if n ≤ frameNumber then { c with frameNumber := 0, blendLength := none }
    else { c with frameNumber := frameNumber }
  | none => { c with frameNumber := frameNumber }

/-- The effect of `Scene.veer` on the control part. -/
def Control.veer (c : Control) : Control :=
  if c.state = AnimationState.VeeringLeft ∨ c.state = AnimationState.VeeringRight then
    if c.frameNumber < veerFrames then c
    else
      let state := if c.moving then AnimationState.Running else AnimationState.Resting
      let nextAnimation :=
        if state = AnimationState.Running then ClipRef.runCycle else ClipRef.restPose
      { c with
        state := state
        blendLength := some 12
        frameNumber := 0
        currentAnimation := nextAnimation }
  else c

/-- The effect of `Scene.update` on the control part. -/
def Control.update (c : Control) : Control := c.advanceFrame.veer

/-! ## Inputs of the evaluations -/

/-- A three by three terrain with spacing `1`, flat at `0` except for the grid point of
row `1`, column `0`, which has elevation `4`. -/
def rampTerrain {K : Type} [LinearOrderedField K] : Terrain K :=
  (Terrain.readTerrainFile Terrain.empty ⟨false, false, 3, 3, [0, 0, 0, 4, 0, 0, 0, 0, 0]⟩ 1).2

/-- A four by four terrain with spacing `3` whose elevations are `1` to `16` in file
order. -/
def evenTerrain {K : Type} [LinearOrderedField K] : Terrain K :=
  (Terrain.readTerrainFile Terrain.empty
    ⟨false, false, 4, 4, [1, 2, 3, 4, 5, 6, 7, 8, 9, 10, 11, 12, 13, 14, 15, 16]⟩ 3).2

/-- A terrain file for a flat grid of `22` rows and `22` columns. -/
def squareFile {K : Type} [LinearOrderedField K] : TerrainFile K :=
  ⟨false, false, 22, 22, List.replicate 484 0⟩

/-- A flat terrain of `403` rows and `403` columns with spacing `1`. -/
def flatTerrain {K : Type} [LinearOrderedField K] : Terrain K :=
  (Terrain.readTerrainFile Terrain.empty ⟨false, false, 403, 403, List.replicate 162409 0⟩ 1).2

/-- A clip with one joint and two frames. -/
def twoFrameClip {K : Type} [LinearOrderedField K] : BVH K :=
  { (BVH.empty : BVH K) with
    frameCount := 2
    boneTranslations := [⟨0, 0, 0⟩]
    boneRotations := [[⟨0, 0, 0⟩], [⟨10, 20, 30⟩]] }

/-- A scene on `flatTerrain` with `terrainRange = (100, 100)`: the character runs at
speed `1` from `(149, 0, 0)`, turned so that `forward` points along `+x`. -/
def edgeScene {K : Type} [LinearOrderedField K] : Scene K :=
  { terrain := flatTerrain
    restPose := twoFrameClip
    runCycle := twoFrameClip
    veerLeftCycle := twoFrameClip
    veerRightCycle := twoFrameClip
    currentAnimation := ClipRef.runCycle
    blendAnimation := none
    state := AnimationState.Running
    characterLocation := ⟨149, 0, 0⟩
    characterRotation := ⟨1 / 2, 1 / 2, 1 / 2, -1 / 2⟩
    characterSpeed := 1
    frameNumber := 5
    terrainRange := (100, 100)
    veerFrom := Quaternion.identity
    veerTo := Quaternion.identity }

/-- A scene on `flatTerrain` in the reset state: `Resting` at the origin, identity
orientation, speed `0`, no blend. -/
def restScene {K : Type} [LinearOrderedField K] : Scene K :=
  { terrain := flatTerrain
    restPose := twoFrameClip
    runCycle := twoFrameClip
    veerLeftCycle := twoFrameClip
    veerRightCycle := twoFrameClip
    currentAnimation := ClipRef.restPose
    blendAnimation := none
    state := AnimationState.Resting
    characterLocation := ⟨0, 0, 0⟩
    characterRotation := ⟨0, 0, 0, 1⟩
    characterSpeed := 0
    frameNumber := 0
    terrainRange := (100, 100)
    veerFrom := Quaternion.identity
    veerTo := Quaternion.identity }

/-- A scene on `flatTerrain` in state `Running` at speed `1`, no blend, frame `7`. -/
def runScene {K : Type} [LinearOrderedField K] : Scene K :=
  { (restScene : Scene K) with
    currentAnimation := ClipRef.runCycle
    state := AnimationState.Running
    characterSpeed := 1
    frameNumber := 7 }

/-! ## `BVH.cpp`: reading a clip

The `std::ifstream` of `readBVHFile` is an `IfStream`: its state bits and the lines that
`std::getline` has not read yet. The loops of the parser that need not end (at the end
of the file `newLine` keeps handing out an empty line) take a `fuel` argument and return
`none` when it runs out. `std::stof` is a parameter; `std::stoi`, which throws when the
text has no digits, gives `0` there. -/

/-- The text stream `std::ifstream inFile(fileName)`: `failbit` is set when the file
could not be opened and when a read fails; `lines` are the lines not read yet. -/
structure IfStream where
  failbit : Bool
  badbit : Bool
  lines : List String
deriving DecidableEq, Repr

/-- The function `std::getline(inFile, line)`: whether a line was read, the line, and the
stream afterwards. At the end of the file it reads nothing and sets `failbit`. -/
def getline (inFile : IfStream) : Bool × String × IfStream :=
  if inFile.failbit || inFile.badbit then (false, "", inFile)
  else
    match inFile.lines with
    | [] => (false, "", { inFile with failbit := true })
    | line :: rest => (true, line, { inFile with lines := rest })

/-- The function `isspace` of the C locale. -/
def isspace (c : Char) : Bool :=
  c = ' ' || c = '\t' || c = '\n' || c = '\r' || c.toNat = 11 || c.toNat = 12

/-- The loop of `BVH::splitString` over the characters left; `word` holds the reversed
characters of the token being read, or `none` between tokens. An extraction that meets
the end of the input while it skips white space fails, and its empty token is pushed. -/
def splitChars : List Char → Option (List Char) → List String
  | [], none => [""]
  | [], some word => [String.mk word.reverse]
  | c :: rest, none => if isspace c then splitChars rest none else splitChars rest (some [c])
  | c :: rest, some word =>
    if isspace c then String.mk word.reverse :: splitChars rest none
    else splitChars rest (some (c :: word))

/-- The method `BVH::splitString`: the tokens of a line. -/
def splitString (input : String) : List String := splitChars input.toList none

/-- The method `BVH::newLine`: the tokens of the next line and the stream afterwards. -/
def newLine (inFile : IfStream) : List String × IfStream :=
  let r := getline inFile
  (splitString r.2.1, r.2.2)

/-- The method `BVH::isNumeric`: every character is a decimal digit. -/
def isNumeric (str : String) : Bool := str.toList.all Char.isDigit

/-- The function `std::stoi`: optional white space, an optional sign, then decimal
digits up to the first other character; `0` when there is no digit. -/
def stoi (str : String) : Int :=
  let cs := str.toList.dropWhile isspace
  let negative := cs.head? = some '-'
  let cs := if cs.head? = some '-' ∨ cs.head? = some '+' then cs.tail else cs
  let value : Nat := (cs.takeWhile Char.isDigit).foldl (fun a c => 10 * a + (c.toNat - 48)) 0
  if negative then -(value : Int) else (value : Int)

/-- The map `BVH::bvhChannels` read with `operator[]`: a name that is not a key gives
`0`. -/
def bvhChannels (name : String) : Int :=
  if name = "Xposition" then 0
  else if name = "Yposition" then 1
  else if name = "Zposition" then 2
  else if name = "Xrotation" then 3
  else if name = "Yrotation" then 4
  else if name = "Zrotation" then 5
  else 0

namespace Joint

variable {K : Type} [LinearOrderedField K]

/-- The constructor of `Joint`: empty name, zero offset, no channels and no children
(`id` is not initialised; the embedding starts it at `0`). -/
def empty : Joint K := ⟨0, "", (0, 0, 0), [], []⟩

/-- Lines 107 to 109 of `readHierarchy`: the `OFFSET` line. -/
def readOffset (stof : String → K) (joint : Joint K) (line : List String) : Joint K :=
  { joint with offset := (stof (line.getD 1 ""), stof (line.getD 2 ""), stof (line.getD 3 "")) }

/-- Lines 113 to 115 of `readHierarchy`: the `CHANNELS` line. -/
def readChannels (joint : Joint K) (line : List String) : Joint K :=
  { joint with
    channels := joint.channels ++
      (List.range (stoi (line.getD 1 "")).toNat).map fun i => line.getD (i + 2) "" }

end Joint

namespace BVH

variable {K : Type} [LinearOrderedField K]

/-- Lines 92 to 95 of `readHierarchy`: the joint takes the next id and the name
`line[1]`, and the name and the parent are pushed on `boneNames` and `parentBones`. -/
def enterJoint (self : BVH K) (line : List String) (joint : Joint K) (parent : Int) :
    BVH K × Joint K :=
  let joint := { joint with id := (self.boneNames.length : Int), name := line.getD 1 "" }
  ({ self with
      boneNames := self.boneNames ++ [joint.name]
      parentBones := self.parentBones ++ [parent] },
   joint)

mutual

/-- The method `BVH::readHierarchy`: the clip, the stream, the last line read and the
joint after the call; `none` when the fuel runs out. -/
def readHierarchy (stof : String → K) :
    Nat → BVH K → IfStream → List String → Joint K → Int →
      Option (BVH K × IfStream × List String × Joint K)
  | 0, _, _, _, _, _ => none
  | fuel + 1, self, inFile, line, joint, parent =>
    let entered := enterJoint self line joint parent
    let next := newLine inFile
    if next.1.getD 0 "" = "\x7b" then
      let first := newLine next.2
      readBlock stof fuel entered.1 first.2 first.1 entered.2
    else some (entered.1, next.2, next.1, entered.2)

/-- The loop `while (line[0] != "}")` of `BVH::readHierarchy` (lines 102 to 130). -/
def readBlock (stof : String → K) :
    Nat → BVH K → IfStream → List String → Joint K →
      Option (BVH K × IfStream × List String × Joint K)
  | 0, _, _, _, _ => none
  | fuel + 1, self, inFile, line, joint =>
    if line.getD 0 "" ≠ "\x7d" then
      if line.getD 0 "" = "OFFSET" then
        let next := newLine inFile
        readBlock stof fuel self next.2 next.1 (joint.readOffset stof line)
      else if line.getD 0 "" = "CHANNELS" then
        let next := newLine inFile
        readBlock stof fuel self next.2 next.1 (joint.readChannels line)
      else if line.getD 0 "" = "JOINT" then
        match readHierarchy stof fuel self inFile line Joint.empty joint.id with
        | none => none
        | some (self, inFile, _, child) =>
          let next := newLine inFile
          readBlock stof fuel self next.2 next.1
            { joint with children := joint.children ++ [child] }
      else if line.getD 0 "" = "End" then
        let next := newLine (newLine (newLine (newLine inFile).2).2).2
        readBlock stof fuel self next.2 next.1 joint
      else
        let next := newLine inFile
        readBlock stof fuel self next.2 next.1 joint
    else some (self, inFile, line, joint)

end

/-- The loop of `BVH::readMotion` (lines 148 to 159) over the lines left: each line up to
the first empty one gives a frame, made of the tokens for which `isNumeric` is false. -/
def readFrames (stof : String → K) : List String → List (List K) → List (List K)
  | [], frames => frames
  | line :: rest, frames =>
    if line.length ≠ 0 then
      readFrames stof rest
        (frames ++ [((splitString line).filter fun token => !isNumeric token).map stof])
    else frames

/-- The method `BVH::readMotion`. The stream is not read again after the call, so only
the clip is returned. -/
def readMotion (stof : String → K) (self : BVH K) (inFile : IfStream) : BVH K :=
  let first := newLine inFile
  let second := newLine first.2
  let self :=
    { self with
      frameCount := stoi (first.1.getD 1 "")
      frameTime := stof (second.1.getD 2 "") }
  if second.2.failbit || second.2.badbit then self
  else { self with frames := readFrames stof second.2.lines self.frames }

mutual

/-- The method `BVH::setAllJoints`: the joint, then the joints of its children, are
pushed on the list (the pointers are represented by the joints). -/
def setAllJoints : Joint K → List (Joint K) → List (Joint K)
  | ⟨id, name, offset, channels, children⟩, jointList =>
    setChildJoints children (jointList ++ [⟨id, name, offset, channels, children⟩])

/-- The loop of `BVH::setAllJoints` over the children. -/
def setChildJoints : List (Joint K) → List (Joint K) → List (Joint K)
  | [], jointList => jointList
  | child :: rest, jointList => setChildJoints rest (setAllJoints child jointList)

end

/-- The assignment `rotation[rotationIndex - 3] = value` of `loadRotationData` on the
array `rotation[3]`; an index outside the array leaves it as it is. -/
def setRotation (rotation : Cartesian3 K) (index : Int) (value : K) : Cartesian3 K :=
  if index = 0 then { rotation with x := value }
  else if index = 1 then { rotation with y := value }
  else if index = 2 then { rotation with z := value }
  else rotation

/-- The inner loop of `BVH::loadRotationData` (lines 319 to 324) from channel `k` on:
`channels` are the channels `k`, `k + 1`, ... of the joint and `j` is the position of
the joint's first float. `substr(1)` drops the first character of the channel name. -/
def channelLoop (frames : List K) (j : Nat) :
    List String → Nat → Cartesian3 K → Cartesian3 K
  | [], _, rotation => rotation
  | channel :: rest, k, rotation =>
    if String.mk (channel.toList.drop 1) = "rotation" then
      channelLoop frames j rest (k + 1)
        (setRotation rotation (bvhChannels channel - 3) (frames.getD (j + k) 0))
    else channelLoop frames j rest (k + 1) rotation

/-- The outer loop of `BVH::loadRotationData` (lines 317 to 328) from joint `j_c` on:
`joints` are the joints `allJoints[j_c]`, `allJoints[j_c + 1]`, ... and `j` is the
position in `frames`. The loop stops when `j` reaches `frames.size()`; running out of
joints before that, where the source reads past the end of `allJoints`, stops it too. -/
def rotationLoop (frames : List K) :
    List (Joint K) → Nat → List (Cartesian3 K) → List (Cartesian3 K)
  | [], _, rotations => rotations
  | joint :: rest, j, rotations =>
    if j < frames.length then
      rotationLoop frames rest (j + joint.channels.length)
        (rotations ++ [channelLoop frames j joint.channels 0 ⟨0, 0, 0⟩])
    else rotations

/-- The method `BVH::loadRotationData`: the vector `rotations` after the call. -/
def loadRotationData (self : BVH K) (rotations : List (Cartesian3 K)) (frames : List K) :
    List (Cartesian3 K) :=
  rotationLoop frames self.allJoints 0 rotations

/-- The method `BVH::loadAllData`. -/
def loadAllData (self : BVH K) : BVH K :=
  { self with
    boneRotations := self.boneRotations ++
      self.frames.map fun frame => self.loadRotationData [] frame
    boneTranslations := self.boneTranslations ++
      self.allJoints.map fun joint => ⟨joint.offset.1, joint.offset.2.1, joint.offset.2.2⟩ }

/-- The loop of `BVH::readBVHFile` (lines 40 to 54): the clip after the loop, `none` when
the fuel runs out. -/
def readSections (stof : String → K) : Nat → BVH K → IfStream → Option (BVH K)
  | 0, _, _ => none
  | fuel + 1, self, inFile =>
    let read := getline inFile
    if read.1 && read.2.1.length ≠ 0 then
      let tokens := splitString read.2.1
      if tokens.getD 0 "" = "HIERARCHY" then
        let header := newLine read.2.2
        match readHierarchy stof fuel self header.2 header.1 Joint.empty (-1) with
        | none => none
        | some (self, inFile, _, joint) => readSections stof fuel { self with root := joint } inFile
      else if tokens.getD 0 "" = "MOTION" then some (readMotion stof self read.2.2)
      else readSections stof fuel self read.2.2
    else some self

/-- The method `BVH::readBVHFile`: the returned `bool` and the clip after the call;
`none` when the fuel runs out. -/
def readBVHFile (stof : String → K) (fuel : Nat) (self : BVH K) (inFile : IfStream) :
    Option (Bool × BVH K) :=
  if inFile.badbit then some (false, self)
  else
    match readSections stof fuel self inFile with
    | none => none
    | some self =>
      some (true, loadAllData { self with allJoints := setAllJoints self.root self.allJoints })

end BVH

/-! ## `BVH.cpp` and `Scene.cpp`: rendering a pose

The OpenGL calls are left out: rendering a clip gives the list of the calls
`renderOrientedCylinder(viewMatrix, start, end)` it makes, in order. -/

/-- The static functions of `Matrix4` that build a matrix (`Matrix4.h` is not among the
sources): parameters of the rendering. -/
structure Matrix4Lib (K : Type) where
  translation : Cartesian3 K → Matrix4 K
  rotationX : K → Matrix4 K
  rotationY : K → Matrix4 K
  rotationZ : K → Matrix4 K

/-- A call `renderOrientedCylinder(viewMatrix, start, end)`: one bone. -/
structure Cylinder (K : Type) where
  viewMatrix : Matrix4 K
  start : Cartesian3 K
  finish : Cartesian3 K

/-- The constant `bvhScale`. -/
def bvhScale {K : Type} [LinearOrderedField K] : K := 1 / 10

namespace BVH

variable {K : Type} [LinearOrderedField K]

/-- The element `vector[index]` of a vector of `Cartesian3` for an `int` index; zero when
the index is outside the vector. -/
def vectorAt (vector : List (Cartesian3 K)) (index : Int) : Cartesian3 K :=
  if 0 ≤ index then vector.getD index.toNat ⟨0, 0, 0⟩ else ⟨0, 0, 0⟩

/-- Lines 177 to 191 of `BVH::renderJoint`: the matrix `jointMatrix` of the joint with
the given id; `frame % frameCount` is the truncated remainder of C++, and the product of
`Matrix4` (`Matrix4.h` is not among the sources) is the matrix product. -/
def jointMatrix (lib : Matrix4Lib K) (self : BVH K) (parentMatrix : Matrix4 K) (id : Int)
    (scale : K) (frame : Int) : Matrix4 K :=
  let translationMatrix :=
    lib.translation (Cartesian3.scale scale (vectorAt self.boneTranslations id))
  let frameIndex := Int.tmod frame self.frameCount
  let rotation := vectorAt (rotationsAt self.boneRotations frameIndex) id
  let rotationMatrix :=
    lib.rotationX (-rotation.x) * lib.rotationY (-rotation.y) * lib.rotationZ (-rotation.z)
  parentMatrix * translationMatrix * rotationMatrix

mutual

/-- The method `BVH::renderJoint`: the cylinders rendered for the joint's subtree. -/
def renderJoint (lib : Matrix4Lib K) (self : BVH K) (viewMatrix : Matrix4 K) (scale : K)
    (frame : Int) : Matrix4 K → Joint K → List (Cylinder K)
  | parentMatrix, ⟨id, _, _, _, children⟩ =>
    renderChildren lib self viewMatrix scale frame
      (jointMatrix lib self parentMatrix id scale frame)
      (viewMatrix * jointMatrix lib self parentMatrix id scale frame) children

/-- The loop of `BVH::renderJoint` over the children (lines 194 to 204): a cylinder from
the joint to each child, followed by the child's subtree. -/
def renderChildren (lib : Matrix4Lib K) (self : BVH K) (viewMatrix : Matrix4 K) (scale : K)
    (frame : Int) : Matrix4 K → Matrix4 K → List (Joint K) → List (Cylinder K)
  | _, _, [] => []
  | jointMatrix, jointViewMatrix, child :: rest =>
    (⟨jointViewMatrix, ⟨0, 0, 0⟩,
        Cartesian3.scale scale (vectorAt self.boneTranslations child.id)⟩ ::
      renderJoint lib self viewMatrix scale frame jointMatrix child) ++
    renderChildren lib self viewMatrix scale frame jointMatrix jointViewMatrix rest

end

/-- The method `BVH::render`. -/
def render (lib : Matrix4Lib K) (self : BVH K) (viewMatrix : Matrix4 K) (scale : K)
    (frame : Int) : List (Cylinder K) :=
  renderJoint lib self viewMatrix scale frame (lib.rotationZ 180 * lib.rotationX (-90))
    self.root

end BVH

/-- Lines 163 to 170 of `Scene::render`: the character is rendered from the blend when
one is active, else from the current clip, at the frame counter (converted to `int`).
The view matrix of line 138, a product of the camera matrices, is a parameter. -/
def Scene.render {K : Type} [LinearOrderedField K] (lib : Matrix4Lib K)
    (viewMatrix : Matrix4 K) (s : Scene K) : List (Cylinder K) :=
  let frameViewMatrix :=
    viewMatrix * lib.translation s.characterLocation * s.characterRotation.matrix
  match s.blendAnimation with
  | some blendAnimation =>
    blendAnimation.render lib frameViewMatrix bvhScale (toInt32 s.frameNumber)
  | none =>
    (s.clip s.currentAnimation).render lib frameViewMatrix bvhScale (toInt32 s.frameNumber)

/-! ## Reference definitions for the rotation channels -/

/-- The position in a frame vector of the first float of joint `j`: the sum of the
channel counts of the joints before it. -/
def channelStart {K : Type} (joints : List (Joint K)) (j : Nat) : Nat :=
  ((joints.take j).map fun joint => joint.channels.length).sum

/-- The channel `name` is declared at position `k` of `channels` and at no later
position. -/
def DeclaredAt (channels : List String) (name : String) (k : Nat) : Prop :=
  channels.get? k = some name ∧ ∀ k', k < k' → channels.get? k' ≠ some name

/-! ## Reference definitions for the hierarchy section

A well-formed hierarchy section is `HIERARCHY`, `ROOT name`, `{` and the lines of a
`Block`. `Block.lines` gives the tokens of the lines and `Block.run` what reading them
does to the clip and to the joint of the block. -/

/-- The lines of a joint block after its opening brace, up to its closing brace: each
constructor but `close` is an item of the block followed by the rest of the block. -/
inductive Block where
  | close : Block
  | offset (x y z : String) (rest : Block) : Block
  | channels (count : String) (names : List String) (rest : Block) : Block
  | joint (name : String) (body : Block) (rest : Block) : Block
  | endSite (x y z : String) (rest : Block) : Block
deriving Repr

namespace Block

/-- The tokens of the lines of a block, the closing brace included. -/
def lines : Block → List (List String)
  | close => [["\x7d"]]
  | offset x y z rest => ["OFFSET", x, y, z] :: rest.lines
  | channels count names rest => ("CHANNELS" :: count :: names) :: rest.lines
  | joint name body rest => ["JOINT", name] :: ["\x7b"] :: (body.lines ++ rest.lines)
  | endSite x y z rest =>
    ["End", "Site"] :: ["\x7b"] :: ["OFFSET", x, y, z] :: ["\x7d"] :: rest.lines

/-- The number of joints declared in a block, nested ones included. -/
def size : Block → Nat
  | close => 0
  | offset _ _ _ rest => rest.size
  | channels _ _ rest => rest.size
  | joint _ body rest => 1 + body.size + rest.size
  | endSite _ _ _ rest => rest.size

/-- A fuel that is enough for `BVH.readBlock` to read the block. -/
def fuel : Block → Nat
  | close => 1
  | offset _ _ _ rest => rest.fuel + 1
  | channels _ _ rest => rest.fuel + 1
  | joint _ body rest => max (body.fuel + 2) (rest.fuel + 1)
  | endSite _ _ _ rest => rest.fuel + 1

/-- What reading the block does: the clip (its `boneNames` and `parentBones`) and the
joint of the block after the closing brace. -/
def run {K : Type} [LinearOrderedField K] (stof : String → K) :
    Block → BVH K → Joint K → BVH K × Joint K
  | close, self, current => (self, current)
  | offset x y z rest, self, current =>
    rest.run stof self (current.readOffset stof ["OFFSET", x, y, z])
  | channels count names rest, self, current =>
    rest.run stof self (current.readChannels ("CHANNELS" :: count :: names))
  | joint name body rest, self, current =>
    let entered := BVH.enterJoint self ["JOINT", name] Joint.empty current.id
    let inner := body.run stof entered.1 entered.2
    rest.run stof inner.1 { current with children := current.children ++ [inner.2] }
  | endSite _ _ _ rest, self, current => rest.run stof self current

end Block

/-! ## Inputs of the evaluations: clips and files -/

/-- A stand-in for `std::stof` on plain decimal tokens: optional white space, an
optional sign, digits, and an optional fraction after a point. -/
def decimalValue {K : Type} [LinearOrderedField K] (token : String) : K :=
  let cs := token.toList.dropWhile isspace
  let negative := cs.head? = some '-'
  let cs := if cs.head? = some '-' ∨ cs.head? = some '+' then cs.tail else cs
  let whole := cs.takeWhile Char.isDigit
  let after := cs.dropWhile Char.isDigit
  let fraction := if after.head? = some '.' then after.tail.takeWhile Char.isDigit else []
  let digits (ds : List Char) : Nat := ds.foldl (fun a c => 10 * a + (c.toNat - 48)) 0
  let value : K := (digits whole : K) + (digits fraction : K) / 10 ^ fraction.length
  if negative then -value else value

/-- Modelled from the spec: the functions `translation`, `rotationX`, `rotationY` and
`rotationZ` of `Matrix4` (`Matrix4.h` is not among the sources) as the usual translation
and rotation matrices, the angles in degrees. -/
def standardMatrices {K : Type} [LinearOrderedField K] (m : CMath K) : Matrix4Lib K :=
  { translation := fun v => !![1, 0, 0, v.x; 0, 1, 0, v.y; 0, 0, 1, v.z; 0, 0, 0, 1]
    rotationX := fun degrees =>
      !![1, 0, 0, 0;
         0, m.cos (m.pi * degrees / 180), -m.sin (m.pi * degrees / 180), 0;
         0, m.sin (m.pi * degrees / 180), m.cos (m.pi * degrees / 180), 0;
         0, 0, 0, 1]
    rotationY := fun degrees =>
      !![m.cos (m.pi * degrees / 180), 0, m.sin (m.pi * degrees / 180), 0;
         0, 1, 0, 0;
         -m.sin (m.pi * degrees / 180), 0, m.cos (m.pi * degrees / 180), 0;
         0, 0, 0, 1]
    rotationZ := fun degrees =>
      !![m.cos (m.pi * degrees / 180), -m.sin (m.pi * degrees / 180), 0, 0;
         m.sin (m.pi * degrees / 180), m.cos (m.pi * degrees / 180), 0, 0;
         0, 0, 1, 0;
         0, 0, 0, 1] }

/-- A clip of one joint and two frames. -/
def sourceClip {K : Type} [LinearOrderedField K] : BVH K :=
  { (BVH.empty : BVH K) with
    frameCount := 2
    allJoints := [Joint.empty]
    parentBones := [-1]
    boneTranslations := [⟨0, 0, 0⟩]
    boneRotations := [[⟨0, 0, 0⟩], [⟨122, 244, 366⟩]] }

/-- A clip of one joint and one frame. -/
def targetClip {K : Type} [LinearOrderedField K] : BVH K :=
  { (BVH.empty : BVH K) with
    frameCount := 1
    allJoints := [Joint.empty]
    parentBones := [-1]
    boneTranslations := [⟨0, 0, 0⟩]
    boneRotations := [[⟨0, 122, 0⟩]] }

/-- A skeleton of two joints, with six and with three channels. -/
def channelClip {K : Type} [LinearOrderedField K] : BVH K :=
  { (BVH.empty : BVH K) with
    allJoints :=
      [{ (Joint.empty : Joint K) with
          channels :=
            ["Xposition", "Yposition", "Zposition", "Zrotation", "Xrotation", "Yrotation"] },
       { (Joint.empty : Joint K) with
          id := 1
          channels := ["Zrotation", "Xrotation", "Yrotation"] }] }

/-- The hierarchy section of a file with four joints. -/
def demoHierarchy : List String :=
  ["HIERARCHY",
   "ROOT Hips",
   "\x7b",
   "  OFFSET 0 0 0",
   "  CHANNELS 6 Xposition Yposition Zposition Zrotation Xrotation Yrotation",
   "  JOINT Chest",
   "  \x7b",
   "    OFFSET 0 5 0",
   "    CHANNELS 3 Zrotation Xrotation Yrotation",
   "    JOINT Head",
   "    \x7b",
   "      OFFSET 0 4 0",
   "      CHANNELS 3 Zrotation Xrotation Yrotation",
   "      End Site",
   "      \x7b",
   "        OFFSET 0 2 0",
   "      \x7d",
   "    \x7d",
   "  \x7d",
   "  JOINT Leg",
   "  \x7b",
   "    OFFSET 1 -5 0",
   "    CHANNELS 3 Zrotation Xrotation Yrotation",
   "    End Site",
   "    \x7b",
   "      OFFSET 0 -4 0",
   "    \x7d",
   "  \x7d",
   "\x7d"]

/-- The motion section of the file: two frames of fifteen floats. -/
def demoMotion : List String :=
  ["MOTION",
   "Frames: 2",
   "Frame Time: 0.04",
   "1.5 2.5 3.5 10.5 20.5 30.5 11.5 21.5 31.5 12.5 22.5 32.5 13.5 23.5 33.5",
   "0 12 -3.5 7 20.5 30.5 11.5 21.5 31.5 12.5 22.5 32.5 13.5 23.5 33.5"]

/-- The block of the root joint of `demoHierarchy`. -/
def demoBody : Block :=
  Block.offset "0" "0" "0"
    (Block.channels "6"
      ["Xposition", "Yposition", "Zposition", "Zrotation", "Xrotation", "Yrotation"]
      (Block.joint "Chest"
        (Block.offset "0" "5" "0"
          (Block.channels "3" ["Zrotation", "Xrotation", "Yrotation"]
            (Block.joint "Head"
              (Block.offset "0" "4" "0"
                (Block.channels "3" ["Zrotation", "Xrotation", "Yrotation"]
                  (Block.endSite "0" "2" "0" Block.close)))
              Block.close)))
        (Block.joint "Leg"
          (Block.offset "1" "-5" "0"
            (Block.channels "3" ["Zrotation", "Xrotation", "Yrotation"]
              (Block.endSite "0" "-4" "0" Block.close)))
          Block.close)))

/-! ## Reference definitions for the quaternion product and for reachable scenes -/

/-- The quaternion `w + x i + y j + z k` of Mathlib that a `Quaternion` stands for; its
multiplication is the Hamilton product. -/
def Quaternion.toHamilton {K : Type} [LinearOrderedField K] (q : Quaternion K) :
    QuaternionAlgebra K (-1) (-1) :=
  ⟨q.w, q.x, q.y, q.z⟩

/-- The calls that change the character part of a scene: the five character events and
`update`. -/
inductive CharacterEvent where
  | forward
  | backward
  | turnLeft
  | turnRight
  | reset
  | update
deriving DecidableEq, Repr

/-- The scene after one call. -/
def Scene.step {K : Type} [LinearOrderedField K] [FloorRing K] (m : CMath K) (s : Scene K) :
    CharacterEvent → Scene K
  | CharacterEvent.forward => s.eventCharacterForward
  | CharacterEvent.backward => s.eventCharacterBackward
  | CharacterEvent.turnLeft => s.eventCharacterTurnLeft m
  | CharacterEvent.turnRight => s.eventCharacterTurnRight m
  | CharacterEvent.reset => s.eventCharacterReset m
  | CharacterEvent.update => s.update m

/-- The scene after a sequence of calls, the first of the list first. -/
def Scene.run {K : Type} [LinearOrderedField K] [FloorRing K] (m : CMath K) (s : Scene K)
    (calls : List CharacterEvent) : Scene K :=
  calls.foldl (Scene.step m) s

/-- The locomotion state that matches a speed: `Running` when the speed is positive,
`Resting` otherwise. -/
def locomotionState {K : Type} [LinearOrderedField K] (speed : K) : AnimationState :=
  if 0 < speed then AnimationState.Running else AnimationState.Resting

/-- The speed and the locomotion state agree: the speed is `0` or `1` (`speedDelta`),
it is `0` in state `Resting` and `1` in state `Running`. -/
def Scene.SpeedMatchesState {K : Type} [LinearOrderedField K] (s : Scene K) : Prop :=
  (s.characterSpeed = 0 ∨ s.characterSpeed = 1) ∧
  (s.state = AnimationState.Resting → s.characterSpeed = 0) ∧
  (s.state = AnimationState.Running → s.characterSpeed = 1)

/-- The lines of a motion section with one frame, whose line has integer tokens. -/
def integerMotion : List String :=
  ["Frames: 1", "Frame Time: 0.04", "0 12 -3.5 7"]

/-! ## Quaternion lemmas -/

section QuaternionLemmas

variable {K : Type} [LinearOrderedField K]

theorem floatEpsilon_pos : (0 : K) < floatEpsilon := by
  unfold floatEpsilon; positivity

/-- The dot product of two unit quaternions is at most one (Cauchy and Schwarz). -/
theorem Quaternion.dot_le_one {q0 q1 : Quaternion K} (h0 : q0.IsUnit) (h1 : q1.IsUnit) :
    q0.dot q1 ≤ 1 := by
  unfold Quaternion.IsUnit Quaternion.dot at *
  nlinarith [sq_nonneg (q0.x - q1.x), sq_nonneg (q0.y - q1.y), sq_nonneg (q0.z - q1.z),
    sq_nonneg (q0.w - q1.w)]

/-- On unit quaternions the guard `cosTheta - 1.0f < epsilon` of `slerp` always holds, so
`slerp` returns the linear interpolation `(1 - t) * q0 + t * q1`. -/
theorem slerp_unit_eq_lerp (m : CMath K) {q0 q1 : Quaternion K} (h0 : q0.IsUnit)
    (h1 : q1.IsUnit) (t : K) :
    slerp m q0 q1 t = (Quaternion.scale (1 - t) q0).add (Quaternion.scale t q1) := by
  have hd := Quaternion.dot_le_one h0 h1
  have he : (0 : K) < floatEpsilon := floatEpsilon_pos
  have hlt : q0.dot q1 - 1 < floatEpsilon := by linarith
  simp only [slerp, if_pos hlt]

end QuaternionLemmas

section MatrixLemmas

variable {K : Type} [LinearOrderedField K]

/-- The matrix of the quaternion `(S * b, C)` with `S² + C² = 1` and `b` a unit vector, in
terms of the double-angle values `2 * C² - 1` and `2 * S * C`. -/
theorem Quaternion.matrix_of_axis_angle (b : Cartesian3 K) (S C : K) (hs : S * S + C * C = 1)
    (hb : b.x * b.x + b.y * b.y + b.z * b.z = 1) :
    (⟨S * b.x, S * b.y, S * b.z, C⟩ : Quaternion K).matrix =
      !![(2 * C * C - 1) + b.x * b.x * (1 - (2 * C * C - 1)),
           b.x * b.y * (1 - (2 * C * C - 1)) - b.z * (2 * S * C),
           b.x * b.z * (1 - (2 * C * C - 1)) + b.y * (2 * S * C), 0;
         b.y * b.x * (1 - (2 * C * C - 1)) + b.z * (2 * S * C),
           (2 * C * C - 1) + b.y * b.y * (1 - (2 * C * C - 1)),
           b.y * b.z * (1 - (2 * C * C - 1)) - b.x * (2 * S * C), 0;
         b.z * b.x * (1 - (2 * C * C - 1)) - b.y * (2 * S * C),
           b.z * b.y * (1 - (2 * C * C - 1)) + b.x * (2 * S * C),
           (2 * C * C - 1) + b.z * b.z * (1 - (2 * C * C - 1)), 0;
         0, 0, 0, 1] := by
  simp only [Quaternion.matrix]
  ext i j
  fin_cases i <;> fin_cases j <;> simp
  · linear_combination (2 * b.x * b.x - 2) * hs - 2 * S * S * hb
  · linear_combination (2 * b.x * b.y) * hs
  · linear_combination (2 * b.x * b.z) * hs
  · linear_combination (2 * b.x * b.y) * hs
  · linear_combination (2 * b.y * b.y - 2) * hs - 2 * S * S * hb
  · linear_combination (2 * b.y * b.z) * hs
  · linear_combination (2 * b.x * b.z) * hs
  · linear_combination (2 * b.y * b.z) * hs
  · linear_combination (2 * b.z * b.z - 2) * hs - 2 * S * S * hb

end MatrixLemmas

/-- Over the reals, with the real `sin`, `cos` and square root, the constructor from a
unit axis and an angle in degrees gives `(sin t * axis, cos t)` with
`t = theta * pi / 180`. -/
theorem Quaternion.fromAxisAngle_real (b : Cartesian3 ℝ) (th : ℝ)
    (hb : b.x * b.x + b.y * b.y + b.z * b.z = 1) :
    Quaternion.fromAxisAngle ⟨Real.sin, Real.cos, Real.arccos, Real.sqrt, Real.pi⟩ b th =
      ⟨Real.sin (th * Real.pi / 180) * b.x, Real.sin (th * Real.pi / 180) * b.y,
       Real.sin (th * Real.pi / 180) * b.z, Real.cos (th * Real.pi / 180)⟩ := by
  have e : Real.pi * th / 180 = th * Real.pi / 180 := by ring
  simp only [Quaternion.fromAxisAngle, Cartesian3.unit, Cartesian3.length, Cartesian3.scale,
    hb, Real.sqrt_one, e]
  norm_num

/-- Over the reals the matrix of the quaternion built from a unit axis and `theta`
degrees is the rotation about the axis by twice `theta * pi / 180` radians. -/
theorem Quaternion.fromAxisAngle_matrix_real (b : Cartesian3 ℝ) (th : ℝ)
    (hb : b.x * b.x + b.y * b.y + b.z * b.z = 1) :
    (Quaternion.fromAxisAngle ⟨Real.sin, Real.cos, Real.arccos, Real.sqrt, Real.pi⟩ b
        th).matrix =
      axisAngleRotation ⟨Real.sin, Real.cos, Real.arccos, Real.sqrt, Real.pi⟩ b
        (2 * (th * Real.pi / 180)) := by
  have hs : Real.sin (th * Real.pi / 180) * Real.sin (th * Real.pi / 180) +
      Real.cos (th * Real.pi / 180) * Real.cos (th * Real.pi / 180) = 1 := by
    have := Real.sin_sq_add_cos_sq (th * Real.pi / 180)
    nlinarith [this]
  have hc : Real.cos (2 * (th * Real.pi / 180)) =
      2 * Real.cos (th * Real.pi / 180) * Real.cos (th * Real.pi / 180) - 1 := by
    rw [Real.cos_two_mul]; ring
  have h2 : Real.sin (2 * (th * Real.pi / 180)) =
      2 * Real.sin (th * Real.pi / 180) * Real.cos (th * Real.pi / 180) :=
    Real.sin_two_mul _
  rw [Quaternion.fromAxisAngle_real b th hb, Quaternion.matrix_of_axis_angle b _ _ hs hb]
  simp only [axisAngleRotation, hc, h2]

/-! ## Terrain lemmas -/

section TerrainLemmas

variable {K : Type} [LinearOrderedField K]

/-- A terrain read from an opened file has `height` rows. -/
theorem Terrain.readTerrainFile_rows (t : Terrain K) (f : TerrainFile K) (xyScale : K)
    (hb : f.badbit = false) (hf : f.failbit = false) :
    (Terrain.readTerrainFile t f xyScale).2.heightValues.length = f.height.toNat := by
  simp [Terrain.readTerrainFile, hb, hf]

/-- The first row of a terrain read from an opened file has `width` columns. -/
theorem Terrain.readTerrainFile_columns (t : Terrain K) (f : TerrainFile K) (xyScale : K)
    (hb : f.badbit = false) (hf : f.failbit = false) (hh : 0 < f.height) :
    ((Terrain.readTerrainFile t f xyScale).2.heightValues.headD []).length =
      f.width.toNat := by
  obtain ⟨n, hn⟩ : ∃ n : Nat, f.height.toNat = n + 1 := ⟨f.height.toNat - 1, by omega⟩
  simp [Terrain.readTerrainFile, hb, hf, hn, List.range_succ_eq_map]

/-- The spacing of a terrain read from a file is the `xyScale` argument. -/
theorem Terrain.readTerrainFile_xyScale (t : Terrain K) (f : TerrainFile K) (xyScale : K)
    (hb : f.badbit = false) :
    (Terrain.readTerrainFile t f xyScale).2.xyScale = xyScale := by
  simp [Terrain.readTerrainFile, hb]

theorem rampTerrain_heightValues :
    (rampTerrain : Terrain K).heightValues = [[0, 0, 0], [4, 0, 0], [0, 0, 0]] := rfl

theorem rampTerrain_xyScale : (rampTerrain : Terrain K).xyScale = 1 := rfl

theorem evenTerrain_heightValues :
    (evenTerrain : Terrain K).heightValues =
      [[1, 2, 3, 4], [5, 6, 7, 8], [9, 10, 11, 12], [13, 14, 15, 16]] := rfl

theorem evenTerrain_xyScale : (evenTerrain : Terrain K).xyScale = 3 := rfl

end TerrainLemmas

/-! ## Scene lemmas -/

section SceneLemmas

variable {K : Type} [LinearOrderedField K]

/-- A clamped value lies between the bounds when the bounds are ordered. -/
theorem clamp_mem (v : K) {lo hi : K} (h : lo ≤ hi) :
    lo ≤ clamp v lo hi ∧ clamp v lo hi ≤ hi := by
  unfold clamp
  split_ifs with h1 h2
  · exact ⟨le_refl _, h⟩
  · exact ⟨h, le_refl _⟩
  · exact ⟨not_lt.mp h1, not_lt.mp h2⟩

theorem BVH.blend_frameCount (a b : BVH K) (frame : Int) :
    (a.blend frame b).frameCount = 12 := rfl

theorem Scene.control_advanceFrame (s : Scene K) :
    s.advanceFrame.control = s.control.advanceFrame := by
  unfold Scene.advanceFrame Control.advanceFrame Scene.control
  cases hb : s.blendAnimation with
  | none => simp
  | some b =>
    simp only [Option.map_some']
    split_ifs <;> simp

theorem Scene.control_veer (m : CMath K) (s : Scene K) :
    (s.veer m).control = s.control.veer := by
  unfold Scene.veer Control.veer Scene.control
  split_ifs <;>
    simp_all [-not_lt, Scene.blendInto, BVH.blend_frameCount, toUnsignedLong]

/-- The control part right after a left-turn event taken from a state other than
`VeeringLeft`. -/
theorem Scene.control_turnLeft (m : CMath K) (s : Scene K)
    (h : s.state ≠ AnimationState.VeeringLeft) :
    (s.eventCharacterTurnLeft m).control =
      ⟨AnimationState.VeeringLeft, 0, some 12, ClipRef.veerLeftCycle,
       decide (0 < s.characterSpeed)⟩ := by
  simp [Scene.eventCharacterTurnLeft, h, Scene.control, Scene.blendInto,
    BVH.blend_frameCount, toUnsignedLong]

variable [FloorRing K]

theorem Scene.control_move (s : Scene K) : s.move.control = s.control := rfl

/-- The control projection commutes with `update`. -/
theorem Scene.control_update (m : CMath K) (s : Scene K) :
    (s.update m).control = s.control.update := by
  unfold Scene.update Control.update
  rw [Scene.control_move, Scene.control_veer, Scene.control_advanceFrame]

/-- The control projection commutes with any number of `update` calls. -/
theorem Scene.control_iterate (m : CMath K) (s : Scene K) (k : Nat) :
    ((Scene.update m)^[k] s).control = Control.update^[k] s.control := by
  induction k generalizing s with
  | zero => rfl
  | succ n ih =>
    rw [Function.iterate_succ_apply, Function.iterate_succ_apply, ih, Scene.control_update]

/-- The function `update` changes none of the four clips. -/
theorem Scene.update_clips (m : CMath K) (s : Scene K) :
    (s.update m).restPose = s.restPose ∧ (s.update m).runCycle = s.runCycle ∧
    (s.update m).veerLeftCycle = s.veerLeftCycle ∧
    (s.update m).veerRightCycle = s.veerRightCycle := by
  unfold Scene.update Scene.move Scene.veer Scene.advanceFrame
  cases s.blendAnimation <;> simp only <;> split_ifs <;> simp

/-- No number of `update` calls changes any of the four clips. -/
theorem Scene.iterate_clips (m : CMath K) (s : Scene K) (k : Nat) :
    ((Scene.update m)^[k] s).restPose = s.restPose ∧
    ((Scene.update m)^[k] s).runCycle = s.runCycle ∧
    ((Scene.update m)^[k] s).veerLeftCycle = s.veerLeftCycle ∧
    ((Scene.update m)^[k] s).veerRightCycle = s.veerRightCycle := by
  induction k with
  | zero => simp
  | succ n ih =>
    rw [Function.iterate_succ_apply']
    obtain ⟨h1, h2, h3, h4⟩ := Scene.update_clips m ((Scene.update m)^[n] s)
    obtain ⟨i1, i2, i3, i4⟩ := ih
    exact ⟨h1.trans i1, h2.trans i2, h3.trans i3, h4.trans i4⟩

/-- The tick that ends a veer: in a veering state without blend at frame `32`, `update`
creates the blend of the current clip at frame `33` into the run clip (positive speed). -/
theorem Scene.update_veer_end (m : CMath K) (s : Scene K) (st : AnimationState) (cur : ClipRef)
    (hst : st = AnimationState.VeeringLeft ∨ st = AnimationState.VeeringRight)
    (hc : s.control = ⟨st, 32, none, cur, true⟩) :
    (s.update m).blendAnimation = some ((s.clip cur).blend 33 s.runCycle) := by
  simp only [Scene.control, Control.mk.injEq, Option.map_eq_none', decide_eq_true_eq] at hc
  obtain ⟨h1, h2, h3, h4, h5⟩ := hc
  have h33 : ¬ (33 < veerFrames) := by decide
  have hv : s.state = AnimationState.VeeringLeft ∨ s.state = AnimationState.VeeringRight := by
    rw [h1]; exact hst
  have e : toInt32 33 = 33 := by decide
  simp [Scene.update, Scene.move, Scene.veer, Scene.advanceFrame, h3, h2, hv, h33, h5,
    Scene.blendInto, h4, e, Scene.clip]

/-- The function `update` keeps `terrainRange`, and the new planar location is the
unclamped location after the veer step, clamped on each axis. -/
theorem Scene.update_location (m : CMath K) (s : Scene K) :
    (s.update m).terrainRange = s.terrainRange ∧
    (s.update m).characterLocation.x =
      clamp ((s.advanceFrame.veer m).unclamped.x) (-s.terrainRange.1) s.terrainRange.1 ∧
    (s.update m).characterLocation.y =
      clamp ((s.advanceFrame.veer m).unclamped.y) (-s.terrainRange.2) s.terrainRange.2 := by
  have h : (s.advanceFrame.veer m).terrainRange = s.terrainRange := by
    unfold Scene.veer Scene.advanceFrame
    cases s.blendAnimation <;> simp only <;> split_ifs <;> simp
  simp only [Scene.update, Scene.move, h, and_self]

/-- Outside a veer, `update` keeps the state, the speed and the orientation, and moves
the character by `characterSpeed * (characterRotation.matrix() * forward)`, clamped. -/
theorem Scene.update_not_veering (m : CMath K) (s : Scene K)
    (h1 : s.state ≠ AnimationState.VeeringLeft) (h2 : s.state ≠ AnimationState.VeeringRight) :
    (s.update m).state = s.state ∧ (s.update m).characterSpeed = s.characterSpeed ∧
    (s.update m).characterRotation = s.characterRotation ∧
    (s.update m).terrainRange = s.terrainRange ∧
    (s.update m).characterLocation.x =
      clamp s.unclamped.x (-s.terrainRange.1) s.terrainRange.1 ∧
    (s.update m).characterLocation.y =
      clamp s.unclamped.y (-s.terrainRange.2) s.terrainRange.2 := by
  unfold Scene.update Scene.move Scene.veer Scene.advanceFrame Scene.unclamped
  cases s.blendAnimation <;> simp only <;> split_ifs <;> simp_all

/-- The running character facing `+y`: the invariant of the forward scenario after `k`
ticks. -/
theorem Scene.run_forward (m : CMath K) (s : Scene K) (k : Nat)
    (hstate : s.state = AnimationState.Running) (hspeed : s.characterSpeed = 1)
    (hrot : s.characterRotation = ⟨0, 0, 0, 1⟩) (hx : s.characterLocation.x = 0)
    (hy : s.characterLocation.y = 0) (hrx : 0 ≤ s.terrainRange.1) (hry : 0 < s.terrainRange.2) :
    ((Scene.update m)^[k] s).state = AnimationState.Running ∧
    ((Scene.update m)^[k] s).characterSpeed = 1 ∧
    ((Scene.update m)^[k] s).characterRotation = ⟨0, 0, 0, 1⟩ ∧
    ((Scene.update m)^[k] s).terrainRange = s.terrainRange ∧
    ((Scene.update m)^[k] s).characterLocation.x = 0 ∧
    ((Scene.update m)^[k] s).characterLocation.y = min (k : K) s.terrainRange.2 := by
  induction k with
  | zero =>
    simp only [Function.iterate_zero, id_eq, Nat.cast_zero]
    exact ⟨hstate, hspeed, hrot, trivial, hx, by rw [hy, min_eq_left hry.le]⟩
  | succ n ih =>
    obtain ⟨i1, i2, i3, i4, i5, i6⟩ := ih
    rw [Function.iterate_succ_apply']
    obtain ⟨u1, u2, u3, u4, u5, u6⟩ := Scene.update_not_veering m ((Scene.update m)^[n] s)
      (by rw [i1]; decide) (by rw [i1]; decide)
    refine ⟨u1.trans i1, u2.trans i2, u3.trans i3, u4.trans i4, ?_, ?_⟩
    · rw [u5, i4]
      simp only [Scene.unclamped, Cartesian3.add, Cartesian3.scale, Matrix4.mulVec3,
        Quaternion.matrix, forward, i2, i3, i5]
      simp only [clamp]
      norm_num
      rw [if_neg (not_lt.mpr hrx), if_neg (not_lt.mpr hrx)]
    · rw [u6, i4]
      simp only [Scene.unclamped, Cartesian3.add, Cartesian3.scale, Matrix4.mulVec3,
        Quaternion.matrix, forward, i2, i3, i6]
      have hn : (0 : K) ≤ (n : K) := Nat.cast_nonneg n
      simp only [clamp, Nat.cast_succ]
      norm_num
      rcases le_total (n : K) s.terrainRange.2 with hle | hle
      · rw [min_eq_left hle]
        have h1 : ¬ ((n : K) + 1 < -s.terrainRange.2) := by
          rw [not_lt]; linarith
        rw [if_neg h1]
        split_ifs with h2
        · rw [min_eq_right h2.le]
        · rw [min_eq_left (not_lt.mp h2)]
      · rw [min_eq_right hle]
        have h1 : ¬ (s.terrainRange.2 + 1 < -s.terrainRange.2) := by
          rw [not_lt]; linarith
        rw [if_neg h1, if_pos (by linarith), min_eq_right (by linarith)]

end SceneLemmas

/-! ## Lemmas on the blend and on rendering -/

section BlendLemmas

variable {K : Type} [LinearOrderedField K]

theorem toInt32_of_lt (n : Nat) (h : n < 2 ^ 31) : toInt32 n = n := by
  unfold toInt32
  have h1 : n % 2 ^ 32 = n := Nat.mod_eq_of_lt (by omega)
  rw [h1, if_pos h]

theorem easeInOut_zero : easeInOut (0 : K) = 0 := by
  simp [easeInOut]

/-- The row of index `k` of a blend, for `k < 12`. -/
theorem BVH.blend_row (A B : BVH K) (f : Int) (k : Nat) (hk : k < 12) :
    (A.blend f B).boneRotations.getD k [] =
      (List.range (BVH.rotationsAt A.boneRotations (Int.tmod f A.frameCount)).length).map
        fun i =>
          Cartesian3.add
            (Cartesian3.scale (1 - easeInOut ((k : K) / 12))
              ((BVH.rotationsAt A.boneRotations (Int.tmod f A.frameCount)).getD i ⟨0, 0, 0⟩))
            (Cartesian3.scale (easeInOut ((k : K) / 12))
              ((BVH.rotationsAt B.boneRotations 0).getD i ⟨0, 0, 0⟩)) := by
  have h12 : (12 : Int).toNat = 12 := rfl
  simp only [BVH.blend, h12]
  rw [List.getD_eq_getElem _ _ (by simpa using hk)]
  simp

/-- The entry of row `k` and joint `i` of a blend. -/
theorem BVH.blend_entry (A B : BVH K) (f : Int) (k i : Nat) (hk : k < 12)
    (hi : i < (BVH.rotationsAt A.boneRotations (Int.tmod f A.frameCount)).length) :
    ((A.blend f B).boneRotations.getD k []).getD i ⟨0, 0, 0⟩ =
      Cartesian3.add
        (Cartesian3.scale (1 - easeInOut ((k : K) / 12))
          ((BVH.rotationsAt A.boneRotations (Int.tmod f A.frameCount)).getD i ⟨0, 0, 0⟩))
        (Cartesian3.scale (easeInOut ((k : K) / 12))
          ((BVH.rotationsAt B.boneRotations 0).getD i ⟨0, 0, 0⟩)) := by
  rw [BVH.blend_row A B f k hk, List.getD_eq_getElem _ _ (by simpa using hi)]
  simp

omit [LinearOrderedField K] in
/-- In a clip whose rotation series has `frameCount` rows, each with one rotation per
joint, the row of a frame index in `[0, frameCount)` has one rotation per joint. -/
theorem BVH.rotationsAt_length (A : BVH K) (index : Int)
    (hframes : (A.boneRotations.length : Int) = A.frameCount)
    (hrows : ∀ row ∈ A.boneRotations, row.length = A.allJoints.length)
    (h0 : 0 ≤ index) (h1 : index < A.frameCount) :
    (BVH.rotationsAt A.boneRotations index).length = A.allJoints.length := by
  have hlt : index.toNat < A.boneRotations.length := by omega
  simp only [BVH.rotationsAt, h0, if_true]
  rw [List.getD_eq_getElem _ _ hlt]
  exact hrows _ (List.getElem_mem _)

theorem BVH.jointMatrix_congr (lib : Matrix4Lib K) (self : BVH K) (p : Matrix4 K) (id : Int)
    (scale : K) {f g : Int} (h : Int.tmod f self.frameCount = Int.tmod g self.frameCount) :
    BVH.jointMatrix lib self p id scale f = BVH.jointMatrix lib self p id scale g := by
  simp only [BVH.jointMatrix, h]

/-- Rendering a joint depends on the frame only through `frame % frameCount`. -/
theorem BVH.renderJoint_congr (lib : Matrix4Lib K) (self : BVH K) (view : Matrix4 K) (scale : K)
    {f g : Int} (h : Int.tmod f self.frameCount = Int.tmod g self.frameCount) (joint : Joint K) :
    ∀ p, BVH.renderJoint lib self view scale f p joint =
      BVH.renderJoint lib self view scale g p joint := by
  refine Joint.rec
    (motive_1 := fun joint => ∀ p, BVH.renderJoint lib self view scale f p joint =
      BVH.renderJoint lib self view scale g p joint)
    (motive_2 := fun children => ∀ jm jv,
      BVH.renderChildren lib self view scale f jm jv children =
        BVH.renderChildren lib self view scale g jm jv children)
    ?_ ?_ ?_ joint
  · intro id name offset channels children ih p
    simp only [BVH.renderJoint]
    rw [BVH.jointMatrix_congr lib self p id scale h, ih]
  · intro jm jv
    simp only [BVH.renderChildren]
  · intro child rest ihc ihr jm jv
    simp only [BVH.renderChildren]
    rw [ihc, ihr]

end BlendLemmas

/-! ## Lemmas on the frame counter during a blend -/

section HandOffLemmas

variable {K : Type} [LinearOrderedField K] [FloorRing K]

/-- The first tick of a veer: with the frame counter at `0` and a blend of `12` frames
active, `update` sets the orientation to `slerp(veerFrom, veerTo, 1 / 33)`. -/
theorem Scene.update_first_veer_tick
    (m : CMath K) (s : Scene K) (b : BVH K)
    (hstate : s.state = AnimationState.VeeringLeft ∨ s.state = AnimationState.VeeringRight)
    (hframe : s.frameNumber = 0) (hblend : s.blendAnimation = some b)
    (hb : b.frameCount = 12) :
    (s.update m).characterRotation = slerp m s.veerFrom s.veerTo (1 / 33) := by
  have h1 : ¬ (toUnsignedLong 12 ≤ 1) := by decide
  have h2 : (1 : ℕ) < veerFrames := by decide
  simp [Scene.update, Scene.move, Scene.veer, Scene.advanceFrame, hframe, hblend, hb, h1, h2,
    hstate, veerFrames]

/-- Outside a veer, `update` leaves the current clip as it is and changes the blend and
the frame counter as `advanceFrame` does. -/
theorem Scene.update_idle (m : CMath K) (s : Scene K)
    (h1 : s.state ≠ AnimationState.VeeringLeft) (h2 : s.state ≠ AnimationState.VeeringRight) :
    (s.update m).state = s.state ∧
    (s.update m).currentAnimation = s.currentAnimation ∧
    (s.update m).blendAnimation = s.advanceFrame.blendAnimation ∧
    (s.update m).frameNumber = s.advanceFrame.frameNumber := by
  have hs : s.advanceFrame.state = s.state := by
    unfold Scene.advanceFrame
    cases s.blendAnimation
    · rfl
    · simp only; split_ifs <;> rfl
  have hc : s.advanceFrame.currentAnimation = s.currentAnimation := by
    unfold Scene.advanceFrame
    cases s.blendAnimation
    · rfl
    · simp only; split_ifs <;> rfl
  have hv : s.advanceFrame.veer m = s.advanceFrame := by
    unfold Scene.veer
    rw [if_neg]
    rw [hs]
    exact fun h => h.elim h1 h2
  simp only [Scene.update, Scene.move, hv, hs, hc, and_self]

/-- The blend phase of the hand-off: while the state is not a veer, a blend of `12`
frames started at frame `0` stays active for `11` ticks, the counter counting the
ticks. -/
theorem Scene.blend_phase (m : CMath K) (s : Scene K) (b : BVH K)
    (h1 : s.state ≠ AnimationState.VeeringLeft) (h2 : s.state ≠ AnimationState.VeeringRight)
    (hblend : s.blendAnimation = some b) (hb : b.frameCount = 12) (hframe : s.frameNumber = 0)
    (k : Nat) (hk : k ≤ 11) :
    ((Scene.update m)^[k] s).state = s.state ∧
    ((Scene.update m)^[k] s).currentAnimation = s.currentAnimation ∧
    ((Scene.update m)^[k] s).blendAnimation = some b ∧
    ((Scene.update m)^[k] s).frameNumber = k := by
  induction k with
  | zero => exact ⟨rfl, rfl, hblend, hframe⟩
  | succ n ih =>
    obtain ⟨i1, i2, i3, i4⟩ := ih (by omega)
    rw [Function.iterate_succ_apply']
    obtain ⟨u1, u2, u3, u4⟩ := Scene.update_idle m ((Scene.update m)^[n] s)
      (by rw [i1]; exact h1) (by rw [i1]; exact h2)
    have hlt : ¬ (toUnsignedLong 12 ≤ (n + 1) % 2 ^ 64) := by
      have h12 : toUnsignedLong 12 = 12 := by decide
      rw [h12, Nat.mod_eq_of_lt (by omega)]
      omega
    refine ⟨u1.trans i1, u2.trans i2, ?_, ?_⟩
    · rw [u3]
      simp only [Scene.advanceFrame, i3, i4, hb, if_neg hlt]
    · rw [u4]
      simp only [Scene.advanceFrame, i3, i4, hb, if_neg hlt]
      exact Nat.mod_eq_of_lt (by omega)

/-- The tick that hands the blend off: at frame `11` of a blend of `12` frames, `update`
discards the blend and sets the counter to `0`. -/
theorem Scene.blend_end (m : CMath K) (s : Scene K) (b : BVH K)
    (h1 : s.state ≠ AnimationState.VeeringLeft) (h2 : s.state ≠ AnimationState.VeeringRight)
    (hblend : s.blendAnimation = some b) (hb : b.frameCount = 12)
    (hframe : s.frameNumber = 11) :
    (s.update m).state = s.state ∧ (s.update m).currentAnimation = s.currentAnimation ∧
    (s.update m).blendAnimation = none ∧ (s.update m).frameNumber = 0 := by
  obtain ⟨u1, u2, u3, u4⟩ := Scene.update_idle m s h1 h2
  have hle : toUnsignedLong 12 ≤ (11 + 1) % 2 ^ 64 := by decide
  refine ⟨u1, u2, ?_, ?_⟩
  · rw [u3]; simp only [Scene.advanceFrame, hblend, hframe, hb, if_pos hle]
  · rw [u4]; simp only [Scene.advanceFrame, hblend, hframe, hb, if_pos hle]

/-- After the hand-off: without blend and outside a veer, `j` ticks from frame `0` leave
no blend and the counter at `j` modulo `2 ^ 64`. -/
theorem Scene.clip_phase (m : CMath K) (s : Scene K)
    (h1 : s.state ≠ AnimationState.VeeringLeft) (h2 : s.state ≠ AnimationState.VeeringRight)
    (hblend : s.blendAnimation = none) (hframe : s.frameNumber = 0) (j : Nat) :
    ((Scene.update m)^[j] s).state = s.state ∧
    ((Scene.update m)^[j] s).currentAnimation = s.currentAnimation ∧
    ((Scene.update m)^[j] s).blendAnimation = none ∧
    ((Scene.update m)^[j] s).frameNumber = j % 2 ^ 64 := by
  induction j with
  | zero => exact ⟨rfl, rfl, hblend, hframe⟩
  | succ n ih =>
    obtain ⟨i1, i2, i3, i4⟩ := ih
    rw [Function.iterate_succ_apply']
    obtain ⟨u1, u2, u3, u4⟩ := Scene.update_idle m ((Scene.update m)^[n] s)
      (by rw [i1]; exact h1) (by rw [i1]; exact h2)
    refine ⟨u1.trans i1, u2.trans i2, ?_, ?_⟩
    · rw [u3]; simp only [Scene.advanceFrame, i3]
    · rw [u4]; simp only [Scene.advanceFrame, i3, i4]
      exact Nat.mod_add_mod n (2 ^ 64) 1

/-- The hand-off of a blend of `12` frames started at frame `0` outside a veer. -/
theorem Scene.hand_off (m : CMath K) (s : Scene K) (b : BVH K)
    (h1 : s.state ≠ AnimationState.VeeringLeft) (h2 : s.state ≠ AnimationState.VeeringRight)
    (hblend : s.blendAnimation = some b) (hb : b.frameCount = 12)
    (hframe : s.frameNumber = 0) :
    (∀ k, k ≤ 11 →
      ((Scene.update m)^[k] s).blendAnimation = some b ∧ ((Scene.update m)^[k] s).frameNumber = k ∧
      ((Scene.update m)^[k] s).currentAnimation = s.currentAnimation) ∧
    (∀ j, ((Scene.update m)^[12 + j] s).blendAnimation = none ∧
      ((Scene.update m)^[12 + j] s).frameNumber = j % 2 ^ 64 ∧
      ((Scene.update m)^[12 + j] s).currentAnimation = s.currentAnimation) := by
  constructor
  · intro k hk
    obtain ⟨_, p2, p3, p4⟩ := Scene.blend_phase m s b h1 h2 hblend hb hframe k hk
    exact ⟨p3, p4, p2⟩
  · intro j
    obtain ⟨p1, p2, p3, p4⟩ := Scene.blend_phase m s b h1 h2 hblend hb hframe 11 (le_refl 11)
    obtain ⟨e1, e2, e3, e4⟩ := Scene.blend_end m ((Scene.update m)^[11] s) b
      (by rw [p1]; exact h1) (by rw [p1]; exact h2) p3 hb p4
    have h12 : (Scene.update m)^[12] s = Scene.update m ((Scene.update m)^[11] s) :=
      Function.iterate_succ_apply' _ 11 s
    have hsplit : (Scene.update m)^[12 + j] s = (Scene.update m)^[j] ((Scene.update m)^[12] s) := by
      rw [Nat.add_comm, Function.iterate_add_apply]
    rw [hsplit, h12]
    obtain ⟨c1, c2, c3, c4⟩ := Scene.clip_phase m (Scene.update m ((Scene.update m)^[11] s))
      (by rw [e1, p1]; exact h1) (by rw [e1, p1]; exact h2) e3 e4 j
    exact ⟨c3, c4, c2.trans (e2.trans p2)⟩

end HandOffLemmas

/-! ## Lemmas on `loadRotationData` -/

section RotationLemmas

variable {K : Type} [LinearOrderedField K]

theorem bvhChannels_rotation (channel : String)
    (h : String.mk (channel.toList.drop 1) = "rotation") :
    (bvhChannels channel - 3 = 0 ↔ channel = "Xrotation") ∧
    (bvhChannels channel - 3 = 1 ↔ channel = "Yrotation") ∧
    (bvhChannels channel - 3 = 2 ↔ channel = "Zrotation") := by
  unfold bvhChannels
  split_ifs with h1 h2 h3 h4 h5 h6
  · subst h1; exact absurd h (by decide)
  · subst h2; exact absurd h (by decide)
  · subst h3; exact absurd h (by decide)
  · subst h4; decide
  · subst h5; decide
  · subst h6; decide
  · refine ⟨⟨fun e => by omega, fun e => absurd e h4⟩, ⟨fun e => by omega, fun e => absurd e h5⟩,
      ⟨fun e => by omega, fun e => absurd e h6⟩⟩

/-- The inner loop of `loadRotationData`, for one axis: `name` is the channel of the
axis, `index` its place in `rotation[3]` and `comp` the component. The component is the
float of the last channel called `name`, and is left as it was when no channel is. -/
theorem BVH.channelLoop_axis (frames : List K) (j : Nat) (name : String) (index : Int)
    (comp : Cartesian3 K → K)
    (hname : String.mk (name.toList.drop 1) = "rotation")
    (hindex : ∀ channel, String.mk (channel.toList.drop 1) = "rotation" →
      (bvhChannels channel - 3 = index ↔ channel = name))
    (hset : ∀ r i v, comp (BVH.setRotation r i v) = if i = index then v else comp r)
    (channels : List String) :
    ∀ (k0 : Nat) (rotation : Cartesian3 K),
      (name ∉ channels → comp (BVH.channelLoop frames j channels k0 rotation) = comp rotation) ∧
      (∀ k, DeclaredAt channels name k →
        comp (BVH.channelLoop frames j channels k0 rotation) = frames.getD (j + (k0 + k)) 0) := by
  induction channels with
  | nil =>
    intro k0 rotation
    refine ⟨fun _ => rfl, fun k hk => ?_⟩
    simp [DeclaredAt] at hk
  | cons channel rest ih =>
    intro k0 rotation
    have step : ∀ rotation' : Cartesian3 K,
        (channel = name → comp rotation' = frames.getD (j + k0) 0) →
        (channel ≠ name → comp rotation' = comp rotation) →
        (name ∉ channel :: rest →
          comp (BVH.channelLoop frames j rest (k0 + 1) rotation') = comp rotation) ∧
        (∀ k, DeclaredAt (channel :: rest) name k →
          comp (BVH.channelLoop frames j rest (k0 + 1) rotation') =
            frames.getD (j + (k0 + k)) 0) := by
      intro rotation' hyes hno
      obtain ⟨ih1, ih2⟩ := ih (k0 + 1) rotation'
      constructor
      · intro hmem
        rw [List.mem_cons, not_or] at hmem
        rw [ih1 hmem.2, hno (fun e => hmem.1 e.symm)]
      · intro k hk
        cases k with
        | zero =>
          obtain ⟨hk0, hlater⟩ := hk
          simp only [List.get?_cons_zero, Option.some.injEq] at hk0
          have hnot : name ∉ rest := by
            intro hmem
            obtain ⟨i, hi⟩ := List.get?_of_mem hmem
            exact hlater (i + 1) (by omega) (by simpa using hi)
          rw [ih1 hnot, hyes hk0, Nat.add_zero]
        | succ k' =>
          obtain ⟨hk0, hlater⟩ := hk
          have hd : DeclaredAt rest name k' := by
            refine ⟨by simpa using hk0, fun i hi => ?_⟩
            have := hlater (i + 1) (by omega)
            simpa using this
          rw [ih2 k' hd]
          congr 1
          omega
    simp only [BVH.channelLoop]
    split_ifs with htail
    · apply step
      · intro e
        rw [hset, if_pos ((hindex channel htail).2 e)]
      · intro e
        rw [hset, if_neg (fun h => e ((hindex channel htail).1 h))]
    · apply step
      · intro e
        rw [e] at htail
        exact absurd hname htail
      · intro _; rfl

omit [LinearOrderedField K] in
theorem BVH.setRotation_x (r : Cartesian3 K) (i : Int) (v : K) :
    (BVH.setRotation r i v).x = if i = 0 then v else r.x := by
  unfold BVH.setRotation; split_ifs <;> rfl

omit [LinearOrderedField K] in
theorem BVH.setRotation_y (r : Cartesian3 K) (i : Int) (v : K) :
    (BVH.setRotation r i v).y = if i = 1 then v else r.y := by
  unfold BVH.setRotation; split_ifs <;> first | rfl | omega

omit [LinearOrderedField K] in
theorem BVH.setRotation_z (r : Cartesian3 K) (i : Int) (v : K) :
    (BVH.setRotation r i v).z = if i = 2 then v else r.z := by
  unfold BVH.setRotation; split_ifs <;> first | rfl | omega

omit [LinearOrderedField K] in
theorem channelStart_zero (joints : List (Joint K)) : channelStart joints 0 = 0 := by
  simp [channelStart]

omit [LinearOrderedField K] in
theorem channelStart_succ (joint : Joint K) (rest : List (Joint K)) (i : Nat) :
    channelStart (joint :: rest) (i + 1) = joint.channels.length + channelStart rest i := by
  simp [channelStart]

/-- The outer loop of `loadRotationData` when every joint has a channel and the floats
from `j` on are as many as the channels: one rotation is pushed per joint, computed by
the inner loop from the joint's first float. -/
theorem BVH.rotationLoop_spec (frames : List K) (joints : List (Joint K)) :
    ∀ (j : Nat) (rotations : List (Cartesian3 K)),
      (∀ joint ∈ joints, 1 ≤ joint.channels.length) →
      j + (joints.map fun joint => joint.channels.length).sum = frames.length →
      (BVH.rotationLoop frames joints j rotations).length = rotations.length + joints.length ∧
      (∀ i, i < rotations.length →
        (BVH.rotationLoop frames joints j rotations).get? i = rotations.get? i) ∧
      (∀ i (hi : i < joints.length),
        (BVH.rotationLoop frames joints j rotations).get? (rotations.length + i) =
          some (BVH.channelLoop frames (j + channelStart joints i)
            (joints.get ⟨i, hi⟩).channels 0 ⟨0, 0, 0⟩)) := by
  induction joints with
  | nil =>
    intro j rotations _ _
    refine ⟨by simp [BVH.rotationLoop], fun i _ => by simp [BVH.rotationLoop], fun i hi => ?_⟩
    simp at hi
  | cons joint rest ih =>
    intro j rotations hch hsum
    have h1 := hch joint (List.mem_cons_self _ _)
    simp only [List.map_cons, List.sum_cons] at hsum
    have hlt : j < frames.length := by omega
    obtain ⟨a, b, c⟩ := ih (j + joint.channels.length)
      (rotations ++ [BVH.channelLoop frames j joint.channels 0 ⟨0, 0, 0⟩])
      (fun x hx => hch x (List.mem_cons_of_mem _ hx)) (by omega)
    simp only [BVH.rotationLoop, if_pos hlt]
    simp only [List.length_append, List.length_singleton] at a b c
    refine ⟨by rw [a, List.length_cons]; omega, fun i hi => ?_, fun i hi => ?_⟩
    · rw [b i (by omega), List.get?_eq_getElem?, List.get?_eq_getElem?,
        List.getElem?_append_left (by omega)]
    · cases i with
      | zero =>
        rw [Nat.add_zero, b _ (by omega), List.get?_eq_getElem?,
          List.getElem?_append_right (le_refl _)]
        simp [channelStart_zero]
      | succ i' =>
        have hi' : i' < rest.length := by simpa using hi
        have := c i' hi'
        rw [show rotations.length + (i' + 1) = rotations.length + 1 + i' by omega, this,
          channelStart_succ]
        simp only [List.get_cons_succ, Nat.add_assoc]

end RotationLemmas

/-! ## Lemmas on reading the hierarchy section -/

section HierarchyLemmas

theorem newLine_cons (line : String) (rest : List String) :
    newLine ⟨false, false, line :: rest⟩ = (splitString line, ⟨false, false, rest⟩) := rfl

theorem Block.lines_ne_nil (b : Block) : b.lines ≠ [] := by
  cases b <;> simp [Block.lines]

theorem Block.lines_length_pos (b : Block) : 0 < b.lines.length :=
  List.length_pos.mpr b.lines_ne_nil

theorem Block.fuel_le_lines (b : Block) : b.fuel ≤ b.lines.length := by
  induction b with
  | close => simp [Block.fuel, Block.lines]
  | offset x y z rest ih => simp [Block.fuel, Block.lines]; omega
  | channels c n rest ih => simp [Block.fuel, Block.lines]; omega
  | joint name body rest ihb ihr => simp [Block.fuel, Block.lines]; omega
  | endSite x y z rest ih => simp [Block.fuel, Block.lines]; omega

/-- Splitting a stream whose tokens start with those of a non-empty list. -/
theorem lines_split_cons {first : List String} {more : List (List String)}
    {lines : List String} (h : lines.map splitString = first :: more) :
    ∃ l ls, lines = l :: ls ∧ splitString l = first ∧ ls.map splitString = more := by
  cases lines with
  | nil => simp at h
  | cons l ls =>
    simp only [List.map_cons, List.cons.injEq] at h
    exact ⟨l, ls, rfl, h.1, h.2⟩

theorem drop_cons_pos {α : Type} (l : α) (ls : List α) (n : Nat) (h : 0 < n) :
    (l :: ls).drop n = ls.drop (n - 1) := by
  cases n with
  | zero => omega
  | succ m => simp

variable {K : Type} [LinearOrderedField K]

/-- Reading a well-formed block: when the line at hand and the lines of the stream are
the lines of the block `b`, followed by anything, and the fuel is at least `b.fuel`,
`readBlock` returns what `b.run` computes, with the closing brace as the last line read
and the stream after the block. -/
theorem BVH.readBlock_lines (stof : String → K) (b : Block) :
    ∀ (fuel : Nat) (self : BVH K) (lines : List String) (line : List String)
      (current : Joint K) (after : List (List String)),
      b.fuel ≤ fuel → line :: lines.map splitString = b.lines ++ after →
      BVH.readBlock stof fuel self ⟨false, false, lines⟩ line current =
        some ((b.run stof self current).1, ⟨false, false, lines.drop (b.lines.length - 1)⟩,
          ["\x7d"], (b.run stof self current).2) := by
  induction b with
  | close =>
    intro fuel self lines line current after hfuel hlines
    obtain ⟨n, rfl⟩ : ∃ n, fuel = n + 1 := ⟨fuel - 1, by simp [Block.fuel] at hfuel; omega⟩
    simp only [Block.lines, List.singleton_append, List.cons.injEq] at hlines
    obtain ⟨rfl, _⟩ := hlines
    simp [BVH.readBlock, Block.run, Block.lines]
  | offset x y z rest ih =>
    intro fuel self lines line current after hfuel hlines
    obtain ⟨n, rfl⟩ : ∃ n, fuel = n + 1 := ⟨fuel - 1, by simp [Block.fuel] at hfuel; omega⟩
    simp only [Block.lines, List.cons_append, List.cons.injEq] at hlines
    obtain ⟨rfl, hrest⟩ := hlines
    obtain ⟨first, more, hmore⟩ := List.exists_cons_of_ne_nil rest.lines_ne_nil
    rw [hmore, List.cons_append] at hrest
    obtain ⟨l, ls, rfl, hl, hls⟩ := lines_split_cons hrest
    have hfuel' : rest.fuel ≤ n := by simp [Block.fuel] at hfuel; omega
    have := ih n self ls (splitString l) (current.readOffset stof ["OFFSET", x, y, z]) after
      hfuel' (by rw [hl, hls, hmore, List.cons_append])
    have hpos := rest.lines_length_pos
    simp only [BVH.readBlock, newLine_cons, Block.run, Block.lines, List.length_cons]
    simp only [List.getD_cons_zero, ne_eq, show ("OFFSET" = "\x7d") = False by decide,
      not_false_eq_true, if_true]
    rw [this]
    congr 4
    rw [show rest.lines.length + 1 - 1 = (rest.lines.length - 1) + 1 by omega, List.drop_succ_cons]
  | channels c names rest ih =>
    intro fuel self lines line current after hfuel hlines
    obtain ⟨n, rfl⟩ : ∃ n, fuel = n + 1 := ⟨fuel - 1, by simp [Block.fuel] at hfuel; omega⟩
    simp only [Block.lines, List.cons_append, List.cons.injEq] at hlines
    obtain ⟨rfl, hrest⟩ := hlines
    obtain ⟨first, more, hmore⟩ := List.exists_cons_of_ne_nil rest.lines_ne_nil
    rw [hmore, List.cons_append] at hrest
    obtain ⟨l, ls, rfl, hl, hls⟩ := lines_split_cons hrest
    have hfuel' : rest.fuel ≤ n := by simp [Block.fuel] at hfuel; omega
    have := ih n self ls (splitString l)
      (current.readChannels ("CHANNELS" :: c :: names)) after
      hfuel' (by rw [hl, hls, hmore, List.cons_append])
    have hpos := rest.lines_length_pos
    simp only [BVH.readBlock, newLine_cons, Block.run, Block.lines, List.length_cons]
    simp only [List.getD_cons_zero, ne_eq, show ("CHANNELS" = "\x7d") = False by decide,
      show ("CHANNELS" = "OFFSET") = False by decide, not_false_eq_true, if_true, if_false]
    rw [this]
    congr 4
    rw [show rest.lines.length + 1 - 1 = (rest.lines.length - 1) + 1 by omega, List.drop_succ_cons]
  | joint name body rest ihb ihr =>
    intro fuel self lines line current after hfuel hlines
    obtain ⟨n, rfl⟩ : ∃ n, fuel = n + 2 := ⟨fuel - 2, by simp [Block.fuel] at hfuel; omega⟩
    have hfb : body.fuel ≤ n := by simp [Block.fuel] at hfuel; omega
    have hfr : rest.fuel ≤ n + 1 := by simp [Block.fuel] at hfuel; omega
    simp only [Block.lines, List.cons_append, List.cons.injEq] at hlines
    obtain ⟨rfl, hrest⟩ := hlines
    obtain ⟨lb, lines1, rfl, hlb, hlines1⟩ := lines_split_cons hrest
    obtain ⟨first, more, hmore⟩ := List.exists_cons_of_ne_nil body.lines_ne_nil
    have hlines1' : lines1.map splitString = first :: (more ++ rest.lines ++ after) := by
      rw [hlines1, hmore]; simp
    obtain ⟨l1, ls1, rfl, hl1, hls1⟩ := lines_split_cons hlines1'
    have hbody := ihb n (BVH.enterJoint self ["JOINT", name] Joint.empty current.id).1 ls1
      (splitString l1) (BVH.enterJoint self ["JOINT", name] Joint.empty current.id).2
      (rest.lines ++ after) hfb (by rw [hl1, hls1, hmore]; simp)
    have hbpos := body.lines_length_pos
    have hrpos := rest.lines_length_pos
    -- the lines after the body
    have hafter : (ls1.drop (body.lines.length - 1)).map splitString = rest.lines ++ after := by
      have h1 : (l1 :: ls1).map splitString = body.lines ++ (rest.lines ++ after) := by
        rw [List.map_cons, hl1, hls1, hmore]; simp
      have h2 := congrArg (List.drop body.lines.length) h1
      rw [List.drop_left, ← List.map_drop, drop_cons_pos _ _ _ hbpos] at h2
      exact h2
    obtain ⟨first2, more2, hmore2⟩ := List.exists_cons_of_ne_nil rest.lines_ne_nil
    rw [hmore2, List.cons_append] at hafter
    obtain ⟨l2, ls2, hdrop, hl2, hls2⟩ := lines_split_cons hafter
    have hrestRun := ihr (n + 1) (body.run stof
        (BVH.enterJoint self ["JOINT", name] Joint.empty current.id).1
        (BVH.enterJoint self ["JOINT", name] Joint.empty current.id).2).1 ls2 (splitString l2)
      { current with children := current.children ++ [(body.run stof
        (BVH.enterJoint self ["JOINT", name] Joint.empty current.id).1
        (BVH.enterJoint self ["JOINT", name] Joint.empty current.id).2).2] } after hfr
      (by rw [hl2, hls2, hmore2, List.cons_append])
    rw [BVH.readBlock]
    simp only [List.getD_cons_zero, ne_eq, show ("JOINT" = "\x7d") = False by decide,
      show ("JOINT" = "OFFSET") = False by decide,
      show ("JOINT" = "CHANNELS") = False by decide, not_false_eq_true, if_true, if_false]
    rw [BVH.readHierarchy]
    simp only [newLine_cons, hlb, List.getD_cons_zero, if_true]
    rw [hbody]
    simp only [hdrop, newLine_cons]
    rw [hrestRun]
    simp only [Block.run, Block.lines, List.length_cons, List.length_append]
    congr 4
    have e1 : (lb :: l1 :: ls1).drop (body.lines.length + rest.lines.length + 1 + 1 - 1) =
        (ls1.drop (body.lines.length - 1)).drop rest.lines.length := by
      rw [List.drop_drop]
      rw [show body.lines.length + rest.lines.length + 1 + 1 - 1 =
        (rest.lines.length + (body.lines.length - 1)) + 1 + 1 by omega]
      simp only [List.drop_succ_cons]
      rw [Nat.add_comm]
    rw [e1, hdrop, drop_cons_pos _ _ _ hrpos]
  | endSite x y z rest ih =>
    intro fuel self lines line current after hfuel hlines
    obtain ⟨n, rfl⟩ : ∃ n, fuel = n + 1 := ⟨fuel - 1, by simp [Block.fuel] at hfuel; omega⟩
    have hfuel' : rest.fuel ≤ n := by simp [Block.fuel] at hfuel; omega
    simp only [Block.lines, List.cons_append, List.cons.injEq] at hlines
    obtain ⟨rfl, hrest⟩ := hlines
    obtain ⟨l1, lines1, rfl, _, h1⟩ := lines_split_cons hrest
    obtain ⟨l2, lines2, rfl, _, h2⟩ := lines_split_cons h1
    obtain ⟨l3, lines3, rfl, _, h3⟩ := lines_split_cons h2
    obtain ⟨first, more, hmore⟩ := List.exists_cons_of_ne_nil rest.lines_ne_nil
    rw [hmore, List.cons_append] at h3
    obtain ⟨l4, ls, rfl, hl4, hls⟩ := lines_split_cons h3
    have := ih n self ls (splitString l4) current after hfuel'
      (by rw [hl4, hls, hmore, List.cons_append])
    have hpos := rest.lines_length_pos
    simp only [BVH.readBlock, newLine_cons, Block.run, Block.lines, List.length_cons]
    simp only [List.getD_cons_zero, ne_eq, show ("End" = "\x7d") = False by decide,
      show ("End" = "OFFSET") = False by decide, show ("End" = "CHANNELS") = False by decide,
      show ("End" = "JOINT") = False by decide, not_false_eq_true, if_true, if_false]
    rw [this]
    congr 4
    rw [show rest.lines.length + 1 + 1 + 1 + 1 - 1 = (rest.lines.length - 1) + 1 + 1 + 1 + 1
      by omega]
    simp

omit [LinearOrderedField K] in
/-- Pushing the joints of a subtree on a list appends them to the list. -/
theorem BVH.setAllJoints_append (joint : Joint K) :
    ∀ jointList, BVH.setAllJoints joint jointList = jointList ++ BVH.setAllJoints joint [] := by
  refine Joint.rec
    (motive_1 := fun joint => ∀ jointList,
      BVH.setAllJoints joint jointList = jointList ++ BVH.setAllJoints joint [])
    (motive_2 := fun children => ∀ jointList,
      BVH.setChildJoints children jointList = jointList ++ BVH.setChildJoints children [])
    ?_ ?_ ?_ joint
  · intro id name offset channels children ih jointList
    simp only [BVH.setAllJoints]
    rw [ih, ih ([] ++ _)]
    simp
  · intro jointList
    simp [BVH.setChildJoints]
  · intro child rest ihc ihr jointList
    simp only [BVH.setChildJoints]
    rw [ihr, ihc, ihr (BVH.setAllJoints child [])]
    simp

omit [LinearOrderedField K] in
theorem BVH.setChildJoints_append_list (children : List (Joint K)) (jointList : List (Joint K)) :
    BVH.setChildJoints children jointList = jointList ++ BVH.setChildJoints children [] := by
  induction children generalizing jointList with
  | nil => simp [BVH.setChildJoints]
  | cons child rest ih =>
    simp only [BVH.setChildJoints]
    rw [ih, BVH.setAllJoints_append, ih (BVH.setAllJoints child [])]
    simp

omit [LinearOrderedField K] in
theorem BVH.setAllJoints_nil (joint : Joint K) :
    BVH.setAllJoints joint [] = joint :: BVH.setChildJoints joint.children [] := by
  cases joint with
  | mk id name offset channels children =>
    simp only [BVH.setAllJoints]
    rw [BVH.setChildJoints_append_list]
    simp

omit [LinearOrderedField K] in
theorem BVH.setChildJoints_cons (child : Joint K) (rest : List (Joint K)) :
    BVH.setChildJoints (child :: rest) [] =
      BVH.setAllJoints child [] ++ BVH.setChildJoints rest [] := by
  simp only [BVH.setChildJoints]
  rw [BVH.setChildJoints_append_list]

omit [LinearOrderedField K] in
theorem BVH.setChildJoints_append (first second : List (Joint K)) :
    BVH.setChildJoints (first ++ second) [] =
      BVH.setChildJoints first [] ++ BVH.setChildJoints second [] := by
  induction first with
  | nil => simp [BVH.setChildJoints]
  | cons child rest ih =>
    rw [List.cons_append, BVH.setChildJoints_cons, BVH.setChildJoints_cons, ih, List.append_assoc]

omit [LinearOrderedField K] in
/-- Every joint of the flattened list of some children is one of the children or a child
of a joint of the list. -/
theorem BVH.mem_setChildJoints (children : List (Joint K)) :
    ∀ J ∈ BVH.setChildJoints children [],
      J ∈ children ∨ ∃ P ∈ BVH.setChildJoints children [], J ∈ P.children := by
  refine Joint.rec_1
    (motive_1 := fun joint => ∀ J ∈ BVH.setAllJoints joint [],
      J = joint ∨ ∃ P ∈ BVH.setAllJoints joint [], J ∈ P.children)
    (motive_2 := fun children => ∀ J ∈ BVH.setChildJoints children [],
      J ∈ children ∨ ∃ P ∈ BVH.setChildJoints children [], J ∈ P.children)
    ?_ ?_ ?_ children
  · intro id name offset channels children ih J hJ
    rw [BVH.setAllJoints_nil] at hJ ⊢
    rcases List.mem_cons.mp hJ with h | h
    · exact Or.inl h
    · right
      rcases ih J h with h' | ⟨P, hP, hPJ⟩
      · exact ⟨_, List.mem_cons_self _ _, h'⟩
      · exact ⟨P, List.mem_cons_of_mem _ hP, hPJ⟩
  · intro J hJ
    simp [BVH.setChildJoints] at hJ
  · intro child rest ihc ihr J hJ
    rw [BVH.setChildJoints_cons] at hJ ⊢
    rcases List.mem_append.mp hJ with h | h
    · rcases ihc J h with h' | ⟨P, hP, hPJ⟩
      · exact Or.inl (h' ▸ List.mem_cons_self _ _)
      · exact Or.inr ⟨P, List.mem_append_left _ hP, hPJ⟩
    · rcases ihr J h with h' | ⟨P, hP, hPJ⟩
      · exact Or.inl (List.mem_cons_of_mem _ h')
      · exact Or.inr ⟨P, List.mem_append_right _ hP, hPJ⟩

/-- Reading a block changes only `boneNames` and `parentBones` of the clip. -/
theorem Block.run_fields (stof : String → K) (b : Block) :
    ∀ (self : BVH K) (current : Joint K),
      (b.run stof self current).1 =
        { self with
          boneNames := (b.run stof self current).1.boneNames
          parentBones := (b.run stof self current).1.parentBones } := by
  induction b with
  | close => intro self current; rfl
  | offset x y z rest ih => intro self current; simp only [Block.run]; exact ih _ _
  | channels c names rest ih => intro self current; simp only [Block.run]; exact ih _ _
  | joint name body rest ihb ihr =>
    intro self current
    simp only [Block.run]
    rw [ihr, ihb]
    simp [BVH.enterJoint]
  | endSite x y z rest ih => intro self current; simp only [Block.run]; exact ih _ _

theorem range_ids_split (n a b : Nat) :
    (List.range (1 + a + b)).map (fun i => ((n + i : Nat) : Int)) =
      ((n : Nat) : Int) :: ((List.range a).map (fun i => ((n + 1 + i : Nat) : Int)) ++
        (List.range b).map (fun i => ((n + 1 + a + i : Nat) : Int))) := by
  rw [show 1 + a + b = (a + b) + 1 by omega, List.range_succ_eq_map, List.range_add]
  simp only [List.map_cons, List.map_map, List.map_append, Nat.add_zero]
  congr 1
  congr 1
  · apply List.map_congr_left
    intro i _
    simp only [Function.comp]
    congr 1
    omega
  · apply List.map_congr_left
    intro i _
    simp only [Function.comp]
    congr 1
    omega

/-- The numbering invariant of reading a block: with `n` joints read before, the block
adds `b.size` entries to `boneNames` and `parentBones` and leaves the earlier entries;
the new children of the joint, flattened, have the ids `n`, `n + 1`, ...; the parent
entry of each new child is the joint's id, and the parent entry of each child of a new
joint is that joint's id. -/
theorem Block.run_numbering (stof : String → K) (b : Block) :
    ∀ (self : BVH K) (current : Joint K) (n : Nat),
      self.boneNames.length = n → self.parentBones.length = n →
      (b.run stof self current).1.boneNames.length = n + b.size ∧
      (b.run stof self current).1.parentBones.length = n + b.size ∧
      (b.run stof self current).2.id = current.id ∧
      (∀ i, i < n →
        (b.run stof self current).1.parentBones.get? i = self.parentBones.get? i) ∧
      ∃ kids, (b.run stof self current).2.children = current.children ++ kids ∧
        (BVH.setChildJoints kids []).map (fun J => J.id) =
          (List.range b.size).map (fun i => ((n + i : Nat) : Int)) ∧
        (∀ C ∈ kids,
          (b.run stof self current).1.parentBones.get? C.id.toNat = some current.id) ∧
        (∀ J ∈ BVH.setChildJoints kids [], ∀ C ∈ J.children,
          (b.run stof self current).1.parentBones.get? C.id.toNat = some J.id) := by
  induction b with
  | close =>
    intro self current n h1 h2
    refine ⟨by simpa [Block.run, Block.size] using h1, by simpa [Block.run, Block.size] using h2,
      rfl, fun i _ => rfl, [], by simp [Block.run], by simp [BVH.setChildJoints, Block.size],
      by simp, by simp [BVH.setChildJoints]⟩
  | offset x y z rest ih =>
    intro self current n h1 h2
    exact ih self (current.readOffset stof ["OFFSET", x, y, z]) n h1 h2
  | channels c names rest ih =>
    intro self current n h1 h2
    exact ih self (current.readChannels ("CHANNELS" :: c :: names)) n h1 h2
  | endSite x y z rest ih =>
    intro self current n h1 h2
    exact ih self current n h1 h2
  | joint name body rest ihb ihr =>
    intro self current n h1 h2
    obtain ⟨b1, b2, b3, b4, kidsB, b5, b6, b7, b8⟩ := ihb
      (BVH.enterJoint self ["JOINT", name] Joint.empty current.id).1
      (BVH.enterJoint self ["JOINT", name] Joint.empty current.id).2 (n + 1)
      (by simp [BVH.enterJoint, h1]) (by simp [BVH.enterJoint, h2])
    obtain ⟨r1, r2, r3, r4, kidsR, r5, r6, r7, r8⟩ := ihr
      (body.run stof (BVH.enterJoint self ["JOINT", name] Joint.empty current.id).1
        (BVH.enterJoint self ["JOINT", name] Joint.empty current.id).2).1
      { current with children := current.children ++ [(body.run stof
        (BVH.enterJoint self ["JOINT", name] Joint.empty current.id).1
        (BVH.enterJoint self ["JOINT", name] Joint.empty current.id).2).2] }
      (n + 1 + body.size) b1 b2
    simp only [Block.run, Block.size]
    -- abbreviations
    set self1 := (BVH.enterJoint self ["JOINT", name] Joint.empty current.id).1 with hself1
    set child0 := (BVH.enterJoint self ["JOINT", name] Joint.empty current.id).2 with hchild0
    set inner := body.run stof self1 child0 with hinner
    set outer := rest.run stof inner.1
      { current with children := current.children ++ [inner.2] } with houter
    have hchild0_id : child0.id = (n : Int) := by simp [hchild0, BVH.enterJoint, h1]
    have hchild0_kids : child0.children = [] := by simp [hchild0, BVH.enterJoint, Joint.empty]
    have hinner_id : inner.2.id = (n : Int) := b3.trans hchild0_id
    have hinner_kids : inner.2.children = kidsB := by rw [b5, hchild0_kids]; rfl
    have hparent_n : self1.parentBones.get? n = some current.id := by
      simp [hself1, BVH.enterJoint, ← h2]
    have hinner_n : inner.1.parentBones.get? n = some current.id := by
      rw [b4 n (by omega)]; exact hparent_n
    have houter_n : outer.1.parentBones.get? n = some current.id := by
      rw [r4 n (by omega)]; exact hinner_n
    -- an entry present after the body is kept by the rest
    have keep : ∀ (i : Nat) (v : Int), inner.1.parentBones.get? i = some v →
        outer.1.parentBones.get? i = some v := by
      intro i v hv
      have hi : i < inner.1.parentBones.length := by
        rcases List.get?_eq_some.mp hv with ⟨h, _⟩
        exact h
      rw [r4 i (by omega)]; exact hv
    refine ⟨by rw [r1]; omega, by rw [r2]; omega, r3, ?_, inner.2 :: kidsR, ?_, ?_, ?_, ?_⟩
    · intro i hi
      rw [r4 i (by omega), b4 i (by omega)]
      simp only [hself1, BVH.enterJoint]
      rw [List.get?_eq_getElem?, List.get?_eq_getElem?, List.getElem?_append_left (by omega)]
    · rw [r5]; simp
    · rw [BVH.setChildJoints_cons, BVH.setAllJoints_nil, hinner_kids, range_ids_split]
      simp only [List.cons_append, List.map_cons, List.map_append, hinner_id, b6, r6]
    · intro C hC
      rcases List.mem_cons.mp hC with h | h
      · rw [h, hinner_id]; exact houter_n
      · exact r7 C h
    · intro J hJ C hC
      rw [BVH.setChildJoints_cons, BVH.setAllJoints_nil, hinner_kids] at hJ
      rcases List.mem_append.mp hJ with h | h
      · rcases List.mem_cons.mp h with h' | h'
        · subst h'
          rw [hinner_kids] at hC
          have := b7 C hC
          rw [hchild0_id] at this
          rw [hinner_id]
          exact keep _ _ this
        · exact keep _ _ (b8 J h' C hC)
      · exact r8 J h C hC

theorem splitString_of_length_zero (line : String) (h : line.length = 0) :
    splitString line = [""] := by
  have hnil : line.toList = [] := List.length_eq_zero.mp h
  show splitChars line.toList none = [""]
  rw [hnil]
  rfl

/-- The loop of `readBVHFile` over lines none of which starts a hierarchy section: it
ends, and leaves the joints, `boneNames` and `parentBones` as they are. -/
theorem BVH.readSections_motion (stof : String → K) (motion : List String) :
    ∀ (fuel : Nat) (self : BVH K), motion.length < fuel →
      (∀ line ∈ motion, (splitString line).getD 0 "" ≠ "HIERARCHY") →
      ∃ clip, BVH.readSections stof fuel self ⟨false, false, motion⟩ = some clip ∧
        clip.root = self.root ∧ clip.allJoints = self.allJoints ∧
        clip.boneNames = self.boneNames ∧ clip.parentBones = self.parentBones := by
  induction motion with
  | nil =>
    intro fuel self hfuel _
    obtain ⟨n, rfl⟩ : ∃ n, fuel = n + 1 := ⟨fuel - 1, by simp at hfuel; omega⟩
    exact ⟨self, by simp [BVH.readSections, getline], rfl, rfl, rfl, rfl⟩
  | cons line rest ih =>
    intro fuel self hfuel hno
    obtain ⟨n, rfl⟩ : ∃ n, fuel = n + 1 := ⟨fuel - 1, by simp at hfuel; omega⟩
    have hline := hno line (List.mem_cons_self _ _)
    rw [BVH.readSections]
    simp only [getline, Bool.or_self, Bool.false_eq_true, if_false, Bool.true_and]
    by_cases hlen : line.length = 0
    · simp only [hlen, ne_eq, not_true_eq_false, decide_False, Bool.false_eq_true, if_false]
      exact ⟨self, rfl, rfl, rfl, rfl, rfl⟩
    · simp only [ne_eq, hlen, not_false_eq_true, decide_True, if_true, if_neg hline]
      by_cases hm : (splitString line).getD 0 "" = "MOTION"
      · rw [if_pos hm]
        refine ⟨_, rfl, ?_, ?_, ?_, ?_⟩ <;>
          (simp only [BVH.readMotion]; split_ifs <;> rfl)
      · rw [if_neg hm]
        exact ih n self (by simp at hfuel; omega)
          (fun l hl => hno l (List.mem_cons_of_mem _ hl))

end HierarchyLemmas

/-! ## Lemmas on the quaternion product -/

section ProductLemmas

variable {K : Type} [LinearOrderedField K]

/-- The method `operator*` is the Hamilton product. -/
theorem Quaternion.toHamilton_mul (p q : Quaternion K) :
    (p.mul q).toHamilton = p.toHamilton * q.toHamilton := by
  apply QuaternionAlgebra.ext <;>
    simp only [Quaternion.toHamilton, Quaternion.mul, QuaternionAlgebra.mul_re,
      QuaternionAlgebra.mul_imI, QuaternionAlgebra.mul_imJ, QuaternionAlgebra.mul_imK] <;>
    ring

/-- The squared norm of a product is the product of the squared norms. -/
theorem Quaternion.dot_mul (p q : Quaternion K) :
    (p.mul q).dot (p.mul q) = p.dot p * q.dot q := by
  simp only [Quaternion.dot, Quaternion.mul]
  ring

/-- The matrix of the product of two unit quaternions is the product of their
matrices. -/
theorem Quaternion.matrix_mul (p q : Quaternion K) (hp : p.IsUnit) (hq : q.IsUnit) :
    (p.mul q).matrix = p.matrix * q.matrix := by
  obtain ⟨px, py, pz, pw⟩ := p
  obtain ⟨qx, qy, qz, qw⟩ := q
  simp only [Quaternion.IsUnit, Quaternion.dot] at hp hq
  simp only [Quaternion.matrix, Quaternion.mul]
  ext i j
  rw [Matrix.mul_apply, Fin.sum_univ_four]
  fin_cases i <;> fin_cases j <;>
    simp only [Matrix.of_apply, Matrix.cons_val', Matrix.cons_val_zero, Matrix.cons_val_one,
      Matrix.head_cons, Matrix.cons_val_two, Matrix.tail_cons, Matrix.cons_val_three,
      Matrix.empty_val', Matrix.cons_val_fin_one, Fin.zero_eta, Fin.mk_one, Fin.reduceFinMk,
      Fin.isValue, Matrix.vecHead, zero_mul, mul_zero, add_zero, zero_add, mul_one]
  · linear_combination
      (qw * qw + qx * qx - qy * qy - qz * qz -
        2 * (qx * qx + qy * qy + qz * qz + qw * qw) + 1) * hp +
      (pw * pw + px * px - py * py - pz * pz - 1) * hq
  · linear_combination 2 * (qx * qy - qz * qw) * hp + 2 * (px * py - pz * pw) * hq
  · linear_combination 2 * (qx * qz + qy * qw) * hp + 2 * (px * pz + py * pw) * hq
  · linear_combination 2 * (qx * qy + qz * qw) * hp + 2 * (px * py + pz * pw) * hq
  · linear_combination
      (qw * qw - qx * qx + qy * qy - qz * qz -
        2 * (qx * qx + qy * qy + qz * qz + qw * qw) + 1) * hp +
      (pw * pw - px * px + py * py - pz * pz - 1) * hq
  · linear_combination 2 * (qy * qz - qx * qw) * hp + 2 * (py * pz - px * pw) * hq
  · linear_combination 2 * (qx * qz - qy * qw) * hp + 2 * (px * pz - py * pw) * hq
  · linear_combination 2 * (qy * qz + qx * qw) * hp + 2 * (py * pz + px * pw) * hq
  · linear_combination
      (qw * qw - qx * qx - qy * qy + qz * qz -
        2 * (qx * qx + qy * qy + qz * qz + qw * qw) + 1) * hp +
      (pw * pw - px * px - py * py + pz * pz - 1) * hq

end ProductLemmas

/-! ## Lemmas on convex combinations and on reachable scenes -/

section ConvexLemmas

variable {K : Type} [LinearOrderedField K]

/-- A combination of three values with non-negative weights of sum `1` lies between the
least and the greatest of the values. -/
theorem convex_three_bounds {a b g A B G : K} (ha : 0 ≤ a) (hb : 0 ≤ b) (hg : 0 ≤ g)
    (hsum : a + b + g = 1) :
    min (min A B) G ≤ a * A + b * B + g * G ∧ a * A + b * B + g * G ≤ max (max A B) G := by
  have lA : min (min A B) G ≤ A := (min_le_left _ _).trans (min_le_left _ _)
  have lB : min (min A B) G ≤ B := (min_le_left _ _).trans (min_le_right _ _)
  have lG : min (min A B) G ≤ G := min_le_right _ _
  have uA : A ≤ max (max A B) G := (le_max_left _ _).trans (le_max_left _ _)
  have uB : B ≤ max (max A B) G := (le_max_right _ _).trans (le_max_left _ _)
  have uG : G ≤ max (max A B) G := le_max_right _ _
  have elo : min (min A B) G =
      a * min (min A B) G + b * min (min A B) G + g * min (min A B) G := by
    rw [← add_mul, ← add_mul, hsum, one_mul]
  have ehi : max (max A B) G =
      a * max (max A B) G + b * max (max A B) G + g * max (max A B) G := by
    rw [← add_mul, ← add_mul, hsum, one_mul]
  constructor
  · rw [elo]
    exact add_le_add (add_le_add (mul_le_mul_of_nonneg_left lA ha)
      (mul_le_mul_of_nonneg_left lB hb)) (mul_le_mul_of_nonneg_left lG hg)
  · rw [ehi]
    exact add_le_add (add_le_add (mul_le_mul_of_nonneg_left uA ha)
      (mul_le_mul_of_nonneg_left uB hb)) (mul_le_mul_of_nonneg_left uG hg)

end ConvexLemmas

section ReachLemmas

variable {K : Type} [LinearOrderedField K]

/-- The control part right after a right-turn event taken from a state other than
`VeeringRight`. -/
theorem Scene.control_turnRight (m : CMath K) (s : Scene K)
    (h : s.state ≠ AnimationState.VeeringRight) :
    (s.eventCharacterTurnRight m).control =
      ⟨AnimationState.VeeringRight, 0, some 12, ClipRef.veerRightCycle,
       decide (0 < s.characterSpeed)⟩ := by
  simp [Scene.eventCharacterTurnRight, h, Scene.control, Scene.blendInto,
    BVH.blend_frameCount, toUnsignedLong]

/-- A veer started by a turn event, on the control part: the state stays the veer for
`44` calls of `update` and is `Running` or `Resting`, by the speed, after the 45th. -/
theorem Control.veer_ends (moving : Bool) :
    (∀ k, k ≤ 44 →
      (Control.update^[k]
        ⟨AnimationState.VeeringLeft, 0, some 12, ClipRef.veerLeftCycle, moving⟩).state =
        AnimationState.VeeringLeft ∧
      (Control.update^[k]
        ⟨AnimationState.VeeringRight, 0, some 12, ClipRef.veerRightCycle, moving⟩).state =
        AnimationState.VeeringRight) ∧
    (Control.update^[45]
      ⟨AnimationState.VeeringLeft, 0, some 12, ClipRef.veerLeftCycle, moving⟩).state =
      (if moving then AnimationState.Running else AnimationState.Resting) ∧
    (Control.update^[45]
      ⟨AnimationState.VeeringRight, 0, some 12, ClipRef.veerRightCycle, moving⟩).state =
      (if moving then AnimationState.Running else AnimationState.Resting) := by
  cases moving <;> set_option maxRecDepth 100000 in decide

theorem Scene.reset_speedMatchesState (m : CMath K) (s : Scene K) :
    (s.eventCharacterReset m).SpeedMatchesState :=
  ⟨Or.inl rfl, fun _ => rfl, fun h => absurd h (by simp [Scene.eventCharacterReset])⟩

theorem locomotionState_of_speed {speed : K} (h : speed = 0 ∨ speed = 1) :
    (locomotionState speed = AnimationState.Running ∧ speed = 1) ∨
    (locomotionState speed = AnimationState.Resting ∧ speed = 0) := by
  rcases h with h | h
  · right; simp [locomotionState, h]
  · left; simp [locomotionState, h]

variable [FloorRing K]

/-- The function `update` keeps the speed, and changes the state only when it ends a
veer, to the locomotion state of the speed. -/
theorem Scene.update_speed (m : CMath K) (s : Scene K) :
    (s.update m).characterSpeed = s.characterSpeed ∧
    ((s.update m).state = s.state ∨
      ((s.state = AnimationState.VeeringLeft ∨ s.state = AnimationState.VeeringRight) ∧
        (s.update m).state = locomotionState s.characterSpeed)) := by
  unfold Scene.update Scene.move Scene.veer Scene.advanceFrame locomotionState
  cases s.blendAnimation <;> simp only <;> split_ifs <;> simp_all

/-- Any number of `update` calls keeps the speed, and the state is the one at the
start or, after a veer, the locomotion state of the speed. -/
theorem Scene.iterate_speed (m : CMath K) (s : Scene K) (n : Nat) :
    ((Scene.update m)^[n] s).characterSpeed = s.characterSpeed ∧
    (((Scene.update m)^[n] s).state = s.state ∨
      ((s.state = AnimationState.VeeringLeft ∨ s.state = AnimationState.VeeringRight) ∧
        ((Scene.update m)^[n] s).state = locomotionState s.characterSpeed)) := by
  induction n with
  | zero => exact ⟨rfl, Or.inl rfl⟩
  | succ k ih =>
    obtain ⟨i1, i2⟩ := ih
    rw [Function.iterate_succ_apply']
    obtain ⟨u1, u2⟩ := Scene.update_speed m ((Scene.update m)^[k] s)
    refine ⟨u1.trans i1, ?_⟩
    rcases i2 with i2 | ⟨hv, i2⟩
    · rcases u2 with u2 | ⟨uv, u2⟩
      · exact Or.inl (u2.trans i2)
      · rw [i2] at uv
        rw [i1] at u2
        exact Or.inr ⟨uv, u2⟩
    · rcases u2 with u2 | ⟨_, u2⟩
      · exact Or.inr ⟨hv, u2.trans i2⟩
      · rw [i1] at u2
        exact Or.inr ⟨hv, u2⟩

/-- Every call keeps the agreement of the speed with the state. -/
theorem Scene.step_speedMatchesState (m : CMath K) (s : Scene K) (call : CharacterEvent)
    (h : s.SpeedMatchesState) : (s.step m call).SpeedMatchesState := by
  obtain ⟨h1, h2, h3⟩ := h
  cases call
  · -- forward
    by_cases hs : s.state = AnimationState.Running
    · simp only [Scene.step, Scene.eventCharacterForward, if_pos hs]
      exact ⟨h1, h2, h3⟩
    · simp only [Scene.step, Scene.eventCharacterForward, if_neg hs]
      exact ⟨Or.inr rfl, fun h => absurd h (by simp), fun _ => rfl⟩
  · -- backward
    by_cases hs : s.state = AnimationState.Resting
    · simp only [Scene.step, Scene.eventCharacterBackward, if_pos hs]
      exact ⟨h1, h2, h3⟩
    · simp only [Scene.step, Scene.eventCharacterBackward, if_neg hs]
      exact ⟨Or.inl rfl, fun _ => rfl, fun h => absurd h (by simp)⟩
  · -- turnLeft
    by_cases hs : s.state = AnimationState.VeeringLeft
    · simp only [Scene.step, Scene.eventCharacterTurnLeft, if_pos hs]
      exact ⟨h1, h2, h3⟩
    · simp only [Scene.step, Scene.eventCharacterTurnLeft, if_neg hs]
      exact ⟨h1, fun h => absurd h (by simp), fun h => absurd h (by simp)⟩
  · -- turnRight
    by_cases hs : s.state = AnimationState.VeeringRight
    · simp only [Scene.step, Scene.eventCharacterTurnRight, if_pos hs]
      exact ⟨h1, h2, h3⟩
    · simp only [Scene.step, Scene.eventCharacterTurnRight, if_neg hs]
      exact ⟨h1, fun h => absurd h (by simp), fun h => absurd h (by simp)⟩
  · exact Scene.reset_speedMatchesState m s
  · -- update
    obtain ⟨u1, u2⟩ := Scene.update_speed m s
    simp only [Scene.step, Scene.SpeedMatchesState, u1]
    rcases u2 with u2 | ⟨_, u2⟩
    · rw [u2]; exact ⟨h1, h2, h3⟩
    · rw [u2]
      rcases locomotionState_of_speed h1 with ⟨e, hv⟩ | ⟨e, hv⟩
      · rw [e]; exact ⟨h1, fun h => absurd h (by decide), fun _ => hv⟩
      · rw [e]; exact ⟨h1, fun _ => hv, fun h => absurd h (by decide)⟩

/-- Every sequence of calls keeps the agreement of the speed with the state. -/
theorem Scene.run_speedMatchesState (m : CMath K) (calls : List CharacterEvent) :
    ∀ s : Scene K, s.SpeedMatchesState → (Scene.run m s calls).SpeedMatchesState := by
  induction calls with
  | nil => intro s h; exact h
  | cons call rest ih =>
    intro s h
    exact ih (s.step m call) (Scene.step_speedMatchesState m s call h)

end ReachLemmas

/-! ## The locomotion state machine (`Scene.cpp`) -/

/-- C1 (counterexample): from a scene in state `Running` with speed `1`, a `turnLeft`
event followed by `33` calls of `update` leaves the state `VeeringLeft` with the frame
counter at `21`: the state has not become `Running` on the 33rd tick. -/
theorem veer_left_still_veering_at_tick_33 :
    (runScene : Scene ℝ).state = AnimationState.Running ∧
    0 < (runScene : Scene ℝ).characterSpeed ∧
    ((Scene.update ⟨Real.sin, Real.cos, Real.arccos, Real.sqrt, Real.pi⟩)^[33]
      ((runScene : Scene ℝ).eventCharacterTurnLeft
        ⟨Real.sin, Real.cos, Real.arccos, Real.sqrt, Real.pi⟩)).state =
      AnimationState.VeeringLeft ∧
    ((Scene.update ⟨Real.sin, Real.cos, Real.arccos, Real.sqrt, Real.pi⟩)^[33]
      ((runScene : Scene ℝ).eventCharacterTurnLeft
        ⟨Real.sin, Real.cos, Real.arccos, Real.sqrt, Real.pi⟩)).frameNumber = 21 ∧
    ((Scene.update ⟨Real.sin, Real.cos, Real.arccos, Real.sqrt, Real.pi⟩)^[33]
      ((runScene : Scene ℝ).eventCharacterTurnLeft
        ⟨Real.sin, Real.cos, Real.arccos, Real.sqrt, Real.pi⟩)).state ≠
      AnimationState.Running := by
  have hne : (runScene : Scene ℝ).state ≠ AnimationState.VeeringLeft := by
    show AnimationState.Running ≠ AnimationState.VeeringLeft
    decide
  have hpos : 0 < (runScene : Scene ℝ).characterSpeed := by
    show (0 : ℝ) < 1
    exact one_pos
  have h0 := Scene.control_turnLeft ⟨Real.sin, Real.cos, Real.arccos, Real.sqrt, Real.pi⟩
    (runScene : Scene ℝ) hne
  simp only [hpos, decide_True] at h0
  have h33 : Control.update^[33]
      ⟨AnimationState.VeeringLeft, 0, some 12, ClipRef.veerLeftCycle, true⟩ =
      ⟨AnimationState.VeeringLeft, 21, none, ClipRef.veerLeftCycle, true⟩ := by
    set_option maxRecDepth 100000 in decide
  have c33 := Scene.control_iterate ⟨Real.sin, Real.cos, Real.arccos, Real.sqrt, Real.pi⟩
    ((runScene : Scene ℝ).eventCharacterTurnLeft
      ⟨Real.sin, Real.cos, Real.arccos, Real.sqrt, Real.pi⟩) 33
  rw [h0, h33] at c33
  have hs := congrArg Control.state c33
  have hf := congrArg Control.frameNumber c33
  simp only [Scene.control] at hs hf
  refine ⟨rfl, hpos, hs, hf, ?_⟩
  rw [hs]
  decide

/-- C1 (amended): from any state with `state = Running` and `speed > 0`, a `turnLeft`
event followed by `update` calls and no further events leaves `state = VeeringLeft` for
the first `44` ticks (the blend created by the event is handed off on tick `12`, which
sets the frame counter back to `0`), and on exactly the 45th tick the state becomes
`Running` again, with the frame counter `0`, the run clip current and a freshly created
blend (veer-left clip at frame `33` into the run clip) active. -/
theorem veer_left_self_terminates {K : Type} [LinearOrderedField K] [FloorRing K]
    (m : CMath K) (s : Scene K)
    (hstate : s.state = AnimationState.Running) (hspeed : 0 < s.characterSpeed) :
    (∀ k, k ≤ 44 →
      ((Scene.update m)^[k] (s.eventCharacterTurnLeft m)).state =
        AnimationState.VeeringLeft) ∧
    ((Scene.update m)^[45] (s.eventCharacterTurnLeft m)).state = AnimationState.Running ∧
    ((Scene.update m)^[45] (s.eventCharacterTurnLeft m)).frameNumber = 0 ∧
    ((Scene.update m)^[45] (s.eventCharacterTurnLeft m)).currentAnimation =
      ClipRef.runCycle ∧
    ((Scene.update m)^[45] (s.eventCharacterTurnLeft m)).blendAnimation =
      some (s.veerLeftCycle.blend 33 s.runCycle) := by
  have hne : s.state ≠ AnimationState.VeeringLeft := by rw [hstate]; decide
  have h0 := Scene.control_turnLeft m s hne
  simp only [hspeed, decide_True] at h0
  have hk : ∀ k, ((Scene.update m)^[k] (s.eventCharacterTurnLeft m)).control =
      Control.update^[k]
        ⟨AnimationState.VeeringLeft, 0, some 12, ClipRef.veerLeftCycle, true⟩ := by
    intro k; rw [Scene.control_iterate, h0]
  have hphase : ∀ k, k ≤ 44 → (Control.update^[k]
      ⟨AnimationState.VeeringLeft, 0, some 12, ClipRef.veerLeftCycle, true⟩).state =
        AnimationState.VeeringLeft := by
    set_option maxRecDepth 100000 in decide
  have h45 : Control.update^[45]
      ⟨AnimationState.VeeringLeft, 0, some 12, ClipRef.veerLeftCycle, true⟩ =
      ⟨AnimationState.Running, 0, some 12, ClipRef.runCycle, true⟩ := by
    set_option maxRecDepth 100000 in decide
  have h44 : Control.update^[44]
      ⟨AnimationState.VeeringLeft, 0, some 12, ClipRef.veerLeftCycle, true⟩ =
      ⟨AnimationState.VeeringLeft, 32, none, ClipRef.veerLeftCycle, true⟩ := by
    set_option maxRecDepth 100000 in decide
  have c45 := hk 45
  rw [h45] at c45
  have c44 := hk 44
  rw [h44] at c44
  refine ⟨fun k hk44 => ?_, ?_, ?_, ?_, ?_⟩
  · have h := congrArg Control.state (hk k)
    rw [hphase k hk44] at h
    simp only [Scene.control] at h
    exact h
  · have h := congrArg Control.state c45
    simp only [Scene.control] at h
    exact h
  · have h := congrArg Control.frameNumber c45
    simp only [Scene.control] at h
    exact h
  · have h := congrArg Control.currentAnimation c45
    simp only [Scene.control] at h
    exact h
  · rw [Function.iterate_succ_apply',
      Scene.update_veer_end m _ AnimationState.VeeringLeft ClipRef.veerLeftCycle
        (Or.inl rfl) c44]
    obtain ⟨_, i2, i3, _⟩ := Scene.iterate_clips m (s.eventCharacterTurnLeft m) 44
    have e1 : (s.eventCharacterTurnLeft m).veerLeftCycle = s.veerLeftCycle := by
      simp [Scene.eventCharacterTurnLeft, hne]
    have e2 : (s.eventCharacterTurnLeft m).runCycle = s.runCycle := by
      simp [Scene.eventCharacterTurnLeft, hne]
    simp only [Scene.clip, i2, i3, e1, e2]

/-- C1 (witness): the amended statement at the scene `runScene` over the reals: the
hypotheses hold there, tick `44` is still `VeeringLeft` and tick `45` is `Running` with
the frame counter `0`. -/
theorem veer_left_self_terminates_witness :
    (runScene : Scene ℝ).state = AnimationState.Running ∧
    0 < (runScene : Scene ℝ).characterSpeed ∧
    ((Scene.update ⟨Real.sin, Real.cos, Real.arccos, Real.sqrt, Real.pi⟩)^[44]
      ((runScene : Scene ℝ).eventCharacterTurnLeft
        ⟨Real.sin, Real.cos, Real.arccos, Real.sqrt, Real.pi⟩)).state =
      AnimationState.VeeringLeft ∧
    ((Scene.update ⟨Real.sin, Real.cos, Real.arccos, Real.sqrt, Real.pi⟩)^[45]
      ((runScene : Scene ℝ).eventCharacterTurnLeft
        ⟨Real.sin, Real.cos, Real.arccos, Real.sqrt, Real.pi⟩)).state =
      AnimationState.Running ∧
    ((Scene.update ⟨Real.sin, Real.cos, Real.arccos, Real.sqrt, Real.pi⟩)^[45]
      ((runScene : Scene ℝ).eventCharacterTurnLeft
        ⟨Real.sin, Real.cos, Real.arccos, Real.sqrt, Real.pi⟩)).frameNumber = 0 :=
  have hpos : 0 < (runScene : Scene ℝ).characterSpeed := by
    show (0 : ℝ) < 1
    exact one_pos
  have h := veer_left_self_terminates ⟨Real.sin, Real.cos, Real.arccos, Real.sqrt, Real.pi⟩
    (runScene : Scene ℝ) rfl hpos
  ⟨rfl, hpos, h.1 44 (le_refl 44), h.2.1, h.2.2.1⟩

/-- C2: starting from the reset state (`Resting`, location at the origin, identity
orientation, speed `0`, no blend) with `rangeX ≥ 0` and `rangeY > 0`, a `forward` event
followed by `50` calls of `update` leaves `state = Running`, `speed = 1 > 0`,
`location.x = 0` and `location.y = min(50, rangeY) > 0`. The height query is total in
the embedding, so no hypothesis on it is needed. -/
theorem forward_fifty_ticks {K : Type} [LinearOrderedField K] [FloorRing K]
    (m : CMath K) (s : Scene K)
    (hstate : s.state = AnimationState.Resting)
    (hloc : s.characterLocation = ⟨0, 0, 0⟩)
    (hrot : s.characterRotation = ⟨0, 0, 0, 1⟩)
    (_hspeed : s.characterSpeed = 0)
    (_hblend : s.blendAnimation = none)
    (hrx : 0 ≤ s.terrainRange.1) (hry : 0 < s.terrainRange.2) :
    ((Scene.update m)^[50] s.eventCharacterForward).state = AnimationState.Running ∧
    ((Scene.update m)^[50] s.eventCharacterForward).characterSpeed = 1 ∧
    0 < ((Scene.update m)^[50] s.eventCharacterForward).characterSpeed ∧
    ((Scene.update m)^[50] s.eventCharacterForward).characterLocation.x = 0 ∧
    ((Scene.update m)^[50] s.eventCharacterForward).characterLocation.y =
      min 50 s.terrainRange.2 ∧
    0 < ((Scene.update m)^[50] s.eventCharacterForward).characterLocation.y := by
  have hne : s.state ≠ AnimationState.Running := by rw [hstate]; decide
  obtain ⟨r1, r2, _, _, r5, r6⟩ := Scene.run_forward m s.eventCharacterForward 50
    (by simp [Scene.eventCharacterForward, hne])
    (by simp [Scene.eventCharacterForward, hne, speedDelta])
    (by simp [Scene.eventCharacterForward, hne, hrot])
    (by simp [Scene.eventCharacterForward, hne, hloc])
    (by simp [Scene.eventCharacterForward, hne, hloc])
    (by simpa [Scene.eventCharacterForward, hne] using hrx)
    (by simpa [Scene.eventCharacterForward, hne] using hry)
  have hr : s.eventCharacterForward.terrainRange = s.terrainRange := by
    simp [Scene.eventCharacterForward, hne]
  rw [hr] at r6
  have r6' : ((Scene.update m)^[50] s.eventCharacterForward).characterLocation.y =
      min 50 s.terrainRange.2 := by
    rw [r6]; norm_num
  refine ⟨r1, r2, by rw [r2]; exact one_pos, r5, r6', ?_⟩
  rw [r6']
  exact lt_min (by norm_num) hry

/-- C2 (witness): the forward scenario at the scene `restScene` over the reals, whose
range is `(100, 100)`: after `50` ticks the state is `Running` and `location.y = 50`. -/
theorem forward_fifty_ticks_witness :
    ((Scene.update ⟨Real.sin, Real.cos, Real.arccos, Real.sqrt, Real.pi⟩)^[50]
      (restScene : Scene ℝ).eventCharacterForward).state = AnimationState.Running ∧
    ((Scene.update ⟨Real.sin, Real.cos, Real.arccos, Real.sqrt, Real.pi⟩)^[50]
      (restScene : Scene ℝ).eventCharacterForward).characterLocation.y = 50 := by
  have h := forward_fifty_ticks ⟨Real.sin, Real.cos, Real.arccos, Real.sqrt, Real.pi⟩
    (restScene : Scene ℝ) rfl rfl rfl rfl rfl (by norm_num [restScene])
    (by norm_num [restScene])
  refine ⟨h.1, ?_⟩
  rw [h.2.2.2.2.1]
  norm_num [restScene]

/-- C3: for every scene (any prior location, speed, orientation and state) whose
`terrainRange = (rangeX, rangeY)` has `rangeX ≥ 0` and `rangeY ≥ 0`, after `update` the
location satisfies `-rangeX ≤ x ≤ rangeX` and `-rangeY ≤ y ≤ rangeY`; and with
`rangeX = rangeY = 100` a step whose unclamped result is `(150, 0)` yields `x = 100` and
`y = 0` exactly. -/
theorem update_location_clamped {K : Type} [LinearOrderedField K] [FloorRing K]
    (m : CMath K) (s : Scene K)
    (hrx : 0 ≤ s.terrainRange.1) (hry : 0 ≤ s.terrainRange.2) :
    (-s.terrainRange.1 ≤ (s.update m).characterLocation.x ∧
      (s.update m).characterLocation.x ≤ s.terrainRange.1 ∧
      -s.terrainRange.2 ≤ (s.update m).characterLocation.y ∧
      (s.update m).characterLocation.y ≤ s.terrainRange.2) ∧
    (s.terrainRange = (100, 100) → (s.advanceFrame.veer m).unclamped.x = 150 →
      (s.advanceFrame.veer m).unclamped.y = 0 →
      (s.update m).characterLocation.x = 100 ∧ (s.update m).characterLocation.y = 0) := by
  obtain ⟨_, ux, uy⟩ := Scene.update_location m s
  have bx := clamp_mem ((s.advanceFrame.veer m).unclamped.x)
    (show -s.terrainRange.1 ≤ s.terrainRange.1 by linarith)
  have by' := clamp_mem ((s.advanceFrame.veer m).unclamped.y)
    (show -s.terrainRange.2 ≤ s.terrainRange.2 by linarith)
  refine ⟨⟨by rw [ux]; exact bx.1, by rw [ux]; exact bx.2, by rw [uy]; exact by'.1,
    by rw [uy]; exact by'.2⟩, ?_⟩
  intro hr h150 h0
  rw [ux, uy, h150, h0, hr]
  constructor <;> norm_num [clamp]

/-- C3 (witness): the scene `edgeScene` over the reals has range `(100, 100)` and moves
from `(149, 0)` by one unit along `+x`, so its unclamped location is `(150, 0)`; after
`update` the location has `x = 100` and `y = 0`. -/
theorem update_location_clamped_witness :
    ((edgeScene : Scene ℝ).update
      ⟨Real.sin, Real.cos, Real.arccos, Real.sqrt, Real.pi⟩).characterLocation.x = 100 ∧
    ((edgeScene : Scene ℝ).update
      ⟨Real.sin, Real.cos, Real.arccos, Real.sqrt, Real.pi⟩).characterLocation.y = 0 :=
  (update_location_clamped ⟨Real.sin, Real.cos, Real.arccos, Real.sqrt, Real.pi⟩
    (edgeScene : Scene ℝ) (by norm_num [edgeScene]) (by norm_num [edgeScene])).2 rfl
    (by
      simp [Scene.veer, Scene.advanceFrame, edgeScene, Scene.unclamped, Cartesian3.add,
        Cartesian3.scale, Matrix4.mulVec3, Quaternion.matrix, forward]
      norm_num)
    (by
      simp [Scene.veer, Scene.advanceFrame, edgeScene, Scene.unclamped, Cartesian3.add,
        Cartesian3.scale, Matrix4.mulVec3, Quaternion.matrix, forward]
      norm_num)

/-! ## The height field (`Terrain.cpp`) -/

/-- C4 (evaluation at the failing input): on `rampTerrain`, in the cell of row `0` and
column `0`, the two branch formulas of `getHeight` disagree at the diagonal point
`xRemainder = yRemainder = 1/2`: the lower-left formula gives `1`, the upper-right formula
gives `0`. Accordingly `getHeight` returns `0` at `(-1/2, 1/2)`, on the diagonal, and
`51/50` at `(-51/100, 1/2)`, just left of it. -/
theorem getHeight_diagonal_mismatch :
    Terrain.heightLL (rampTerrain : Terrain ℚ).heightValues ⟨0, 0, 1 / 2, 1 / 2⟩ = 1 ∧
    Terrain.heightUR (rampTerrain : Terrain ℚ).heightValues ⟨0, 0, 1 / 2, 1 / 2⟩ = 0 ∧
    (rampTerrain : Terrain ℚ).locate (-1 / 2) (1 / 2) = ⟨0, 0, 1 / 2, 1 / 2⟩ ∧
    (rampTerrain : Terrain ℚ).getHeight (-1 / 2) (1 / 2) = 0 ∧
    (rampTerrain : Terrain ℚ).locate (-51 / 100) (1 / 2) = ⟨0, 0, 49 / 100, 1 / 2⟩ ∧
    (rampTerrain : Terrain ℚ).getHeight (-51 / 100) (1 / 2) = 51 / 50 := by
  refine ⟨?_, ?_, ?_, ?_, ?_, ?_⟩ <;>
  norm_num [Terrain.getHeight, Terrain.locate, truncToLong, Terrain.heightLL,
    Terrain.heightUR, Terrain.heightAt, rampTerrain_heightValues, rampTerrain_xyScale]

/-- C5 (evaluation at the failing input): on `rampTerrain` the second triangle of the
first cell has the vertices `(-1, 1, 0)`, `(-1, 0, 4)` and `(0, 0, 0)`. The point
`(-1, 1/4)` lies on its edge from `(-1, 1, 0)` to `(-1, 0, 4)`, with remainders
`xr = 0` and `yr = 3/4`; `getHeight` returns `1` there, while the affine interpolation
over the triangle, `(1 - yr) * UL + (yr - xr) * LL + xr * LR`, is `3`. -/
theorem getHeight_not_barycentric :
    ((rampTerrain : Terrain ℚ).vertices.drop 3).take 3 =
      [⟨-1, 1, 0⟩, ⟨-1, 0, 4⟩, ⟨0, 0, 0⟩] ∧
    (rampTerrain : Terrain ℚ).locate (-1) (1 / 4) = ⟨0, 0, 0, 3 / 4⟩ ∧
    (rampTerrain : Terrain ℚ).getHeight (-1) (1 / 4) = 1 ∧
    barycentricHeight (rampTerrain : Terrain ℚ).heightValues
      ((rampTerrain : Terrain ℚ).locate (-1) (1 / 4)) = 3 := by
  refine ⟨?_, ?_, ?_, ?_⟩
  · simp [rampTerrain, Terrain.readTerrainFile, List.range_succ, Terrain.cellTriangles,
      Terrain.gridVertex, Terrain.heightAt]
  all_goals
    norm_num [Terrain.getHeight, Terrain.locate, truncToLong, Terrain.heightLL,
      Terrain.heightUR, Terrain.heightAt, rampTerrain_heightValues, rampTerrain_xyScale,
      barycentricHeight]

/-- C6 (evaluation at the failing input): `evenTerrain` has `4` rows and spacing `3`.
Its grid vertex of row `1` and column `0` is placed at `(-6, 3)` with elevation `5` (it
is the vertex of index `4` in the triangle soup). At `(-6, 3)` `getHeight` selects row
`0`, not row `1`, and returns `heightValues[0][0] = 1` instead of
`heightValues[1][0] = 5`. -/
theorem getHeight_even_rows_off_by_one :
    (evenTerrain : Terrain ℚ).vertices.get? 4 =
      some (Terrain.gridVertex (evenTerrain : Terrain ℚ).heightValues 3 4 4 1 0) ∧
    Terrain.gridVertex (evenTerrain : Terrain ℚ).heightValues 3 4 4 1 0 = ⟨-6, 3, 5⟩ ∧
    (evenTerrain : Terrain ℚ).locate (-6) 3 = ⟨0, 0, 0, 0⟩ ∧
    (evenTerrain : Terrain ℚ).getHeight (-6) 3 = 1 ∧
    Terrain.heightAt (evenTerrain : Terrain ℚ).heightValues 1 0 = 5 := by
  refine ⟨?_, ?_, ?_, ?_, ?_⟩
  · rfl
  all_goals
    norm_num [Terrain.getHeight, Terrain.locate, truncToLong, Terrain.heightLL,
      Terrain.heightUR, Terrain.heightAt, evenTerrain_heightValues, evenTerrain_xyScale,
      Terrain.gridVertex]

/-- C7 (evaluation at the failing input): the scene constructed on a terrain of `22`
rows and `22` columns (spacing `3`) has `terrainRange = (50, 1/2)`. The position
`(50, 0)` lies within that range, and `getHeight` there selects column `27`, beyond the
last column `21`: the cell is not in the grid. -/
theorem clamped_position_outside_grid (m : CMath ℚ)
    (restPose runCycle veerLeftCycle veerRightCycle : BVH ℚ) (blend : Option (BVH ℚ)) :
    (Scene.create m squareFile restPose runCycle veerLeftCycle veerRightCycle
        blend).terrainRange = (50, 1 / 2) ∧
    (Scene.create m squareFile restPose runCycle veerLeftCycle veerRightCycle
        blend).terrain.heightValues.length = 22 ∧
    ((Scene.create m squareFile restPose runCycle veerLeftCycle veerRightCycle
        blend).terrain.heightValues.headD []).length = 22 ∧
    ((Scene.create m squareFile restPose runCycle veerLeftCycle veerRightCycle
        blend).terrain.locate 50 0).column = 27 ∧
    ¬ (Scene.create m squareFile restPose runCycle veerLeftCycle veerRightCycle
        blend).terrain.InGrid ((Scene.create m squareFile restPose runCycle veerLeftCycle
          veerRightCycle blend).terrain.locate 50 0) := by
  have ht : (Scene.create m squareFile restPose runCycle veerLeftCycle veerRightCycle
      blend).terrain = (Terrain.readTerrainFile (Terrain.empty : Terrain ℚ) squareFile 3).2 :=
    rfl
  have hrows := Terrain.readTerrainFile_rows (Terrain.empty : Terrain ℚ) squareFile 3 rfl rfl
  have hcols := Terrain.readTerrainFile_columns (Terrain.empty : Terrain ℚ) squareFile 3
    rfl rfl (by decide)
  have hs := Terrain.readTerrainFile_xyScale (Terrain.empty : Terrain ℚ) squareFile 3 rfl
  have h22 : (squareFile : TerrainFile ℚ).height.toNat = 22 := rfl
  have w22 : (squareFile : TerrainFile ℚ).width.toNat = 22 := rfl
  rw [h22] at hrows
  rw [w22] at hcols
  have hr : (Scene.create m squareFile restPose runCycle veerLeftCycle veerRightCycle
      blend).terrainRange = (50, 1 / 2) := by
    simp only [Scene.create, Scene.eventCharacterReset, hrows, hcols, hs]
    norm_num [terrainPadding]
  rw [ht]
  refine ⟨hr, hrows, hcols, ?_, ?_⟩
  · simp only [Terrain.locate, hrows, hcols, hs]
    norm_num [truncToLong]
  · simp only [Terrain.InGrid, Terrain.locate, hrows, hcols, hs]
    norm_num [truncToLong]

/-! ## Quaternions (`Quaternion.cpp`) -/

/-- C8: for all unit quaternions `q0` and `q1` and every `t`, `slerp(q0, q0, t) = q0`,
`slerp(q0, q1, 0) = q0` and `slerp(q0, q1, 1) = q1`, exactly, over any ordered field
(the reals among them) and whatever the functions `sin` and `acos` are. -/
theorem slerp_identities {K : Type} [LinearOrderedField K] (m : CMath K)
    (q0 q1 : Quaternion K) (t : K) (h0 : q0.IsUnit) (h1 : q1.IsUnit) :
    slerp m q0 q0 t = q0 ∧ slerp m q0 q1 0 = q0 ∧ slerp m q0 q1 1 = q1 := by
  refine ⟨?_, ?_, ?_⟩
  · rw [slerp_unit_eq_lerp m h0 h0]
    cases q0
    simp only [Quaternion.scale, Quaternion.add, Quaternion.mk.injEq]
    refine ⟨?_, ?_, ?_, ?_⟩ <;> ring
  · rw [slerp_unit_eq_lerp m h0 h1]
    cases q0; cases q1
    simp [Quaternion.scale, Quaternion.add]
  · rw [slerp_unit_eq_lerp m h0 h1]
    cases q0; cases q1
    simp [Quaternion.scale, Quaternion.add]

/-- C8 (witness): the identities at `q0 = (0, 0, 0, 1)`, `q1 = (0, 0, 1, 0)` and
`t = 1/2` over the reals. -/
theorem slerp_identities_witness :
    slerp ⟨Real.sin, Real.cos, Real.arccos, Real.sqrt, Real.pi⟩
      (⟨0, 0, 0, 1⟩ : Quaternion ℝ) ⟨0, 0, 0, 1⟩ (1 / 2) = ⟨0, 0, 0, 1⟩ ∧
    slerp ⟨Real.sin, Real.cos, Real.arccos, Real.sqrt, Real.pi⟩
      (⟨0, 0, 0, 1⟩ : Quaternion ℝ) ⟨0, 0, 1, 0⟩ 0 = ⟨0, 0, 0, 1⟩ ∧
    slerp ⟨Real.sin, Real.cos, Real.arccos, Real.sqrt, Real.pi⟩
      (⟨0, 0, 0, 1⟩ : Quaternion ℝ) ⟨0, 0, 1, 0⟩ 1 = ⟨0, 0, 1, 0⟩ :=
  slerp_identities _ ⟨0, 0, 0, 1⟩ ⟨0, 0, 1, 0⟩ (1 / 2)
    (by norm_num [Quaternion.IsUnit, Quaternion.dot])
    (by norm_num [Quaternion.IsUnit, Quaternion.dot])

/-- C9 (evaluation at the failing input): the unit quaternions `q0 = (0, 0, 0, 1)` and
`q1 = (0, 0, 1, 0)` have dot product `0`, which is not within epsilon of `1`. At
`t = 1/2` `slerp` returns the linear interpolation `(0, 0, 1/2, 1/2)`, while the
spherical interpolation is `(0, 0, √2/2, √2/2)`, and `√2/2 ≠ 1/2`. -/
theorem slerp_orthogonal_is_linear :
    floatEpsilon ≤ |Quaternion.dot (⟨0, 0, 0, 1⟩ : Quaternion ℝ) ⟨0, 0, 1, 0⟩ - 1| ∧
    slerp ⟨Real.sin, Real.cos, Real.arccos, Real.sqrt, Real.pi⟩
        (⟨0, 0, 0, 1⟩ : Quaternion ℝ) ⟨0, 0, 1, 0⟩ (1 / 2) = ⟨0, 0, 1 / 2, 1 / 2⟩ ∧
    sphericalInterpolation ⟨Real.sin, Real.cos, Real.arccos, Real.sqrt, Real.pi⟩
        (⟨0, 0, 0, 1⟩ : Quaternion ℝ) ⟨0, 0, 1, 0⟩ (1 / 2) =
      ⟨0, 0, Real.sqrt 2 / 2, Real.sqrt 2 / 2⟩ ∧
    Real.sqrt 2 / 2 ≠ 1 / 2 := by
  refine ⟨?_, ?_, ?_, ?_⟩
  · unfold floatEpsilon; norm_num [Quaternion.dot]
  · rw [slerp_unit_eq_lerp _ (by norm_num [Quaternion.IsUnit, Quaternion.dot])
      (by norm_num [Quaternion.IsUnit, Quaternion.dot])]
    norm_num [Quaternion.scale, Quaternion.add]
  · have h : (1 - 1 / 2 : ℝ) * (Real.pi / 2) = Real.pi / 4 := by ring
    have h2 : (1 / 2 : ℝ) * (Real.pi / 2) = Real.pi / 4 := by ring
    simp only [sphericalInterpolation, Quaternion.dot, Quaternion.scale, Quaternion.add]
    norm_num [Real.arccos_zero, h, h2, Real.sin_pi_div_four]
  · intro h
    have h2 : Real.sqrt 2 = 1 := by linarith
    have h3 := Real.sq_sqrt (show (0 : ℝ) ≤ 2 by norm_num)
    rw [h2] at h3
    norm_num at h3

/-- C10: over the reals, for every unit axis `a` and every angle `theta` in degrees,
with `t = theta * pi / 180`: `Quaternion(a, theta)` has the components
`(sin t * a, cos t)`; its `matrix()` is the rotation matrix about `a` by `2 * t`
radians, that is `2 * theta` degrees; for `a = up` that matrix is
`[[cos 2t, -sin 2t, 0, 0], [sin 2t, cos 2t, 0, 0], [0, 0, 1, 0], [0, 0, 0, 1]]`; and for
the veer constant `22.5` it is the rotation about `up` by `45` degrees. -/
theorem fromAxisAngle_rotates_twice (a : Cartesian3 ℝ) (theta : ℝ)
    (ha : a.x * a.x + a.y * a.y + a.z * a.z = 1) :
    Quaternion.fromAxisAngle ⟨Real.sin, Real.cos, Real.arccos, Real.sqrt, Real.pi⟩ a theta =
      ⟨Real.sin (theta * Real.pi / 180) * a.x, Real.sin (theta * Real.pi / 180) * a.y,
       Real.sin (theta * Real.pi / 180) * a.z, Real.cos (theta * Real.pi / 180)⟩ ∧
    (Quaternion.fromAxisAngle ⟨Real.sin, Real.cos, Real.arccos, Real.sqrt, Real.pi⟩ a
        theta).matrix =
      axisAngleRotation ⟨Real.sin, Real.cos, Real.arccos, Real.sqrt, Real.pi⟩ a
        (2 * (theta * Real.pi / 180)) ∧
    (Quaternion.fromAxisAngle ⟨Real.sin, Real.cos, Real.arccos, Real.sqrt, Real.pi⟩ up
        theta).matrix =
      !![Real.cos (2 * (theta * Real.pi / 180)), -Real.sin (2 * (theta * Real.pi / 180)), 0, 0;
         Real.sin (2 * (theta * Real.pi / 180)), Real.cos (2 * (theta * Real.pi / 180)), 0, 0;
         0, 0, 1, 0;
         0, 0, 0, 1] ∧
    (Quaternion.fromAxisAngle ⟨Real.sin, Real.cos, Real.arccos, Real.sqrt, Real.pi⟩ up
        veerRotationTheta).matrix =
      !![Real.cos (45 * Real.pi / 180), -Real.sin (45 * Real.pi / 180), 0, 0;
         Real.sin (45 * Real.pi / 180), Real.cos (45 * Real.pi / 180), 0, 0;
         0, 0, 1, 0;
         0, 0, 0, 1] := by
  have hup : (up : Cartesian3 ℝ).x * (up : Cartesian3 ℝ).x +
      (up : Cartesian3 ℝ).y * (up : Cartesian3 ℝ).y +
      (up : Cartesian3 ℝ).z * (up : Cartesian3 ℝ).z = 1 := by norm_num [up]
  have hz : ∀ th : ℝ,
      (Quaternion.fromAxisAngle ⟨Real.sin, Real.cos, Real.arccos, Real.sqrt, Real.pi⟩ up
        th).matrix =
      !![Real.cos (2 * (th * Real.pi / 180)), -Real.sin (2 * (th * Real.pi / 180)), 0, 0;
         Real.sin (2 * (th * Real.pi / 180)), Real.cos (2 * (th * Real.pi / 180)), 0, 0;
         0, 0, 1, 0;
         0, 0, 0, 1] := by
    intro th
    rw [Quaternion.fromAxisAngle_matrix_real up th hup]
    simp only [axisAngleRotation, up]
    ext i j
    fin_cases i <;> fin_cases j <;> simp
  refine ⟨Quaternion.fromAxisAngle_real a theta ha,
    Quaternion.fromAxisAngle_matrix_real a theta ha, hz theta, ?_⟩
  rw [hz veerRotationTheta]
  have e : 2 * ((veerRotationTheta : ℝ) * Real.pi / 180) = 45 * Real.pi / 180 := by
    unfold veerRotationTheta; ring
  rw [e]

/-- C10 (witness): the axis `(0, 0, 1)` is a unit vector, and with `theta = 90` the
constructor gives `(0, 0, sin (pi/2), cos (pi/2)) = (0, 0, 1, 0)`, the half turn about
`up`. -/
theorem fromAxisAngle_rotates_twice_witness :
    ((0 : ℝ) * 0 + 0 * 0 + 1 * 1 = 1) ∧
    Quaternion.fromAxisAngle ⟨Real.sin, Real.cos, Real.arccos, Real.sqrt, Real.pi⟩
        (⟨0, 0, 1⟩ : Cartesian3 ℝ) 90 = ⟨0, 0, 1, 0⟩ := by
  have h := (fromAxisAngle_rotates_twice ⟨0, 0, 1⟩ 90 (by norm_num)).1
  have e : (90 : ℝ) * Real.pi / 180 = Real.pi / 2 := by ring
  refine ⟨by norm_num, ?_⟩
  rw [h, e]
  simp

/-! ## The blend of two clips (`BVH::blend`) -/

/-- C11: for all clips `A` and `B` with the same joint count, where `A` is well formed
(its rotation series has `frameCount` rows, each with one rotation per joint) and
`A.frameCount > 0`, and for every frame `f ≥ 0`, the clip `A.blend f B` has `frameCount`
`12` and exactly `12` rotation rows, each with one rotation per joint of `A`, and its
rotations at blend frame `0` are those of `A` at frame `f mod A.frameCount`. -/
theorem blend_shape_first_frame {K : Type} [LinearOrderedField K] (A B : BVH K) (f : Int)
    (_hjoints : B.allJoints.length = A.allJoints.length)
    (hframes : (A.boneRotations.length : Int) = A.frameCount)
    (hrows : ∀ row ∈ A.boneRotations, row.length = A.allJoints.length)
    (hn : 0 < A.frameCount) (hf : 0 ≤ f) :
    (A.blend f B).frameCount = 12 ∧
    (A.blend f B).boneRotations.length = 12 ∧
    (∀ row ∈ (A.blend f B).boneRotations, row.length = A.allJoints.length) ∧
    BVH.rotationsAt (A.blend f B).boneRotations 0 =
      BVH.rotationsAt A.boneRotations (f % A.frameCount) := by
  have hmod : Int.tmod f A.frameCount = f % A.frameCount := Int.tmod_eq_emod hf hn.le
  have hlen := BVH.rotationsAt_length A (f % A.frameCount) hframes hrows
    (Int.emod_nonneg _ hn.ne') (Int.emod_lt_of_pos _ hn)
  have h12 : (12 : Int).toNat = 12 := rfl
  refine ⟨rfl, ?_, ?_, ?_⟩
  · simp [BVH.blend, h12]
  · intro row hrow
    simp only [BVH.blend, h12, List.mem_map, List.mem_range] at hrow
    obtain ⟨k, _, rfl⟩ := hrow
    simp [hmod, hlen]
  · have h0 : BVH.rotationsAt (A.blend f B).boneRotations 0 =
        (A.blend f B).boneRotations.getD 0 [] := by
      simp [BVH.rotationsAt]
    rw [h0, BVH.blend_row A B f 0 (by norm_num), hmod]
    apply List.ext_getElem
    · simp
    · intro i h1 h2
      simp only [List.length_map, List.length_range] at h1
      simp only [List.getElem_map, List.getElem_range, Nat.cast_zero, zero_div, easeInOut_zero,
        Cartesian3.add, Cartesian3.scale, sub_zero, one_mul, zero_mul, add_zero]
      rw [List.getD_eq_getElem _ _ h1]

/-- C11 (witness): the blend of `sourceClip` (one joint, two frames) at frame `3` into
`targetClip` over the rationals has `12` frames of one rotation each, and its frame `0`
is frame `3 mod 2 = 1` of `sourceClip`. -/
theorem blend_shape_first_frame_witness :
    ((sourceClip : BVH ℚ).blend 3 targetClip).frameCount = 12 ∧
    ((sourceClip : BVH ℚ).blend 3 targetClip).boneRotations.length = 12 ∧
    (∀ row ∈ ((sourceClip : BVH ℚ).blend 3 targetClip).boneRotations,
      row.length = (sourceClip : BVH ℚ).allJoints.length) ∧
    BVH.rotationsAt ((sourceClip : BVH ℚ).blend 3 targetClip).boneRotations 0 =
      BVH.rotationsAt (sourceClip : BVH ℚ).boneRotations
        (3 % (sourceClip : BVH ℚ).frameCount) :=
  blend_shape_first_frame (sourceClip : BVH ℚ) targetClip 3 rfl rfl
    (by simp [sourceClip]) (by decide) (by decide)

/-! ## Reading a clip (`BVH::readBVHFile`) -/

/-- C12: for every well-formed hierarchy section (the lines `HIERARCHY`, `ROOT name`, an
opening brace and the lines of a block `body`), followed by lines none of which starts
another hierarchy section, `readBVHFile` with at least as much fuel as the file has lines
returns `true` with a clip in which the `k`-th entry of `allJoints` has `id = k` for every
`k`, `allJoints` has one entry per joint of the section, `parentBones` has exactly one
entry per joint, `parentBones[0] = -1`, `parentBones[C.id] = P.id` for every joint `C`
among the children of a joint `P`, and every joint other than the root is such a child. -/
theorem readBVHFile_joint_numbering {K : Type} [LinearOrderedField K]
    (stof : String → K) (name : String) (body : Block)
    (hierarchy motion : List String) (fuel : Nat)
    (hhierarchy : hierarchy.map splitString =
      ["HIERARCHY"] :: ["ROOT", name] :: ["\x7b"] :: body.lines)
    (hmotion : ∀ line ∈ motion, (splitString line).getD 0 "" ≠ "HIERARCHY")
    (hfuel : (hierarchy ++ motion).length ≤ fuel) :
    ∃ clip,
      BVH.readBVHFile stof fuel (BVH.empty : BVH K) ⟨false, false, hierarchy ++ motion⟩ =
        some (true, clip) ∧
      clip.allJoints.length = body.size + 1 ∧
      (∀ k (hk : k < clip.allJoints.length), (clip.allJoints.get ⟨k, hk⟩).id = (k : Int)) ∧
      clip.parentBones.length = clip.allJoints.length ∧
      clip.parentBones.get? 0 = some (-1) ∧
      (∀ P ∈ clip.allJoints, ∀ C ∈ P.children,
        clip.parentBones.get? C.id.toNat = some P.id) ∧
      (∀ k (hk : k < clip.allJoints.length), 0 < k →
        ∃ P ∈ clip.allJoints, clip.allJoints.get ⟨k, hk⟩ ∈ P.children ∧
          clip.parentBones.get? k = some P.id) := by
  -- the lines of the hierarchy section
  obtain ⟨lh, rest1, rfl, hlh, h1⟩ := lines_split_cons hhierarchy
  obtain ⟨lr, rest2, rfl, hlr, h2⟩ := lines_split_cons h1
  obtain ⟨lb, bodyLines, rfl, hlb, h3⟩ := lines_split_cons h2
  obtain ⟨first, more, hmore⟩ := List.exists_cons_of_ne_nil body.lines_ne_nil
  rw [hmore] at h3
  obtain ⟨l1, ls1, rfl, hl1, hls1⟩ := lines_split_cons h3
  have hbodylen : (l1 :: ls1).length = body.lines.length := by
    have := congrArg List.length hls1
    simp only [List.length_map] at this
    rw [hmore, List.length_cons, List.length_cons, this]
  simp only [List.cons_append, List.length_cons, List.length_append] at hfuel
  have hfl := body.fuel_le_lines
  simp only [List.length_cons] at hbodylen
  obtain ⟨n, rfl⟩ : ∃ n, fuel = n + 2 := ⟨fuel - 2, by omega⟩
  -- reading the block of the root
  have hblock := BVH.readBlock_lines stof body n
    (BVH.enterJoint (BVH.empty : BVH K) ["ROOT", name] Joint.empty (-1)).1 (ls1 ++ motion)
    (splitString l1) (BVH.enterJoint (BVH.empty : BVH K) ["ROOT", name] Joint.empty (-1)).2
    (motion.map splitString) (by omega)
    (by rw [hl1, List.map_append, hls1, hmore, List.cons_append])
  have hdrop : (ls1 ++ motion).drop (body.lines.length - 1) = motion := by
    rw [show body.lines.length - 1 = ls1.length by omega, List.drop_left]
  rw [hdrop] at hblock
  -- the numbering of the joints of the block
  obtain ⟨b1, b2, b3, b4, kids, b5, b6, b7, b8⟩ := Block.run_numbering stof body
    (BVH.enterJoint (BVH.empty : BVH K) ["ROOT", name] Joint.empty (-1)).1
    (BVH.enterJoint (BVH.empty : BVH K) ["ROOT", name] Joint.empty (-1)).2 1
    (by simp [BVH.enterJoint, BVH.empty]) (by simp [BVH.enterJoint, BVH.empty])
  have hfields := Block.run_fields stof body
    (BVH.enterJoint (BVH.empty : BVH K) ["ROOT", name] Joint.empty (-1)).1
    (BVH.enterJoint (BVH.empty : BVH K) ["ROOT", name] Joint.empty (-1)).2
  set ran := body.run stof
    (BVH.enterJoint (BVH.empty : BVH K) ["ROOT", name] Joint.empty (-1)).1
    (BVH.enterJoint (BVH.empty : BVH K) ["ROOT", name] Joint.empty (-1)).2 with hran
  have hrootid : ran.2.id = 0 := by rw [b3]; simp [BVH.enterJoint, BVH.empty]
  have hrootkids : ran.2.children = kids := by
    rw [b5]; simp [BVH.enterJoint, Joint.empty]
  have hall0 : ran.1.allJoints = [] := by rw [hfields]; simp [BVH.enterJoint, BVH.empty]
  -- the rest of the file
  obtain ⟨clip0, hsec, c1, c2, _, c4⟩ := BVH.readSections_motion stof motion (n + 1)
    { ran.1 with root := ran.2 } (by omega) hmotion
  have hlenh : lh.length ≠ 0 := by
    intro h
    rw [splitString_of_length_zero lh h] at hlh
    exact absurd hlh (by decide)
  have hread : BVH.readBVHFile stof (n + 2) (BVH.empty : BVH K)
      ⟨false, false, lh :: lr :: lb :: l1 :: (ls1 ++ motion)⟩ =
      some (true, BVH.loadAllData
        { clip0 with allJoints := BVH.setAllJoints clip0.root clip0.allJoints }) := by
    simp only [BVH.readBVHFile, Bool.false_eq_true, if_false]
    rw [BVH.readSections]
    simp only [getline, Bool.or_self, Bool.false_eq_true, if_false, Bool.true_and, ne_eq,
      hlenh, not_false_eq_true, decide_True, if_true, hlh, List.getD_cons_zero, newLine_cons,
      hlr]
    rw [BVH.readHierarchy]
    simp only [newLine_cons, hlb, List.getD_cons_zero, if_true]
    rw [hblock]
    simp only [hsec]
  refine ⟨_, hread, ?_⟩
  have hjoints : (BVH.loadAllData
      { clip0 with allJoints := BVH.setAllJoints clip0.root clip0.allJoints }).allJoints =
      ran.2 :: BVH.setChildJoints kids [] := by
    simp only [BVH.loadAllData, c1, c2, hall0]
    rw [BVH.setAllJoints_nil, hrootkids]
  have hparents : (BVH.loadAllData
      { clip0 with allJoints := BVH.setAllJoints clip0.root clip0.allJoints }).parentBones =
      ran.1.parentBones := by
    simp only [BVH.loadAllData, c4]
  rw [hjoints, hparents]
  have hflat_len : (BVH.setChildJoints kids []).length = body.size := by
    have := congrArg List.length b6
    simpa using this
  have hid : ∀ k (hk : k < (BVH.setChildJoints kids []).length),
      ((BVH.setChildJoints kids []).get ⟨k, hk⟩).id = ((1 + k : Nat) : Int) := by
    intro k hk
    have hk' : k < body.size := by omega
    have h1 := congrArg (fun l => l[k]?) b6
    simp only [List.getElem?_map, List.getElem?_eq_getElem hk, List.getElem?_range hk',
      Option.map_some', Option.some.injEq] at h1
    rw [List.get_eq_getElem]
    exact h1
  have hparent0 : ran.1.parentBones.get? 0 = some (-1) := by
    rw [b4 0 (by omega)]; simp [BVH.enterJoint, BVH.empty]
  have hchild : ∀ P ∈ ran.2 :: BVH.setChildJoints kids [], ∀ C ∈ P.children,
      ran.1.parentBones.get? C.id.toNat = some P.id := by
    intro P hP C hC
    rcases List.mem_cons.mp hP with h | h
    · subst h
      rw [hrootkids] at hC
      have := b7 C hC
      rw [this, hrootid]
      simp [BVH.enterJoint, BVH.empty]
    · exact b8 P h C hC
  refine ⟨by simp [hflat_len], ?_, by simp [hflat_len, b2]; omega, hparent0, hchild, ?_⟩
  · intro k hk
    cases k with
    | zero => simpa using hrootid
    | succ k' =>
      have hk2 : k' < (BVH.setChildJoints kids []).length := by simpa using hk
      simp only [List.get_cons_succ]
      rw [hid k' hk2]
      push_cast; ring
  · intro k hk hpos
    obtain ⟨k', rfl⟩ : ∃ k', k = k' + 1 := ⟨k - 1, by omega⟩
    have hk2 : k' < (BVH.setChildJoints kids []).length := by simpa using hk
    simp only [List.get_cons_succ]
    have hidk := hid k' hk2
    have hmem : (BVH.setChildJoints kids []).get ⟨k', hk2⟩ ∈ BVH.setChildJoints kids [] :=
      List.get_mem _ _ _
    have hnat : ((BVH.setChildJoints kids []).get ⟨k', hk2⟩).id.toNat = k' + 1 := by
      rw [hidk]; simp; omega
    rcases BVH.mem_setChildJoints kids _ hmem with h | ⟨P, hP, hPJ⟩
    · refine ⟨ran.2, List.mem_cons_self _ _, by rw [hrootkids]; exact h, ?_⟩
      have := hchild ran.2 (List.mem_cons_self _ _) _ (by rw [hrootkids]; exact h)
      rw [hnat] at this
      exact this
    · refine ⟨P, List.mem_cons_of_mem _ hP, hPJ, ?_⟩
      have := hchild P (List.mem_cons_of_mem _ hP) _ hPJ
      rw [hnat] at this
      exact this

/-- C12 (witness): the file made of `demoHierarchy` (the joints `Hips`, `Chest`, `Head`
and `Leg`, whose root block is `demoBody`) and `demoMotion`, read over the rationals with
fuel `34`, the number of its lines. -/
theorem readBVHFile_joint_numbering_witness :
    ∃ clip,
      BVH.readBVHFile (decimalValue : String → ℚ) 34 (BVH.empty : BVH ℚ)
          ⟨false, false, demoHierarchy ++ demoMotion⟩ = some (true, clip) ∧
      clip.allJoints.length = demoBody.size + 1 ∧
      (∀ k (hk : k < clip.allJoints.length), (clip.allJoints.get ⟨k, hk⟩).id = (k : Int)) ∧
      clip.parentBones.length = clip.allJoints.length ∧
      clip.parentBones.get? 0 = some (-1) ∧
      (∀ P ∈ clip.allJoints, ∀ C ∈ P.children,
        clip.parentBones.get? C.id.toNat = some P.id) ∧
      (∀ k (hk : k < clip.allJoints.length), 0 < k →
        ∃ P ∈ clip.allJoints, clip.allJoints.get ⟨k, hk⟩ ∈ P.children ∧
          clip.parentBones.get? k = some P.id) :=
  readBVHFile_joint_numbering decimalValue "Hips" demoBody demoHierarchy demoMotion 34
    (by decide) (by decide) (by decide)

/-! ## Rendering a pose (`BVH::render`) -/

/-- C13: for every clip with `frameCount = n > 0`, every frame index `f ≥ 0` and every
integer `k ≥ 0`, the frame indices `f` and `f + k * n` have the same remainder modulo
`n` (both for the truncating `%` of C++ and for the mathematical one), so pose evaluation
reads the same row of rotations, every joint transform is the same, and `render` returns
the same cylinders. -/
theorem render_loops {K : Type} [LinearOrderedField K] (lib : Matrix4Lib K) (clip : BVH K) (viewMatrix : Matrix4 K) (scale : K)
    (f k : Int) (hn : 0 < clip.frameCount) (hf : 0 ≤ f) (hk : 0 ≤ k) :
    Int.tmod (f + k * clip.frameCount) clip.frameCount = Int.tmod f clip.frameCount ∧
    (f + k * clip.frameCount) % clip.frameCount = f % clip.frameCount ∧
    BVH.rotationsAt clip.boneRotations (Int.tmod (f + k * clip.frameCount) clip.frameCount) =
      BVH.rotationsAt clip.boneRotations (Int.tmod f clip.frameCount) ∧
    (∀ parentMatrix id,
      BVH.jointMatrix lib clip parentMatrix id scale (f + k * clip.frameCount) =
        BVH.jointMatrix lib clip parentMatrix id scale f) ∧
    clip.render lib viewMatrix scale (f + k * clip.frameCount) =
      clip.render lib viewMatrix scale f := by
  have hmod : Int.tmod (f + k * clip.frameCount) clip.frameCount =
      Int.tmod f clip.frameCount := by
    rw [Int.tmod_eq_emod (add_nonneg hf (mul_nonneg hk hn.le)) hn.le,
      Int.tmod_eq_emod hf hn.le, Int.add_mul_emod_self]
  refine ⟨hmod, Int.add_mul_emod_self, by rw [hmod], ?_, ?_⟩
  · intro p id
    exact BVH.jointMatrix_congr lib clip p id scale hmod
  · exact BVH.renderJoint_congr lib clip viewMatrix scale hmod clip.root _

/-- C13 (witness): `sourceClip` has two frames; frames `1` and `1 + 3 * 2 = 7` are
rendered alike over the reals, with the usual translation and rotation matrices. -/
theorem render_loops_witness :
    Int.tmod (1 + 3 * (sourceClip : BVH ℝ).frameCount) (sourceClip : BVH ℝ).frameCount =
      Int.tmod 1 (sourceClip : BVH ℝ).frameCount ∧
    (1 + 3 * (sourceClip : BVH ℝ).frameCount) % (sourceClip : BVH ℝ).frameCount =
      1 % (sourceClip : BVH ℝ).frameCount ∧
    BVH.rotationsAt (sourceClip : BVH ℝ).boneRotations
        (Int.tmod (1 + 3 * (sourceClip : BVH ℝ).frameCount) (sourceClip : BVH ℝ).frameCount) =
      BVH.rotationsAt (sourceClip : BVH ℝ).boneRotations
        (Int.tmod 1 (sourceClip : BVH ℝ).frameCount) ∧
    (∀ parentMatrix id,
      BVH.jointMatrix (standardMatrices ⟨Real.sin, Real.cos, Real.arccos, Real.sqrt, Real.pi⟩)
          (sourceClip : BVH ℝ) parentMatrix id bvhScale
          (1 + 3 * (sourceClip : BVH ℝ).frameCount) =
        BVH.jointMatrix (standardMatrices ⟨Real.sin, Real.cos, Real.arccos, Real.sqrt, Real.pi⟩)
          (sourceClip : BVH ℝ) parentMatrix id bvhScale 1) ∧
    (sourceClip : BVH ℝ).render
        (standardMatrices ⟨Real.sin, Real.cos, Real.arccos, Real.sqrt, Real.pi⟩) 1 bvhScale
        (1 + 3 * (sourceClip : BVH ℝ).frameCount) =
      (sourceClip : BVH ℝ).render
        (standardMatrices ⟨Real.sin, Real.cos, Real.arccos, Real.sqrt, Real.pi⟩) 1 bvhScale 1 :=
  render_loops (standardMatrices ⟨Real.sin, Real.cos, Real.arccos, Real.sqrt, Real.pi⟩)
    (sourceClip : BVH ℝ) 1 bvhScale 1 3 (by decide) (by decide) (by decide)

/-! ## The character events (`Scene.cpp`) -/

/-- C14: each of the four guarded events changes nothing when the state already is its
target (`Running` for forward, `Resting` for backward, `VeeringLeft` for turnLeft,
`VeeringRight` for turnRight). Otherwise it sets the state to the target, replaces the
blend by the blend of the current clip, at the frame counter before the event converted
to `int`, into the target clip, sets the frame counter to `0` and the current clip to the
target clip; forward also sets the speed to `1`, backward sets it to `0`, and the turn
events leave the speed as it is and set `veerFrom` to the orientation and `veerTo` to the
orientation times `Quaternion(up, 22.5)` (left) or `Quaternion(up, -22.5)` (right). The
conversion to `int` is the identity on counters below `2 ^ 31`. -/
theorem event_transitions {K : Type} [LinearOrderedField K] (m : CMath K) (s : Scene K) :
    (s.state = AnimationState.Running → s.eventCharacterForward = s) ∧
    (s.state ≠ AnimationState.Running →
      s.eventCharacterForward =
        { s with
          state := AnimationState.Running
          blendAnimation :=
            some ((s.clip s.currentAnimation).blend (toInt32 s.frameNumber) s.runCycle)
          frameNumber := 0
          currentAnimation := ClipRef.runCycle
          characterSpeed := 1 }) ∧
    (s.state = AnimationState.Resting → s.eventCharacterBackward = s) ∧
    (s.state ≠ AnimationState.Resting →
      s.eventCharacterBackward =
        { s with
          state := AnimationState.Resting
          blendAnimation :=
            some ((s.clip s.currentAnimation).blend (toInt32 s.frameNumber) s.restPose)
          frameNumber := 0
          currentAnimation := ClipRef.restPose
          characterSpeed := 0 }) ∧
    (s.state = AnimationState.VeeringLeft → s.eventCharacterTurnLeft m = s) ∧
    (s.state ≠ AnimationState.VeeringLeft →
      s.eventCharacterTurnLeft m =
        { s with
          state := AnimationState.VeeringLeft
          blendAnimation :=
            some ((s.clip s.currentAnimation).blend (toInt32 s.frameNumber) s.veerLeftCycle)
          frameNumber := 0
          currentAnimation := ClipRef.veerLeftCycle
          veerFrom := s.characterRotation
          veerTo := s.characterRotation.mul (Quaternion.fromAxisAngle m up (45 / 2)) }) ∧
    (s.state = AnimationState.VeeringRight → s.eventCharacterTurnRight m = s) ∧
    (s.state ≠ AnimationState.VeeringRight →
      s.eventCharacterTurnRight m =
        { s with
          state := AnimationState.VeeringRight
          blendAnimation :=
            some ((s.clip s.currentAnimation).blend (toInt32 s.frameNumber) s.veerRightCycle)
          frameNumber := 0
          currentAnimation := ClipRef.veerRightCycle
          veerFrom := s.characterRotation
          veerTo := s.characterRotation.mul (Quaternion.fromAxisAngle m up (-(45 / 2))) }) ∧
    (s.frameNumber < 2 ^ 31 → toInt32 s.frameNumber = s.frameNumber) := by
  refine ⟨?_, ?_, ?_, ?_, ?_, ?_, ?_, ?_, toInt32_of_lt _⟩
  · intro h; simp [Scene.eventCharacterForward, h]
  · intro h; simp [Scene.eventCharacterForward, h, Scene.blendInto, Scene.clip, speedDelta]
  · intro h; simp [Scene.eventCharacterBackward, h]
  · intro h; simp [Scene.eventCharacterBackward, h, Scene.blendInto, Scene.clip]
  · intro h; simp [Scene.eventCharacterTurnLeft, h]
  · intro h
    simp [Scene.eventCharacterTurnLeft, h, Scene.blendInto, Scene.clip, veerRotationTheta]
  · intro h; simp [Scene.eventCharacterTurnRight, h]
  · intro h
    simp [Scene.eventCharacterTurnRight, h, Scene.blendInto, Scene.clip, veerRotationTheta]

/-- C14 (witness): over the reals, a forward event leaves `runScene` (state `Running`) as
it is, and takes `restScene` (state `Resting`, frame `0`) to `Running` at speed `1` with
the blend of the rest clip at frame `0` into the run clip. -/
theorem event_transitions_witness :
    (runScene : Scene ℝ).eventCharacterForward = runScene ∧
    (restScene : Scene ℝ).eventCharacterForward =
      { (restScene : Scene ℝ) with
        state := AnimationState.Running
        blendAnimation :=
          some (((restScene : Scene ℝ).clip (restScene : Scene ℝ).currentAnimation).blend
            (toInt32 (restScene : Scene ℝ).frameNumber) (restScene : Scene ℝ).runCycle)
        frameNumber := 0
        currentAnimation := ClipRef.runCycle
        characterSpeed := 1 } :=
  ⟨(event_transitions ⟨Real.sin, Real.cos, Real.arccos, Real.sqrt, Real.pi⟩
      (runScene : Scene ℝ)).1 rfl,
    (event_transitions ⟨Real.sin, Real.cos, Real.arccos, Real.sqrt, Real.pi⟩
      (restScene : Scene ℝ)).2.1
      (show AnimationState.Resting ≠ AnimationState.Running by decide)⟩

/-- C15: from every scene, over the reals, `eventCharacterReset` sets the location to
`(0, 0, 0)`, the orientation to the identity quaternion `(0, 0, 0, 1)`, which is the
value of `Quaternion(up, 0)`, the speed to `0`, the state to `Resting`, the current clip
to the rest clip and the frame counter to `0`. -/
theorem reset_state (s : Scene ℝ) :
    (s.eventCharacterReset ⟨Real.sin, Real.cos, Real.arccos, Real.sqrt, Real.pi⟩).characterLocation
      = ⟨0, 0, 0⟩ ∧
    (s.eventCharacterReset ⟨Real.sin, Real.cos, Real.arccos, Real.sqrt, Real.pi⟩).characterRotation
      = ⟨0, 0, 0, 1⟩ ∧
    Quaternion.fromAxisAngle ⟨Real.sin, Real.cos, Real.arccos, Real.sqrt, Real.pi⟩ up (0 : ℝ) =
      ⟨0, 0, 0, 1⟩ ∧
    (s.eventCharacterReset ⟨Real.sin, Real.cos, Real.arccos, Real.sqrt, Real.pi⟩).characterSpeed
      = 0 ∧
    (s.eventCharacterReset ⟨Real.sin, Real.cos, Real.arccos, Real.sqrt, Real.pi⟩).state =
      AnimationState.Resting ∧
    (s.eventCharacterReset ⟨Real.sin, Real.cos, Real.arccos, Real.sqrt, Real.pi⟩).currentAnimation
      = ClipRef.restPose ∧
    (s.eventCharacterReset ⟨Real.sin, Real.cos, Real.arccos, Real.sqrt, Real.pi⟩).frameNumber
      = 0 := by
  have hq : Quaternion.fromAxisAngle ⟨Real.sin, Real.cos, Real.arccos, Real.sqrt, Real.pi⟩ up
      (0 : ℝ) = ⟨0, 0, 0, 1⟩ := by
    rw [Quaternion.fromAxisAngle_real up 0 (by norm_num [up])]
    simp
  exact ⟨rfl, hq, hq, rfl, rfl, rfl, rfl⟩

/-- C16 (evaluation at the failing input): over the reals, from any scene, a reset
followed by a turnLeft event and one call of `update` leaves the orientation
`(0, 0, sin(π/8)/33, 32/33 + cos(π/8)/33)`, the linear interpolation of the identity and
`Quaternion(up, 22.5)` at `1/33`, which is not a unit quaternion. -/
theorem orientation_not_unit_after_turn_tick (s : Scene ℝ) :
    (((s.eventCharacterReset ⟨Real.sin, Real.cos, Real.arccos, Real.sqrt, Real.pi⟩
        ).eventCharacterTurnLeft ⟨Real.sin, Real.cos, Real.arccos, Real.sqrt, Real.pi⟩
        ).update ⟨Real.sin, Real.cos, Real.arccos, Real.sqrt, Real.pi⟩).characterRotation =
      ⟨0, 0, Real.sin (Real.pi / 8) / 33, 32 / 33 + Real.cos (Real.pi / 8) / 33⟩ ∧
    ¬ (((s.eventCharacterReset ⟨Real.sin, Real.cos, Real.arccos, Real.sqrt, Real.pi⟩
        ).eventCharacterTurnLeft ⟨Real.sin, Real.cos, Real.arccos, Real.sqrt, Real.pi⟩
        ).update ⟨Real.sin, Real.cos, Real.arccos, Real.sqrt, Real.pi⟩
        ).characterRotation.IsUnit := by
  have hq0 : Quaternion.fromAxisAngle ⟨Real.sin, Real.cos, Real.arccos, Real.sqrt, Real.pi⟩ up
      (0 : ℝ) = ⟨0, 0, 0, 1⟩ := by
    rw [Quaternion.fromAxisAngle_real up 0 (by norm_num [up])]
    simp
  have e8 : (veerRotationTheta : ℝ) * Real.pi / 180 = Real.pi / 8 := by
    unfold veerRotationTheta; ring
  have hq1 : Quaternion.fromAxisAngle ⟨Real.sin, Real.cos, Real.arccos, Real.sqrt, Real.pi⟩ up
      (veerRotationTheta : ℝ) = ⟨0, 0, Real.sin (Real.pi / 8), Real.cos (Real.pi / 8)⟩ := by
    rw [Quaternion.fromAxisAngle_real up _ (by norm_num [up]), e8]
    simp only [up, mul_zero, mul_one]
  have hsc := Real.sin_sq_add_cos_sq (Real.pi / 8)
  have hu0 : (⟨0, 0, 0, 1⟩ : Quaternion ℝ).IsUnit := by
    norm_num [Quaternion.IsUnit, Quaternion.dot]
  have hu1 : (⟨0, 0, Real.sin (Real.pi / 8), Real.cos (Real.pi / 8)⟩ : Quaternion ℝ).IsUnit := by
    simp only [Quaternion.IsUnit, Quaternion.dot]
    nlinarith [hsc]
  have hne : (s.eventCharacterReset
      ⟨Real.sin, Real.cos, Real.arccos, Real.sqrt, Real.pi⟩).state ≠
      AnimationState.VeeringLeft := by
    show AnimationState.Resting ≠ AnimationState.VeeringLeft
    decide
  have hfrom : ((s.eventCharacterReset ⟨Real.sin, Real.cos, Real.arccos, Real.sqrt, Real.pi⟩
      ).eventCharacterTurnLeft ⟨Real.sin, Real.cos, Real.arccos, Real.sqrt, Real.pi⟩).veerFrom =
      ⟨0, 0, 0, 1⟩ := by
    simp only [Scene.eventCharacterTurnLeft, if_neg hne]
    exact hq0
  have hto : ((s.eventCharacterReset ⟨Real.sin, Real.cos, Real.arccos, Real.sqrt, Real.pi⟩
      ).eventCharacterTurnLeft ⟨Real.sin, Real.cos, Real.arccos, Real.sqrt, Real.pi⟩).veerTo =
      ⟨0, 0, Real.sin (Real.pi / 8), Real.cos (Real.pi / 8)⟩ := by
    simp only [Scene.eventCharacterTurnLeft, if_neg hne, hq1]
    have : (s.eventCharacterReset
        ⟨Real.sin, Real.cos, Real.arccos, Real.sqrt, Real.pi⟩).characterRotation =
        ⟨0, 0, 0, 1⟩ := hq0
    rw [this]
    simp only [Quaternion.mul, Quaternion.mk.injEq]
    refine ⟨?_, ?_, ?_, ?_⟩ <;> ring
  have hrot : (((s.eventCharacterReset ⟨Real.sin, Real.cos, Real.arccos, Real.sqrt, Real.pi⟩
        ).eventCharacterTurnLeft ⟨Real.sin, Real.cos, Real.arccos, Real.sqrt, Real.pi⟩
        ).update ⟨Real.sin, Real.cos, Real.arccos, Real.sqrt, Real.pi⟩).characterRotation =
      ⟨0, 0, Real.sin (Real.pi / 8) / 33, 32 / 33 + Real.cos (Real.pi / 8) / 33⟩ := by
    rw [Scene.update_first_veer_tick _ _
      ((s.eventCharacterReset ⟨Real.sin, Real.cos, Real.arccos, Real.sqrt, Real.pi⟩).blendInto
        ClipRef.veerLeftCycle)
      (by simp only [Scene.eventCharacterTurnLeft, if_neg hne]; exact Or.inl trivial)
      (by simp only [Scene.eventCharacterTurnLeft, if_neg hne])
      (by simp only [Scene.eventCharacterTurnLeft, if_neg hne]) rfl,
      hfrom, hto, slerp_unit_eq_lerp _ hu0 hu1]
    simp only [Quaternion.scale, Quaternion.add, Quaternion.mk.injEq]
    refine ⟨?_, ?_, ?_, ?_⟩ <;> ring
  refine ⟨hrot, ?_⟩
  rw [hrot]
  simp only [Quaternion.IsUnit, Quaternion.dot]
  intro h
  have hs : Real.sin (Real.pi / 8) = 0 := by nlinarith [hsc]
  have hpos : 0 < Real.sin (Real.pi / 8) :=
    Real.sin_pos_of_pos_of_lt_pi (by positivity) (by linarith [Real.pi_pos])
  linarith

/-- C17 (evaluation at the failing input): on a stream whose open failed (`failbit` set,
`badbit` clear, nothing to read) `readTerrainFile` returns `true`, and so does
`readBVHFile`, whatever the positive fuel. -/
theorem open_failure_returns_true {K : Type} [LinearOrderedField K] (stof : String → K)
    (fuel : Nat) (xyScale : K) :
    (Terrain.readTerrainFile (Terrain.empty : Terrain K) ⟨true, false, 0, 0, []⟩ xyScale).1 =
      true ∧
    (BVH.readBVHFile stof (fuel + 1) (BVH.empty : BVH K) ⟨true, false, []⟩).map Prod.fst =
      some true := by
  constructor
  · simp [Terrain.readTerrainFile]
  · simp [BVH.readBVHFile, BVH.readSections, getline]

/-! ## The weights of the blend (`BVH::blend`, `easeInOut`) -/

/-- C18: for all clips `A` and `B` with the same joint count, `A` well formed with
`A.frameCount > 0`, every `f ≥ 0`, every blend frame `k < 12` and every joint `i`, the
rotation of `A.blend f B` at frame `k` and joint `i` is
`(1 - w k) * A.rotation[f mod A.frameCount][i] + w k * B.rotation[0][i]` with
`w k = easeInOut (k / 12)`; `w 0 = 0`, `w 6 = 1/2` and `w 11 = 121/122`, so the last
blend frame equals the rotation of `B` at frame `0` exactly for the joints where the
rotations of `A` and `B` coincide. -/
theorem blend_weights {K : Type} [LinearOrderedField K] (A B : BVH K) (f : Int) (k i : Nat)
    (_hjoints : B.allJoints.length = A.allJoints.length)
    (hframes : (A.boneRotations.length : Int) = A.frameCount)
    (hrows : ∀ row ∈ A.boneRotations, row.length = A.allJoints.length)
    (hn : 0 < A.frameCount) (hf : 0 ≤ f) (hk : k < 12) (hi : i < A.allJoints.length) :
    ((A.blend f B).boneRotations.getD k []).getD i ⟨0, 0, 0⟩ =
      Cartesian3.add
        (Cartesian3.scale (1 - easeInOut ((k : K) / 12))
          ((BVH.rotationsAt A.boneRotations (f % A.frameCount)).getD i ⟨0, 0, 0⟩))
        (Cartesian3.scale (easeInOut ((k : K) / 12))
          ((BVH.rotationsAt B.boneRotations 0).getD i ⟨0, 0, 0⟩)) ∧
    easeInOut ((0 : K) / 12) = 0 ∧ easeInOut ((6 : K) / 12) = 1 / 2 ∧
    easeInOut ((11 : K) / 12) = 121 / 122 ∧
    (((A.blend f B).boneRotations.getD 11 []).getD i ⟨0, 0, 0⟩ =
        (BVH.rotationsAt B.boneRotations 0).getD i ⟨0, 0, 0⟩ ↔
      (BVH.rotationsAt A.boneRotations (f % A.frameCount)).getD i ⟨0, 0, 0⟩ =
        (BVH.rotationsAt B.boneRotations 0).getD i ⟨0, 0, 0⟩) := by
  have hmod : Int.tmod f A.frameCount = f % A.frameCount := Int.tmod_eq_emod hf hn.le
  have hlen := BVH.rotationsAt_length A (f % A.frameCount) hframes hrows
    (Int.emod_nonneg _ hn.ne') (Int.emod_lt_of_pos _ hn)
  have hi' : i < (BVH.rotationsAt A.boneRotations (Int.tmod f A.frameCount)).length := by
    rw [hmod, hlen]; exact hi
  have e11 : easeInOut ((11 : K) / 12) = 121 / 122 := by
    unfold easeInOut; norm_num
  refine ⟨?_, ?_, ?_, e11, ?_⟩
  · rw [BVH.blend_entry A B f k i hk hi', hmod]
  · unfold easeInOut; norm_num
  · unfold easeInOut; norm_num
  · have h := BVH.blend_entry A B f 11 i (by norm_num) hi'
    rw [hmod] at h
    simp only [Nat.cast_ofNat] at h
    rw [h, e11]
    generalize (BVH.rotationsAt A.boneRotations (f % A.frameCount)).getD i ⟨0, 0, 0⟩ = a
    generalize (BVH.rotationsAt B.boneRotations 0).getD i ⟨0, 0, 0⟩ = b
    cases a; cases b
    simp only [Cartesian3.add, Cartesian3.scale, Cartesian3.mk.injEq]
    constructor
    · rintro ⟨h1, h2, h3⟩
      refine ⟨?_, ?_, ?_⟩ <;> linarith
    · rintro ⟨h1, h2, h3⟩
      subst h1 h2 h3
      refine ⟨?_, ?_, ?_⟩ <;> ring

/-- C18 (witness): in the blend of `sourceClip` at frame `3` into `targetClip` over the
rationals, the rotation of the joint at the last blend frame is
`1/122 * (122, 244, 366) + 121/122 * (0, 122, 0) = (1, 123, 3)`, which is not the
rotation `(0, 122, 0)` of `targetClip`. -/
theorem blend_weights_witness :
    (((sourceClip : BVH ℚ).blend 3 targetClip).boneRotations.getD 11 []).getD 0 ⟨0, 0, 0⟩ =
      ⟨1, 123, 3⟩ ∧
    easeInOut ((11 : ℚ) / 12) = 121 / 122 :=
  ⟨(blend_weights (sourceClip : BVH ℚ) targetClip 3 11 0 rfl rfl (by simp [sourceClip])
      (by decide) (by decide) (by decide) (by decide)).1.trans
      (by norm_num [BVH.rotationsAt, sourceClip, targetClip, easeInOut, Cartesian3.add,
        Cartesian3.scale]),
    (blend_weights (sourceClip : BVH ℚ) targetClip 3 11 0 rfl rfl (by simp [sourceClip])
      (by decide) (by decide) (by decide) (by decide)).2.2.2.1⟩

/-! ## The hand-off of a blend (`Scene::update`, `Scene::render`) -/

/-- C19: let `s1` be the scene after a forward or backward event whose guard holds in
`s`, and `target` the run or the rest clip. Then a blend is active in `s1` and the frame
counter is `0`; after `k ≤ 11` calls of `update` the same blend is active, the counter
is `k`, and `render` draws frame `k` of the blend; after `12 + j` calls no blend is
active and the counter is `j` modulo `2 ^ 64`, so it is `0` after the 12th call and grows
by exactly `1` per call while it is below `2 ^ 64 - 1`; and for `j < 2 ^ 31` `render`
draws frame `j` of the target clip. -/
theorem blend_hand_off {K : Type} [LinearOrderedField K] [FloorRing K]
    (m : CMath K) (lib : Matrix4Lib K) (viewMatrix : Matrix4 K)
    (s s1 : Scene K) (target : ClipRef)
    (hevent :
      (s.state ≠ AnimationState.Running ∧ s1 = s.eventCharacterForward ∧
        target = ClipRef.runCycle) ∨
      (s.state ≠ AnimationState.Resting ∧ s1 = s.eventCharacterBackward ∧
        target = ClipRef.restPose)) :
    s1.blendAnimation =
      some ((s.clip s.currentAnimation).blend (toInt32 s.frameNumber) (s.clip target)) ∧
    s1.frameNumber = 0 ∧
    (∀ k, k ≤ 11 →
      ((Scene.update m)^[k] s1).blendAnimation = s1.blendAnimation ∧
      ((Scene.update m)^[k] s1).frameNumber = k ∧
      Scene.render lib viewMatrix ((Scene.update m)^[k] s1) =
        ((s.clip s.currentAnimation).blend (toInt32 s.frameNumber) (s.clip target)).render lib
          (viewMatrix * lib.translation ((Scene.update m)^[k] s1).characterLocation *
            ((Scene.update m)^[k] s1).characterRotation.matrix) bvhScale k) ∧
    (∀ j, ((Scene.update m)^[12 + j] s1).blendAnimation = none ∧
      ((Scene.update m)^[12 + j] s1).frameNumber = j % 2 ^ 64) ∧
    (∀ j, j + 1 < 2 ^ 64 →
      ((Scene.update m)^[12 + (j + 1)] s1).frameNumber =
        ((Scene.update m)^[12 + j] s1).frameNumber + 1) ∧
    (∀ j, j < 2 ^ 31 →
      Scene.render lib viewMatrix ((Scene.update m)^[12 + j] s1) =
        (s.clip target).render lib
          (viewMatrix * lib.translation ((Scene.update m)^[12 + j] s1).characterLocation *
            ((Scene.update m)^[12 + j] s1).characterRotation.matrix) bvhScale j) := by
  have key : s1.state ≠ AnimationState.VeeringLeft ∧ s1.state ≠ AnimationState.VeeringRight ∧
      s1.blendAnimation =
        some ((s.clip s.currentAnimation).blend (toInt32 s.frameNumber) (s.clip target)) ∧
      s1.frameNumber = 0 ∧ s1.currentAnimation = target ∧
      (∀ c, s1.clip c = s.clip c) := by
    rcases hevent with ⟨h, rfl, rfl⟩ | ⟨h, rfl, rfl⟩
    · simp only [Scene.eventCharacterForward, if_neg h, Scene.blendInto, Scene.clip]
      refine ⟨by decide, by decide, trivial, trivial, trivial, fun c => ?_⟩
      cases c <;> trivial
    · simp only [Scene.eventCharacterBackward, if_neg h, Scene.blendInto, Scene.clip]
      refine ⟨by decide, by decide, trivial, trivial, trivial, fun c => ?_⟩
      cases c <;> trivial
  obtain ⟨h1, h2, hblend, hframe, hcur, hclip⟩ := key
  obtain ⟨hA, hB⟩ := Scene.hand_off m s1 _ h1 h2 hblend rfl hframe
  refine ⟨hblend, hframe, ?_, ?_, ?_, ?_⟩
  · intro k hk
    obtain ⟨a1, a2, _⟩ := hA k hk
    refine ⟨a1.trans hblend.symm, a2, ?_⟩
    simp only [Scene.render, a1, a2]
    rw [toInt32_of_lt k (by omega)]
  · intro j
    exact ⟨(hB j).1, (hB j).2.1⟩
  · intro j hj
    rw [(hB (j + 1)).2.1, (hB j).2.1, Nat.mod_eq_of_lt hj, Nat.mod_eq_of_lt (by omega)]
  · intro j hj
    obtain ⟨b1, b2, b3⟩ := hB j
    obtain ⟨r1, r2, r3, r4⟩ := Scene.iterate_clips m s1 (12 + j)
    have hc : ((Scene.update m)^[12 + j] s1).clip target = s.clip target := by
      rw [← hclip target]
      cases target <;> simp only [Scene.clip, r1, r2, r3, r4]
    simp only [Scene.render, b1, b2, b3, hcur, hc]
    rw [Nat.mod_eq_of_lt (by omega), toInt32_of_lt j hj]

/-- C19 (witness): over the reals, after a forward event on `restScene` the blend is
still active with the counter at `11` after `11` calls of `update`, and after the 12th
call no blend is active and the counter is `0`. -/
theorem blend_hand_off_witness :
    (((Scene.update ⟨Real.sin, Real.cos, Real.arccos, Real.sqrt, Real.pi⟩)^[11]
        (restScene : Scene ℝ).eventCharacterForward).blendAnimation =
        (restScene : Scene ℝ).eventCharacterForward.blendAnimation ∧
      ((Scene.update ⟨Real.sin, Real.cos, Real.arccos, Real.sqrt, Real.pi⟩)^[11]
        (restScene : Scene ℝ).eventCharacterForward).frameNumber = 11) ∧
    ((Scene.update ⟨Real.sin, Real.cos, Real.arccos, Real.sqrt, Real.pi⟩)^[12]
        (restScene : Scene ℝ).eventCharacterForward).blendAnimation = none ∧
    ((Scene.update ⟨Real.sin, Real.cos, Real.arccos, Real.sqrt, Real.pi⟩)^[12]
        (restScene : Scene ℝ).eventCharacterForward).frameNumber = 0 :=
  ⟨⟨((blend_hand_off ⟨Real.sin, Real.cos, Real.arccos, Real.sqrt, Real.pi⟩
        (standardMatrices ⟨Real.sin, Real.cos, Real.arccos, Real.sqrt, Real.pi⟩) 1
        (restScene : Scene ℝ) (restScene : Scene ℝ).eventCharacterForward ClipRef.runCycle
        (Or.inl ⟨show AnimationState.Resting ≠ AnimationState.Running by decide, rfl,
          rfl⟩)).2.2.1 11 (le_refl 11)).1,
      ((blend_hand_off ⟨Real.sin, Real.cos, Real.arccos, Real.sqrt, Real.pi⟩
        (standardMatrices ⟨Real.sin, Real.cos, Real.arccos, Real.sqrt, Real.pi⟩) 1
        (restScene : Scene ℝ) (restScene : Scene ℝ).eventCharacterForward ClipRef.runCycle
        (Or.inl ⟨show AnimationState.Resting ≠ AnimationState.Running by decide, rfl,
          rfl⟩)).2.2.1 11 (le_refl 11)).2.1⟩,
    ((blend_hand_off ⟨Real.sin, Real.cos, Real.arccos, Real.sqrt, Real.pi⟩
      (standardMatrices ⟨Real.sin, Real.cos, Real.arccos, Real.sqrt, Real.pi⟩) 1
      (restScene : Scene ℝ) (restScene : Scene ℝ).eventCharacterForward ClipRef.runCycle
      (Or.inl ⟨show AnimationState.Resting ≠ AnimationState.Running by decide, rfl,
        rfl⟩)).2.2.2.1 0).1,
    ((blend_hand_off ⟨Real.sin, Real.cos, Real.arccos, Real.sqrt, Real.pi⟩
      (standardMatrices ⟨Real.sin, Real.cos, Real.arccos, Real.sqrt, Real.pi⟩) 1
      (restScene : Scene ℝ) (restScene : Scene ℝ).eventCharacterForward ClipRef.runCycle
      (Or.inl ⟨show AnimationState.Resting ≠ AnimationState.Running by decide, rfl,
        rfl⟩)).2.2.2.1 0).2⟩

/-! ## The rotation channels (`BVH::loadRotationData`) -/

/-- C20: for every skeleton in which each joint declares `3` or `6` channels, no channel
name is empty and the only names ending in `rotation` are `Xrotation`, `Yrotation` and
`Zrotation` (other names have no place in `rotation[3]`), and for every frame vector
whose length is the sum of the channel counts, `loadRotationData` returns exactly one
rotation per joint, in joint order; the floats of joint `j` are those from
`channelStart j`, the sum of the channel counts of the joints before it, and are as many
as its channels. The `x`, `y`, `z` components of its rotation are the floats at the
positions of the channels named `Xrotation`, `Yrotation`, `Zrotation` in the channel
list of `j` (the last such position when a name is declared twice), whatever the order
of the channels and the position channels among them, and a component whose channel is
not declared is `0`. -/
theorem loadRotationData_by_axis {K : Type} [LinearOrderedField K] (self : BVH K)
    (frames : List K)
    (hchannels : ∀ joint ∈ self.allJoints,
      joint.channels.length = 3 ∨ joint.channels.length = 6)
    (_hnames : ∀ joint ∈ self.allJoints, ∀ channel ∈ joint.channels,
      channel ≠ "" ∧ (String.mk (channel.toList.drop 1) = "rotation" →
        channel = "Xrotation" ∨ channel = "Yrotation" ∨ channel = "Zrotation"))
    (hframes : frames.length = (self.allJoints.map fun joint => joint.channels.length).sum) :
    (self.loadRotationData [] frames).length = self.allJoints.length ∧
    ∀ j (hj : j < self.allJoints.length),
      channelStart self.allJoints j + (self.allJoints.get ⟨j, hj⟩).channels.length ≤
        frames.length ∧
      ∃ rotation, (self.loadRotationData [] frames).get? j = some rotation ∧
        (∀ k, DeclaredAt (self.allJoints.get ⟨j, hj⟩).channels "Xrotation" k →
          rotation.x = frames.getD (channelStart self.allJoints j + k) 0) ∧
        (∀ k, DeclaredAt (self.allJoints.get ⟨j, hj⟩).channels "Yrotation" k →
          rotation.y = frames.getD (channelStart self.allJoints j + k) 0) ∧
        (∀ k, DeclaredAt (self.allJoints.get ⟨j, hj⟩).channels "Zrotation" k →
          rotation.z = frames.getD (channelStart self.allJoints j + k) 0) ∧
        ("Xrotation" ∉ (self.allJoints.get ⟨j, hj⟩).channels → rotation.x = 0) ∧
        ("Yrotation" ∉ (self.allJoints.get ⟨j, hj⟩).channels → rotation.y = 0) ∧
        ("Zrotation" ∉ (self.allJoints.get ⟨j, hj⟩).channels → rotation.z = 0) := by
  obtain ⟨hlen, _, hget⟩ := BVH.rotationLoop_spec frames self.allJoints 0 []
    (fun joint hjoint => by rcases hchannels joint hjoint with h | h <;> omega)
    (by rw [Nat.zero_add, hframes])
  simp only [List.length_nil, Nat.zero_add] at hlen hget
  refine ⟨hlen, fun j hj => ⟨?_, _, hget j hj, ?_⟩⟩
  · rw [hframes]
    have hsplit := List.take_append_drop j self.allJoints
    have hdrop : self.allJoints.drop j =
        self.allJoints.get ⟨j, hj⟩ :: self.allJoints.drop (j + 1) := by
      simp
    conv_rhs => rw [← hsplit, hdrop]
    simp only [channelStart, List.map_append, List.sum_append, List.map_cons, List.sum_cons]
    omega
  · obtain ⟨x1, x2⟩ := BVH.channelLoop_axis frames (channelStart self.allJoints j) "Xrotation"
      0 (fun r => r.x) (by decide) (fun c hc => (bvhChannels_rotation c hc).1)
      BVH.setRotation_x (self.allJoints.get ⟨j, hj⟩).channels 0 ⟨0, 0, 0⟩
    obtain ⟨y1, y2⟩ := BVH.channelLoop_axis frames (channelStart self.allJoints j) "Yrotation"
      1 (fun r => r.y) (by decide) (fun c hc => (bvhChannels_rotation c hc).2.1)
      BVH.setRotation_y (self.allJoints.get ⟨j, hj⟩).channels 0 ⟨0, 0, 0⟩
    obtain ⟨z1, z2⟩ := BVH.channelLoop_axis frames (channelStart self.allJoints j) "Zrotation"
      2 (fun r => r.z) (by decide) (fun c hc => (bvhChannels_rotation c hc).2.2)
      BVH.setRotation_z (self.allJoints.get ⟨j, hj⟩).channels 0 ⟨0, 0, 0⟩
    simp only [Nat.zero_add] at x2 y2 z2
    exact ⟨x2, y2, z2, x1, y1, z1⟩

/-- C20 (witness): `channelClip` has a joint with the channels `Xposition`, `Yposition`,
`Zposition`, `Zrotation`, `Xrotation`, `Yrotation` and a joint with the channels
`Zrotation`, `Xrotation`, `Yrotation`; from the floats `1` to `9` over the rationals the
rotations are `(5, 6, 4)` and `(8, 9, 7)`. -/
theorem loadRotationData_by_axis_witness :
    ((channelClip : BVH ℚ).loadRotationData [] [1, 2, 3, 4, 5, 6, 7, 8, 9]).length =
      (channelClip : BVH ℚ).allJoints.length ∧
    (channelClip : BVH ℚ).loadRotationData [] [1, 2, 3, 4, 5, 6, 7, 8, 9] =
      [⟨5, 6, 4⟩, ⟨8, 9, 7⟩] :=
  ⟨(loadRotationData_by_axis (channelClip : BVH ℚ) [1, 2, 3, 4, 5, 6, 7, 8, 9]
      (by simp [channelClip, Joint.empty]) (by decide)
      (by simp [channelClip, Joint.empty])).1,
    by decide⟩

/-! ## The motion section (`BVH::readMotion`) -/

/-- C21 (evaluation at the failing input): the line `0 12 -3.5 7` has the four tokens
`0`, `12`, `-3.5` and `7`, of which `isNumeric` holds for `0`, `12` and `7`; from the
motion section `integerMotion`, whose only frame line it is, `readMotion` stores the
single frame `[stof "-3.5"]`, whatever `stof` is: one float, not the four floats
`[stof "0", stof "12", stof "-3.5", stof "7"]` of its tokens. -/
theorem readMotion_drops_integer_tokens {K : Type} [LinearOrderedField K]
    (stof : String → K) :
    splitString "0 12 -3.5 7" = ["0", "12", "-3.5", "7"] ∧
    ["0", "12", "-3.5", "7"].map isNumeric = [true, true, false, true] ∧
    (BVH.readMotion stof (BVH.empty : BVH K) ⟨false, false, integerMotion⟩).frames =
      [[stof "-3.5"]] ∧
    (BVH.readMotion stof (BVH.empty : BVH K) ⟨false, false, integerMotion⟩).frames ≠
      [[stof "0", stof "12", stof "-3.5", stof "7"]] := by
  have hframes : (BVH.readMotion stof (BVH.empty : BVH K)
      ⟨false, false, integerMotion⟩).frames = [[stof "-3.5"]] := rfl
  refine ⟨by decide, by decide, hframes, ?_⟩
  rw [hframes]
  intro h
  have hlen := congrArg (fun frames => (frames.map List.length)) h
  simp at hlen

/-! ## The quaternion product (`Quaternion::operator*`) -/

/-- C22: `operator*` is the Hamilton product (the product of the quaternions
`w + x i + y j + z k` in Mathlib), and for all unit quaternions `p` and `q` the product
`p * q` is a unit quaternion and the matrix of `p * q` is the matrix product of the
matrices of `p` and `q`. -/
theorem mul_composes_rotations {K : Type} [LinearOrderedField K] (p q : Quaternion K)
    (hp : p.IsUnit) (hq : q.IsUnit) :
    (p.mul q).toHamilton = p.toHamilton * q.toHamilton ∧
    (p.mul q).IsUnit ∧
    (p.mul q).matrix = p.matrix * q.matrix := by
  refine ⟨Quaternion.toHamilton_mul p q, ?_, Quaternion.matrix_mul p q hp hq⟩
  unfold Quaternion.IsUnit at hp hq ⊢
  rw [Quaternion.dot_mul, hp, hq, one_mul]

/-- C22 (witness): the unit quaternions `i = (1, 0, 0, 0)` and `j = (0, 1, 0, 0)` over
the rationals; their product is `k = (0, 0, 1, 0)`. -/
theorem mul_composes_rotations_witness :
    (⟨1, 0, 0, 0⟩ : Quaternion ℚ).mul ⟨0, 1, 0, 0⟩ = ⟨0, 0, 1, 0⟩ ∧
    ((⟨1, 0, 0, 0⟩ : Quaternion ℚ).mul ⟨0, 1, 0, 0⟩).IsUnit ∧
    ((⟨1, 0, 0, 0⟩ : Quaternion ℚ).mul ⟨0, 1, 0, 0⟩).matrix =
      (⟨1, 0, 0, 0⟩ : Quaternion ℚ).matrix * (⟨0, 1, 0, 0⟩ : Quaternion ℚ).matrix :=
  ⟨by norm_num [Quaternion.mul],
    (mul_composes_rotations (⟨1, 0, 0, 0⟩ : Quaternion ℚ) ⟨0, 1, 0, 0⟩
      (by norm_num [Quaternion.IsUnit, Quaternion.dot])
      (by norm_num [Quaternion.IsUnit, Quaternion.dot])).2⟩

/-! ## The speed and the state (`Scene.cpp`) -/

/-- C23: let `r` be a scene reached from the reset state by any sequence of character
events and `update` calls. Then in `r` the speed is `0` or `1`, it is `0` in state
`Resting` and `1` in state `Running`. Any number of `update` calls from `r` without
events keeps the speed, and the state is then either still the state of `r` or, when
`r` is in a veer, the locomotion state that matches the speed: `Running` with speed `1`
or `Resting` with speed `0`. And a veer started in `r` by a turn event whose guard holds
lasts `44` calls of `update` and ends on the 45th in `Running` when the speed of `r` is
`1` and in `Resting` when it is `0`. -/
theorem speed_matches_state {K : Type} [LinearOrderedField K] [FloorRing K] (m : CMath K)
    (s r : Scene K) (calls : List CharacterEvent)
    (hr : r = Scene.run m (s.eventCharacterReset m) calls) :
    r.SpeedMatchesState ∧
    (∀ n, ((Scene.update m)^[n] r).characterSpeed = r.characterSpeed ∧
      (((Scene.update m)^[n] r).state = r.state ∨
        ((r.state = AnimationState.VeeringLeft ∨ r.state = AnimationState.VeeringRight) ∧
          ((((Scene.update m)^[n] r).state = AnimationState.Running ∧
              r.characterSpeed = 1) ∨
            (((Scene.update m)^[n] r).state = AnimationState.Resting ∧
              r.characterSpeed = 0))))) ∧
    (r.state ≠ AnimationState.VeeringLeft →
      (∀ k, k ≤ 44 →
        ((Scene.update m)^[k] (r.eventCharacterTurnLeft m)).state =
          AnimationState.VeeringLeft) ∧
      ((((Scene.update m)^[45] (r.eventCharacterTurnLeft m)).state =
            AnimationState.Running ∧ r.characterSpeed = 1) ∨
        (((Scene.update m)^[45] (r.eventCharacterTurnLeft m)).state =
            AnimationState.Resting ∧ r.characterSpeed = 0))) ∧
    (r.state ≠ AnimationState.VeeringRight →
      (∀ k, k ≤ 44 →
        ((Scene.update m)^[k] (r.eventCharacterTurnRight m)).state =
          AnimationState.VeeringRight) ∧
      ((((Scene.update m)^[45] (r.eventCharacterTurnRight m)).state =
            AnimationState.Running ∧ r.characterSpeed = 1) ∨
        (((Scene.update m)^[45] (r.eventCharacterTurnRight m)).state =
            AnimationState.Resting ∧ r.characterSpeed = 0))) := by
  have inv : r.SpeedMatchesState := by
    rw [hr]
    exact Scene.run_speedMatchesState m calls _ (Scene.reset_speedMatchesState m s)
  have hmoving : (decide (0 < r.characterSpeed) = true ∧ r.characterSpeed = 1) ∨
      (decide (0 < r.characterSpeed) = false ∧ r.characterSpeed = 0) := by
    rcases inv.1 with h | h
    · right; simp [h]
    · left; simp [h]
  have hend : ∀ t : Scene K, t.characterSpeed = r.characterSpeed →
      t.state = (if decide (0 < r.characterSpeed) then AnimationState.Running
        else AnimationState.Resting) →
      (t.state = AnimationState.Running ∧ r.characterSpeed = 1) ∨
        (t.state = AnimationState.Resting ∧ r.characterSpeed = 0) := by
    intro t _ ht
    rcases hmoving with ⟨hd, hv⟩ | ⟨hd, hv⟩
    · rw [hd] at ht; exact Or.inl ⟨ht, hv⟩
    · rw [hd] at ht; exact Or.inr ⟨ht, hv⟩
  refine ⟨inv, fun n => ?_, fun hne => ?_, fun hne => ?_⟩
  · obtain ⟨i1, i2⟩ := Scene.iterate_speed m r n
    refine ⟨i1, ?_⟩
    rcases i2 with i2 | ⟨hv, i2⟩
    · exact Or.inl i2
    · right
      refine ⟨hv, ?_⟩
      rcases locomotionState_of_speed inv.1 with ⟨e, hs⟩ | ⟨e, hs⟩
      · exact Or.inl ⟨i2.trans e, hs⟩
      · exact Or.inr ⟨i2.trans e, hs⟩
  · have h0 := Scene.control_turnLeft m r hne
    have hk : ∀ k, ((Scene.update m)^[k] (r.eventCharacterTurnLeft m)).state =
        (Control.update^[k] ⟨AnimationState.VeeringLeft, 0, some 12, ClipRef.veerLeftCycle,
          decide (0 < r.characterSpeed)⟩).state := by
      intro k
      have h := congrArg Control.state
        (Scene.control_iterate m (r.eventCharacterTurnLeft m) k)
      rw [h0] at h
      simpa only [Scene.control] using h
    obtain ⟨v1, v2, _⟩ := Control.veer_ends (decide (0 < r.characterSpeed))
    refine ⟨fun k hk44 => (hk k).trans (v1 k hk44).1, ?_⟩
    exact hend _ ((Scene.iterate_speed m _ 45).1.trans
      (by simp only [Scene.eventCharacterTurnLeft, if_neg hne])) ((hk 45).trans v2)
  · have h0 := Scene.control_turnRight m r hne
    have hk : ∀ k, ((Scene.update m)^[k] (r.eventCharacterTurnRight m)).state =
        (Control.update^[k] ⟨AnimationState.VeeringRight, 0, some 12,
          ClipRef.veerRightCycle, decide (0 < r.characterSpeed)⟩).state := by
      intro k
      have h := congrArg Control.state
        (Scene.control_iterate m (r.eventCharacterTurnRight m) k)
      rw [h0] at h
      simpa only [Scene.control] using h
    obtain ⟨v1, _, v3⟩ := Control.veer_ends (decide (0 < r.characterSpeed))
    refine ⟨fun k hk44 => (hk k).trans (v1 k hk44).2, ?_⟩
    exact hend _ ((Scene.iterate_speed m _ 45).1.trans
      (by simp only [Scene.eventCharacterTurnRight, if_neg hne])) ((hk 45).trans v3)

/-- C23 (witness): over the reals, the scene reached from the reset state of `restScene`
by a forward event, an `update`, a left-turn event and another `update`. -/
theorem speed_matches_state_witness :
    (Scene.run ⟨Real.sin, Real.cos, Real.arccos, Real.sqrt, Real.pi⟩
      ((restScene : Scene ℝ).eventCharacterReset
        ⟨Real.sin, Real.cos, Real.arccos, Real.sqrt, Real.pi⟩)
      [CharacterEvent.forward, CharacterEvent.update, CharacterEvent.turnLeft,
        CharacterEvent.update]).SpeedMatchesState :=
  (speed_matches_state ⟨Real.sin, Real.cos, Real.arccos, Real.sqrt, Real.pi⟩
    (restScene : Scene ℝ) _
    [CharacterEvent.forward, CharacterEvent.update, CharacterEvent.turnLeft,
      CharacterEvent.update] rfl).1

/-! ## The weights of `getHeight` (`Terrain.cpp`) -/

/-- C24: for every cell and all remainders `xr`, `yr` in `[0, 1]`, the three weights
`alpha`, `beta`, `gamma` of each branch of `getHeight` are non-negative and their sum is
`1`: `yr`, `(1 - yr) * xr` and `1 - alpha - beta` in the branch `xr < yr`, and `1 - yr`,
`xr * yr` and `1 - alpha - beta` in the other. So the height that `getHeight` returns for
a point of the cell lies between the least and the greatest of the three corner
elevations that its branch reads. -/
theorem getHeight_convex_combination {K : Type} [LinearOrderedField K] [FloorRing K]
    (heightValues : List (List K)) (c : GridCell K)
    (hx0 : 0 ≤ c.xRemainder) (hx1 : c.xRemainder ≤ 1)
    (hy0 : 0 ≤ c.yRemainder) (hy1 : c.yRemainder ≤ 1) :
    (Terrain.heightLL heightValues c =
        c.yRemainder * Terrain.heightAt heightValues c.row c.column +
        (1 - c.yRemainder) * c.xRemainder *
          Terrain.heightAt heightValues (c.row + 1) (c.column + 1) +
        (1 - c.yRemainder - (1 - c.yRemainder) * c.xRemainder) *
          Terrain.heightAt heightValues (c.row + 1) c.column ∧
      0 ≤ c.yRemainder ∧ 0 ≤ (1 - c.yRemainder) * c.xRemainder ∧
      0 ≤ 1 - c.yRemainder - (1 - c.yRemainder) * c.xRemainder ∧
      c.yRemainder + (1 - c.yRemainder) * c.xRemainder +
        (1 - c.yRemainder - (1 - c.yRemainder) * c.xRemainder) = 1) ∧
    (Terrain.heightUR heightValues c =
        (1 - c.yRemainder) * Terrain.heightAt heightValues c.row c.column +
        c.xRemainder * c.yRemainder *
          Terrain.heightAt heightValues (c.row + 1) (c.column + 1) +
        (1 - (1 - c.yRemainder) - c.xRemainder * c.yRemainder) *
          Terrain.heightAt heightValues c.row (c.column + 1) ∧
      0 ≤ 1 - c.yRemainder ∧ 0 ≤ c.xRemainder * c.yRemainder ∧
      0 ≤ 1 - (1 - c.yRemainder) - c.xRemainder * c.yRemainder ∧
      (1 - c.yRemainder) + c.xRemainder * c.yRemainder +
        (1 - (1 - c.yRemainder) - c.xRemainder * c.yRemainder) = 1) ∧
    (∀ (t : Terrain K) (x y : K), t.heightValues = heightValues → t.locate x y = c →
      (c.xRemainder < c.yRemainder →
        min (min (Terrain.heightAt heightValues c.row c.column)
            (Terrain.heightAt heightValues (c.row + 1) (c.column + 1)))
          (Terrain.heightAt heightValues (c.row + 1) c.column) ≤ t.getHeight x y ∧
        t.getHeight x y ≤
          max (max (Terrain.heightAt heightValues c.row c.column)
            (Terrain.heightAt heightValues (c.row + 1) (c.column + 1)))
          (Terrain.heightAt heightValues (c.row + 1) c.column)) ∧
      (¬ c.xRemainder < c.yRemainder →
        min (min (Terrain.heightAt heightValues c.row c.column)
            (Terrain.heightAt heightValues (c.row + 1) (c.column + 1)))
          (Terrain.heightAt heightValues c.row (c.column + 1)) ≤ t.getHeight x y ∧
        t.getHeight x y ≤
          max (max (Terrain.heightAt heightValues c.row c.column)
            (Terrain.heightAt heightValues (c.row + 1) (c.column + 1)))
          (Terrain.heightAt heightValues c.row (c.column + 1)))) := by
  have a1 : 0 ≤ (1 - c.yRemainder) * c.xRemainder := mul_nonneg (by linarith) hx0
  have g1 : 0 ≤ 1 - c.yRemainder - (1 - c.yRemainder) * c.xRemainder := by
    have : 1 - c.yRemainder - (1 - c.yRemainder) * c.xRemainder =
        (1 - c.yRemainder) * (1 - c.xRemainder) := by ring
    rw [this]
    exact mul_nonneg (by linarith) (by linarith)
  have s1 : c.yRemainder + (1 - c.yRemainder) * c.xRemainder +
      (1 - c.yRemainder - (1 - c.yRemainder) * c.xRemainder) = 1 := by ring
  have b2 : 0 ≤ c.xRemainder * c.yRemainder := mul_nonneg hx0 hy0
  have g2 : 0 ≤ 1 - (1 - c.yRemainder) - c.xRemainder * c.yRemainder := by
    have : 1 - (1 - c.yRemainder) - c.xRemainder * c.yRemainder =
        c.yRemainder * (1 - c.xRemainder) := by ring
    rw [this]
    exact mul_nonneg hy0 (by linarith)
  have s2 : (1 - c.yRemainder) + c.xRemainder * c.yRemainder +
      (1 - (1 - c.yRemainder) - c.xRemainder * c.yRemainder) = 1 := by ring
  refine ⟨⟨rfl, hy0, a1, g1, s1⟩, ⟨rfl, by linarith, b2, g2, s2⟩, ?_⟩
  intro t x y ht hc
  constructor
  · intro hlt
    have e : t.getHeight x y = Terrain.heightLL heightValues c := by
      simp only [Terrain.getHeight, hc, ht, if_pos hlt]
    rw [e]
    exact convex_three_bounds hy0 a1 g1 s1
  · intro hge
    have e : t.getHeight x y = Terrain.heightUR heightValues c := by
      simp only [Terrain.getHeight, hc, ht, if_neg hge]
    rw [e]
    exact convex_three_bounds (by linarith) b2 g2 s2

/-- C24 (witness): on `rampTerrain` over the rationals the point `(-1, 1/4)` lies in the
cell of row `0` and column `0` with remainders `xr = 0` and `yr = 3/4`; the height there
lies between the least and the greatest of the elevations of the upper-left, lower-right
and lower-left corners. -/
theorem getHeight_convex_combination_witness :
    min (min (Terrain.heightAt (rampTerrain : Terrain ℚ).heightValues 0 0)
        (Terrain.heightAt (rampTerrain : Terrain ℚ).heightValues (0 + 1) (0 + 1)))
      (Terrain.heightAt (rampTerrain : Terrain ℚ).heightValues (0 + 1) 0) ≤
      (rampTerrain : Terrain ℚ).getHeight (-1) (1 / 4) ∧
    (rampTerrain : Terrain ℚ).getHeight (-1) (1 / 4) ≤
      max (max (Terrain.heightAt (rampTerrain : Terrain ℚ).heightValues 0 0)
        (Terrain.heightAt (rampTerrain : Terrain ℚ).heightValues (0 + 1) (0 + 1)))
      (Terrain.heightAt (rampTerrain : Terrain ℚ).heightValues (0 + 1) 0) :=
  ((getHeight_convex_combination (rampTerrain : Terrain ℚ).heightValues ⟨0, 0, 0, 3 / 4⟩
    (by norm_num) (by norm_num) (by norm_num) (by norm_num)).2.2
    rampTerrain (-1) (1 / 4) rfl
    (by norm_num [Terrain.locate, truncToLong, rampTerrain_heightValues,
      rampTerrain_xyScale])).1 (by norm_num)

end SkeletalBlending
